import Mathlib

/-! # Theta Lake Terraform provider: REST client and resource mappers

A shallow embedding of `internal/client/client.go` and of the resource mappers in
`internal/provider`, with the properties of the natural-language specification stated
and settled against it.

Conventions of the embedding

* Go `error` values are values of `Err`; the constructor records where the error arose
  and the payload is the Go error text.
* The Go standard library (`net/url`, `encoding/json`) is not part of the repository.
  It is a parameter `L : GoStd` of every operation, so every theorem holds for every
  behaviour of the library. `stdlib` is one concrete instance, used for evaluation.
* The remote service is the field `HTTPClient` of the client: a state machine over an
  arbitrary state type `σ`. `Net σ` pairs the service state with a ghost log of every
  exchange handed to the transport, oldest first.
-/

namespace ThetaLake

/-! ## Errors -/

/-- Go `error` values of the client, tagged by origin. -/
inductive Err where
  /-- Building the request failed, from http.NewRequest. -/
  | request (msg : String)
  /-- The transport failed, from HTTPClient.Do. -/
  | transport (msg : String)
  /-- The response status is outside the accepted set; `msg` is the fmt.Errorf text. -/
  | status (code : Int) (msg : String)
  /-- Reading the response body failed, from io.ReadAll. -/
  | read (msg : String)
  /-- Decoding the response body failed, from json.Unmarshal. -/
  | decode (msg : String)
  /-- Encoding the request body failed, from json.Marshal. -/
  | encode (msg : String)
  /-- Local validation failed before any request was built. -/
  | invalid (msg : String)
  deriving DecidableEq, Repr

/-- Text of an error, Go `err.Error()`. -/
def Err.Error : Err → String
  | .request m => m
  | .transport m => m
  | .status _ m => m
  | .read m => m
  | .decode m => m
  | .encode m => m
  | .invalid m => m

/-- An unexpected-status error, whatever its code. -/
def Err.isStatus : Err → Bool
  | .status _ _ => true
  | _ => false

/-! ## HTTP data -/

/-- Go `url.URL`, the fields that the client reads or writes. -/
structure URL where
  Scheme : String
  Opaque : String
  Host : String
  Path : String
  RawQuery : String
  Fragment : String
  deriving DecidableEq, Repr

/-- Go `http.Header`: canonical key to list of values. -/
abbrev Header := List (String × List String)

/-- Go `Header.Set`: the key holds exactly the one value afterwards. -/
def Header.Set (h : Header) (key value : String) : Header :=
  (key, [value]) :: h.filter (fun p => p.1 != key)

/-- Go `Header.Values`. -/
def Header.Values (h : Header) (key : String) : List String :=
  (h.lookup key).getD []

/-- Go `http.Request`; `Body = none` is the nil body of GET and DELETE requests. -/
structure Request where
  Method : String
  URL : URL
  Header : Header
  Body : Option String
  deriving DecidableEq, Repr

/-- Go `http.Response`: the status code and what io.ReadAll yields on the body, the bytes
read and the read error if any. -/
structure Response where
  StatusCode : Int
  Body : String
  BodyErr : Option String
  deriving DecidableEq, Repr

def http.StatusOK : Int := 200
def http.StatusCreated : Int := 201
def http.StatusNoContent : Int := 204

/-- Go `io.ReadAll` on a response body: the bytes read and the error, if any. -/
def io.ReadAll (res : Response) : String × Option String :=
  (res.Body, res.BodyErr)

/-! ## JSON request bodies -/

/-- Scalar JSON values occurring in request bodies. -/
inductive JVal where
  | str (s : String)
  | int (n : Int)
  | bool (b : Bool)
  deriving DecidableEq, Repr

/-- A flat JSON object, keys in struct-field order. -/
abbrev JObj := List (String × JVal)

/-- A field tagged `omitempty`: dropped when it holds the zero value of a string. -/
def JObj.omitemptyStr (key : String) (v : String) : JObj :=
  if v = "" then [] else [(key, .str v)]

/-- A field tagged `omitempty`: dropped when it holds the zero value of an int. -/
def JObj.omitemptyInt (key : String) (v : Int) : JObj :=
  if v = 0 then [] else [(key, .int v)]

/-! ## Wire records of the client (`client.go`)

Every field carries the zero value of its Go type as default. `toJSON` is the JSON object
that json.Marshal writes for the record: the keys of the struct tags in field order, a
field tagged `omitempty` left out when it holds its zero value. -/

/-- Case represents a Theta Lake Case. -/
structure Case where
  ID : Int := 0
  Name : String := ""
  Number : String := ""
  OpenDate : String := ""
  Visibility : String := ""
  Description : String := ""
  deriving DecidableEq, Repr

def Case.toJSON (c : Case) : JObj :=
  JObj.omitemptyInt "id" c.ID ++
  [("name", .str c.Name), ("number", .str c.Number), ("open_date", .str c.OpenDate),
   ("visibility", .str c.Visibility)] ++
  JObj.omitemptyStr "description" c.Description

/-- User represents a Theta Lake User. -/
structure User where
  ID : Int := 0
  Name : String := ""
  Email : String := ""
  Password : String := ""
  PasswordConfirmation : String := ""
  RoleID : Int := 0
  SearchID : Int := 0
  deriving DecidableEq, Repr

def User.toJSON (u : User) : JObj :=
  JObj.omitemptyInt "id" u.ID ++
  [("name", .str u.Name), ("email", .str u.Email)] ++
  JObj.omitemptyStr "password" u.Password ++
  JObj.omitemptyStr "password_confirmation" u.PasswordConfirmation ++
  JObj.omitemptyInt "role_id" u.RoleID ++
  JObj.omitemptyInt "search_id" u.SearchID

/-- DirectoryGroup represents a Theta Lake Directory Group. -/
structure DirectoryGroup where
  ID : Int := 0
  Name : String := ""
  ExternalID : String := ""
  Description : String := ""
  deriving DecidableEq, Repr

def DirectoryGroup.toJSON (g : DirectoryGroup) : JObj :=
  JObj.omitemptyInt "id" g.ID ++
  [("name", .str g.Name)] ++
  JObj.omitemptyStr "external_id" g.ExternalID ++
  JObj.omitemptyStr "description" g.Description

/-- RetentionPolicy represents a Theta Lake Retention Policy. -/
structure RetentionPolicy where
  ID : Int := 0
  Name : String := ""
  Description : String := ""
  RetentionPeriodDays : Int := 0
  deriving DecidableEq, Repr

def RetentionPolicy.toJSON (p : RetentionPolicy) : JObj :=
  JObj.omitemptyInt "id" p.ID ++
  [("name", .str p.Name)] ++
  JObj.omitemptyStr "description" p.Description ++
  JObj.omitemptyInt "retention_period_days" p.RetentionPeriodDays

/-- LegalHold represents a Theta Lake Legal Hold. -/
structure LegalHold where
  ID : Int := 0
  Name : String := ""
  Description : String := ""
  CaseID : Int := 0
  deriving DecidableEq, Repr

def LegalHold.toJSON (h : LegalHold) : JObj :=
  JObj.omitemptyInt "id" h.ID ++
  [("name", .str h.Name)] ++
  JObj.omitemptyStr "description" h.Description ++
  JObj.omitemptyInt "case_id" h.CaseID

/-- Tag represents a Theta Lake Tag. -/
structure Tag where
  ID : Int := 0
  Name : String := ""
  Description : String := ""
  deriving DecidableEq, Repr

def Tag.toJSON (t : Tag) : JObj :=
  JObj.omitemptyInt "id" t.ID ++
  [("name", .str t.Name)] ++
  JObj.omitemptyStr "description" t.Description

/-- AuditLog represents a Theta Lake Audit Log entry. -/
structure AuditLog where
  ID : String := ""
  User : String := ""
  Action : String := ""
  Resource : String := ""
  Timestamp : String := ""
  deriving DecidableEq, Repr

/-- Event represents a Theta Lake Event. -/
structure Event where
  ID : String := ""
  Type_ : String := ""
  Content : String := ""
  Timestamp : String := ""
  deriving DecidableEq, Repr

/-- AnalysisPolicy represents a Theta Lake Analysis Policy. -/
structure AnalysisPolicy where
  ID : Int := 0
  Name : String := ""
  Description : String := ""
  IsBuiltIn : Bool := false
  CreatedAt : String := ""
  UpdatedAt : String := ""
  deriving DecidableEq, Repr

structure analysisPoliciesResponse where
  Policies : List AnalysisPolicy := []
  deriving DecidableEq, Repr

/-- IntegrationState represents the state of a Theta Lake Integration. -/
structure IntegrationState where
  ID : Int := 0
  Paused : Bool := false
  LastRun : String := ""
  LastUpload : String := ""
  deriving DecidableEq, Repr

structure integrationStateResponse where
  State : IntegrationState := {}
  deriving DecidableEq, Repr

structure integrationStateRequest where
  Status : String := ""
  deriving DecidableEq, Repr

def integrationStateRequest.toJSON (r : integrationStateRequest) : JObj :=
  [("status", .str r.Status)]

/-- Export represents a Theta Lake Export. -/
structure Export where
  ID : Int := 0
  Name : String := ""
  Description : String := ""
  QueryID : Int := 0
  Format : String := ""
  Status : String := ""
  DownloadURL : String := ""
  deriving DecidableEq, Repr

def Export.toJSON (e : Export) : JObj :=
  JObj.omitemptyInt "id" e.ID ++
  [("name", .str e.Name)] ++
  JObj.omitemptyStr "description" e.Description ++
  JObj.omitemptyInt "query_id" e.QueryID ++
  JObj.omitemptyStr "format" e.Format ++
  JObj.omitemptyStr "status" e.Status ++
  JObj.omitemptyStr "download_url" e.DownloadURL

/-- Record represents a Theta Lake Record. -/
structure Record where
  ID : String := ""
  ContentDate : String := ""
  Participants : List String := []
  ReviewState : String := ""
  Comment : String := ""
  deriving DecidableEq, Repr

structure recordReviewStateRequest where
  ReviewState : String := ""
  Comment : String := ""
  deriving DecidableEq, Repr

def recordReviewStateRequest.toJSON (r : recordReviewStateRequest) : JObj :=
  [("review_state", .str r.ReviewState)] ++ JObj.omitemptyStr "comment" r.Comment

/-- SystemStatus represents the Theta Lake System Status. -/
structure SystemStatus where
  Status : String := ""
  Version : String := ""
  Message : String := ""
  deriving DecidableEq, Repr

/-- PolicyHit represents a Theta Lake Analysis Policy Hit. -/
structure PolicyHit where
  ID : String := ""
  PolicyID : Int := 0
  RecordID : String := ""
  HitDate : String := ""
  Confidence : Int := 0
  deriving DecidableEq, Repr

structure policyHitsResponse where
  Hits : List PolicyHit := []
  deriving DecidableEq, Repr

/-- Analysis represents a Theta Lake Analysis result. -/
structure Analysis where
  ID : String := ""
  Name : String := ""
  Status : String := ""
  CreatedAt : String := ""
  UpdatedAt : String := ""
  Details : String := ""
  deriving DecidableEq, Repr

/-! ## The standard library as a parameter -/

/-- Go `url.Values`: key to list of values. -/
abbrev Values := List (String × List String)

/-- Go `Values.Add`: appends the value to the list held by the key. -/
def Values.Add (v : Values) (key value : String) : Values :=
  match v.lookup key with
  | some vs => v.map (fun p => if p.1 == key then (p.1, vs ++ [value]) else p)
  | none => v ++ [(key, [value])]

/-- The functions of the Go standard library that the client calls and whose code is not
part of the repository. -/
structure GoStd where
  /-- Go `url.Parse`, as called by http.NewRequest. -/
  urlParse : String → Except String URL
  /-- Go `URL.Query` on a `RawQuery`: the parsed query, parse errors dropped. -/
  urlQuery : String → Values
  /-- Go `Values.Encode`. -/
  valuesEncode : Values → String
  /-- Go `json.Marshal` on the JSON object of a request record. -/
  Marshal : JObj → Except String String
  /-- Go `json.Unmarshal` into the record type named. -/
  unmarshalCase : String → Except String Case
  unmarshalUser : String → Except String User
  unmarshalDirectoryGroup : String → Except String DirectoryGroup
  unmarshalRetentionPolicy : String → Except String RetentionPolicy
  unmarshalLegalHold : String → Except String LegalHold
  unmarshalTag : String → Except String Tag
  unmarshalAuditLogs : String → Except String (List AuditLog)
  unmarshalEvents : String → Except String (List Event)
  unmarshalAnalysisPoliciesResponse : String → Except String analysisPoliciesResponse
  unmarshalIntegrationStateResponse : String → Except String integrationStateResponse
  unmarshalExport : String → Except String Export
  unmarshalRecord : String → Except String Record
  unmarshalSystemStatus : String → Except String SystemStatus
  unmarshalPolicyHitsResponse : String → Except String policyHitsResponse
  unmarshalAnalysis : String → Except String Analysis

/-- Go `http.NewRequest`. The method is one of the constants GET, POST, PUT, DELETE in
every call of the client, so the only failure is the URL not parsing. -/
def http.NewRequest (L : GoStd) (method url : String) (body : Option String) :
    Except Err Request :=
  match L.urlParse url with
  | .error e => .error (.request e)
  | .ok u => .ok ⟨method, u, [], body⟩

/-! ## The remote service and the operation monad -/

deriving instance DecidableEq for Except

/-- One request handed to the transport, with what the transport answered. -/
structure Exchange where
  req : Request
  res : Except String Response
  deriving DecidableEq

/-- The service state together with the ghost log of exchanges, oldest first. -/
structure Net (σ : Type) where
  remote : σ
  log : List Exchange
  deriving DecidableEq

/-- How a Go call ends: a value, a returned error, or a run-time panic. -/
inductive Outcome (α : Type) where
  | ok (a : α)
  | error (e : Err)
  | panic (msg : String)
  deriving DecidableEq

/-- A Go call that may talk to the service. -/
def Op (σ α : Type) : Type := Net σ → Outcome α × Net σ

/-- Sequencing: an error return or a panic ends the call. -/
def Op.bind {σ α β : Type} (x : Op σ α) (f : α → Op σ β) : Op σ β := fun w =>
  match x w with
  | (.ok a, w1) => f a w1
  | (.error e, w1) => (.error e, w1)
  | (.panic m, w1) => (.panic m, w1)

instance {σ : Type} : Monad (Op σ) where
  pure a := fun w => (.ok a, w)
  bind := Op.bind

/-- Go `return nil, err`. -/
def Op.fail {σ α : Type} (e : Err) : Op σ α := fun w => (.error e, w)

/-- A run-time panic. -/
def Op.panic {σ α : Type} (msg : String) : Op σ α := fun w => (.panic msg, w)

/-- Go `x, err := f()`: the error return of `f` becomes a value the caller inspects. -/
def Op.try {σ α : Type} (x : Op σ α) : Op σ (Except Err α) := fun w =>
  match x w with
  | (.ok a, w1) => (.ok (.ok a), w1)
  | (.error e, w1) => (.ok (.error e), w1)
  | (.panic m, w1) => (.panic m, w1)

/-- A call returning `(value, err)` followed by `if err != nil return err`. -/
def Op.ofExcept {σ α : Type} : Except Err α → Op σ α
  | .ok a => pure a
  | .error e => Op.fail e

/-- Go `body, err := io.ReadAll(res.Body)` followed by `if err != nil return err`. -/
def Op.readAll {σ : Type} (res : Response) : Op σ String :=
  match io.ReadAll res with
  | (body, none) => pure body
  | (_, some e) => Op.fail (.read e)

/-- Go `err = json.Unmarshal(body, &v)` followed by `if err != nil return err`. -/
def Op.unmarshal {σ α : Type} : Except String α → Op σ α
  | .ok a => pure a
  | .error e => Op.fail (.decode e)

/-- Go `rb, err := json.Marshal(v)` followed by `if err != nil return err`. -/
def Op.marshal {σ : Type} : Except String String → Op σ String
  | .ok rb => pure rb
  | .error e => Op.fail (.encode e)

/-- Go `http.Client`: the transport and the service behind it. -/
structure HTTPClient (σ : Type) where
  Do : Request → σ → Except String Response × σ

/-- Client holds the connection details for the Theta Lake API. -/
structure Client (σ : Type) where
  Endpoint : String
  Token : String
  HTTPClient : HTTPClient σ

/-- The request as `DoRequest` hands it to the transport: both headers set. -/
def Client.stamp {σ : Type} (c : Client σ) (req : Request) : Request :=
  let h := req.Header.Set "Authorization" ("Bearer " ++ c.Token)
  let h := h.Set "Content-Type" "application/json"
  { req with Header := h }

/-- DoRequest performs the HTTP request. -/
def Client.DoRequest {σ : Type} (c : Client σ) (req : Request) : Op σ Response := fun w =>
  let req := c.stamp req
  match c.HTTPClient.Do req w.remote with
  | (.ok res, s) => (.ok res, ⟨s, w.log ++ [⟨req, .ok res⟩]⟩)
  | (.error e, s) => (.error (.transport e), ⟨s, w.log ++ [⟨req, .error e⟩]⟩)

/-! ## Operations of the client (`client.go`) -/

/-- GetCase retrieves a case by ID. -/
def Client.GetCase {σ : Type} (L : GoStd) (c : Client σ) (caseID : String) : Op σ Case := do
  let req ← Op.ofExcept (http.NewRequest L "GET" (c.Endpoint ++ "/cases/" ++ caseID) none)
  let res ← c.DoRequest req
  if res.StatusCode ≠ http.StatusOK then
    Op.fail (.status res.StatusCode
      ("status: " ++ toString res.StatusCode ++ ", body: " ++ "error reading body"))
  else
    let body ← Op.readAll res
    let theCase ← Op.unmarshal (L.unmarshalCase body)
    pure theCase

/-- CreateCase creates a new case. -/
def Client.CreateCase {σ : Type} (L : GoStd) (c : Client σ) (theCase : Case) : Op σ Case := do
  let rb ← Op.marshal (L.Marshal theCase.toJSON)
  let req ← Op.ofExcept (http.NewRequest L "POST" (c.Endpoint ++ "/cases") (some rb))
  let res ← c.DoRequest req
  if res.StatusCode ≠ http.StatusCreated ∧ res.StatusCode ≠ http.StatusOK then
    let body := (io.ReadAll res).1
    Op.fail (.status res.StatusCode
      ("status: " ++ toString res.StatusCode ++ ", body: " ++ body))
  else
    let body ← Op.readAll res
    let newCase ← Op.unmarshal (L.unmarshalCase body)
    pure newCase

/-- UpdateCase updates an existing case. -/
def Client.UpdateCase {σ : Type} (L : GoStd) (c : Client σ) (caseID : String) (theCase : Case) :
    Op σ Case := do
  let rb ← Op.marshal (L.Marshal theCase.toJSON)
  let req ← Op.ofExcept (http.NewRequest L "PUT" (c.Endpoint ++ "/cases/" ++ caseID) (some rb))
  let res ← c.DoRequest req
  if res.StatusCode ≠ http.StatusOK then
    let body := (io.ReadAll res).1
    Op.fail (.status res.StatusCode
      ("status: " ++ toString res.StatusCode ++ ", body: " ++ body))
  else
    let body ← Op.readAll res
    let updatedCase ← Op.unmarshal (L.unmarshalCase body)
    pure updatedCase

/-- DeleteCase deletes a case. -/
def Client.DeleteCase {σ : Type} (L : GoStd) (c : Client σ) (caseID : String) : Op σ Unit := do
  let req ← Op.ofExcept (http.NewRequest L "DELETE" (c.Endpoint ++ "/cases/" ++ caseID) none)
  let res ← c.DoRequest req
  if res.StatusCode ≠ http.StatusOK ∧ res.StatusCode ≠ http.StatusNoContent then
    Op.fail (.status res.StatusCode ("status: " ++ toString res.StatusCode))
  else
    pure ()

/-- GetUser retrieves a user by ID. -/
def Client.GetUser {σ : Type} (L : GoStd) (c : Client σ) (userID : String) : Op σ User := do
  let req ← Op.ofExcept (http.NewRequest L "GET" (c.Endpoint ++ "/users/" ++ userID) none)
  let res ← c.DoRequest req
  if res.StatusCode ≠ http.StatusOK then
    Op.fail (.status res.StatusCode
      ("status: " ++ toString res.StatusCode ++ ", body: " ++ "error reading body"))
  else
    let body ← Op.readAll res
    let user ← Op.unmarshal (L.unmarshalUser body)
    pure user

/-- CreateUser creates a new user. -/
def Client.CreateUser {σ : Type} (L : GoStd) (c : Client σ) (user : User) : Op σ User := do
  let rb ← Op.marshal (L.Marshal user.toJSON)
  let req ← Op.ofExcept (http.NewRequest L "POST" (c.Endpoint ++ "/users") (some rb))
  let res ← c.DoRequest req
  if res.StatusCode ≠ http.StatusCreated ∧ res.StatusCode ≠ http.StatusOK then
    let body := (io.ReadAll res).1
    Op.fail (.status res.StatusCode
      ("status: " ++ toString res.StatusCode ++ ", body: " ++ body))
  else
    let body ← Op.readAll res
    let newUser ← Op.unmarshal (L.unmarshalUser body)
    pure newUser

/-- UpdateUser updates an existing user. -/
def Client.UpdateUser {σ : Type} (L : GoStd) (c : Client σ) (userID : String) (user : User) :
    Op σ User := do
  let rb ← Op.marshal (L.Marshal user.toJSON)
  let req ← Op.ofExcept (http.NewRequest L "PUT" (c.Endpoint ++ "/users/" ++ userID) (some rb))
  let res ← c.DoRequest req
  if res.StatusCode ≠ http.StatusOK then
    let body := (io.ReadAll res).1
    Op.fail (.status res.StatusCode
      ("status: " ++ toString res.StatusCode ++ ", body: " ++ body))
  else
    let body ← Op.readAll res
    let updatedUser ← Op.unmarshal (L.unmarshalUser body)
    pure updatedUser

/-- DeleteUser deletes a user. -/
def Client.DeleteUser {σ : Type} (L : GoStd) (c : Client σ) (userID : String) : Op σ Unit := do
  let req ← Op.ofExcept (http.NewRequest L "DELETE" (c.Endpoint ++ "/users/" ++ userID) none)
  let res ← c.DoRequest req
  if res.StatusCode ≠ http.StatusOK ∧ res.StatusCode ≠ http.StatusNoContent then
    Op.fail (.status res.StatusCode ("status: " ++ toString res.StatusCode))
  else
    pure ()

/-- GetDirectoryGroup retrieves a directory group by ID. -/
def Client.GetDirectoryGroup {σ : Type} (L : GoStd) (c : Client σ) (groupID : String) : Op σ DirectoryGroup := do
  let req ← Op.ofExcept (http.NewRequest L "GET" (c.Endpoint ++ "/directory_groups/" ++ groupID) none)
  let res ← c.DoRequest req
  if res.StatusCode ≠ http.StatusOK then
    Op.fail (.status res.StatusCode
      ("status: " ++ toString res.StatusCode ++ ", body: " ++ "error reading body"))
  else
    let body ← Op.readAll res
    let group ← Op.unmarshal (L.unmarshalDirectoryGroup body)
    pure group

/-- CreateDirectoryGroup creates a new directory group. -/
def Client.CreateDirectoryGroup {σ : Type} (L : GoStd) (c : Client σ) (group : DirectoryGroup) : Op σ DirectoryGroup := do
  let rb ← Op.marshal (L.Marshal group.toJSON)
  let req ← Op.ofExcept (http.NewRequest L "POST" (c.Endpoint ++ "/directory_groups") (some rb))
  let res ← c.DoRequest req
  if res.StatusCode ≠ http.StatusCreated ∧ res.StatusCode ≠ http.StatusOK then
    let body := (io.ReadAll res).1
    Op.fail (.status res.StatusCode
      ("status: " ++ toString res.StatusCode ++ ", body: " ++ body))
  else
    let body ← Op.readAll res
    let newGroup ← Op.unmarshal (L.unmarshalDirectoryGroup body)
    pure newGroup

/-- UpdateDirectoryGroup updates an existing directory group. -/
def Client.UpdateDirectoryGroup {σ : Type} (L : GoStd) (c : Client σ) (groupID : String) (group : DirectoryGroup) :
    Op σ DirectoryGroup := do
  let rb ← Op.marshal (L.Marshal group.toJSON)
  let req ← Op.ofExcept (http.NewRequest L "PUT" (c.Endpoint ++ "/directory_groups/" ++ groupID) (some rb))
  let res ← c.DoRequest req
  if res.StatusCode ≠ http.StatusOK then
    let body := (io.ReadAll res).1
    Op.fail (.status res.StatusCode
      ("status: " ++ toString res.StatusCode ++ ", body: " ++ body))
  else
    let body ← Op.readAll res
    let updatedGroup ← Op.unmarshal (L.unmarshalDirectoryGroup body)
    pure updatedGroup

/-- DeleteDirectoryGroup deletes a directory group. -/
def Client.DeleteDirectoryGroup {σ : Type} (L : GoStd) (c : Client σ) (groupID : String) : Op σ Unit := do
  let req ← Op.ofExcept (http.NewRequest L "DELETE" (c.Endpoint ++ "/directory_groups/" ++ groupID) none)
  let res ← c.DoRequest req
  if res.StatusCode ≠ http.StatusOK ∧ res.StatusCode ≠ http.StatusNoContent then
    Op.fail (.status res.StatusCode ("status: " ++ toString res.StatusCode))
  else
    pure ()

/-- GetRetentionPolicy retrieves a retention policy by ID. -/
def Client.GetRetentionPolicy {σ : Type} (L : GoStd) (c : Client σ) (policyID : String) : Op σ RetentionPolicy := do
  let req ← Op.ofExcept (http.NewRequest L "GET" (c.Endpoint ++ "/retention_policies/" ++ policyID) none)
  let res ← c.DoRequest req
  if res.StatusCode ≠ http.StatusOK then
    Op.fail (.status res.StatusCode
      ("status: " ++ toString res.StatusCode ++ ", body: " ++ "error reading body"))
  else
    let body ← Op.readAll res
    let policy ← Op.unmarshal (L.unmarshalRetentionPolicy body)
    pure policy

/-- CreateRetentionPolicy creates a new retention policy. -/
def Client.CreateRetentionPolicy {σ : Type} (L : GoStd) (c : Client σ) (policy : RetentionPolicy) : Op σ RetentionPolicy := do
  let rb ← Op.marshal (L.Marshal policy.toJSON)
  let req ← Op.ofExcept (http.NewRequest L "POST" (c.Endpoint ++ "/retention_policies") (some rb))
  let res ← c.DoRequest req
  if res.StatusCode ≠ http.StatusCreated ∧ res.StatusCode ≠ http.StatusOK then
    let body := (io.ReadAll res).1
    Op.fail (.status res.StatusCode
      ("status: " ++ toString res.StatusCode ++ ", body: " ++ body))
  else
    let body ← Op.readAll res
    let newPolicy ← Op.unmarshal (L.unmarshalRetentionPolicy body)
    pure newPolicy

/-- UpdateRetentionPolicy updates an existing retention policy. -/
def Client.UpdateRetentionPolicy {σ : Type} (L : GoStd) (c : Client σ) (policyID : String) (policy : RetentionPolicy) :
    Op σ RetentionPolicy := do
  let rb ← Op.marshal (L.Marshal policy.toJSON)
  let req ← Op.ofExcept (http.NewRequest L "PUT" (c.Endpoint ++ "/retention_policies/" ++ policyID) (some rb))
  let res ← c.DoRequest req
  if res.StatusCode ≠ http.StatusOK then
    let body := (io.ReadAll res).1
    Op.fail (.status res.StatusCode
      ("status: " ++ toString res.StatusCode ++ ", body: " ++ body))
  else
    let body ← Op.readAll res
    let updatedPolicy ← Op.unmarshal (L.unmarshalRetentionPolicy body)
    pure updatedPolicy

/-- DeleteRetentionPolicy deletes a retention policy. -/
def Client.DeleteRetentionPolicy {σ : Type} (L : GoStd) (c : Client σ) (policyID : String) : Op σ Unit := do
  let req ← Op.ofExcept (http.NewRequest L "DELETE" (c.Endpoint ++ "/retention_policies/" ++ policyID) none)
  let res ← c.DoRequest req
  if res.StatusCode ≠ http.StatusOK ∧ res.StatusCode ≠ http.StatusNoContent then
    Op.fail (.status res.StatusCode ("status: " ++ toString res.StatusCode))
  else
    pure ()

/-- GetLegalHold retrieves a legal hold by ID. -/
def Client.GetLegalHold {σ : Type} (L : GoStd) (c : Client σ) (holdID : String) : Op σ LegalHold := do
  let req ← Op.ofExcept (http.NewRequest L "GET" (c.Endpoint ++ "/legal_holds/" ++ holdID) none)
  let res ← c.DoRequest req
  if res.StatusCode ≠ http.StatusOK then
    Op.fail (.status res.StatusCode
      ("status: " ++ toString res.StatusCode ++ ", body: " ++ "error reading body"))
  else
    let body ← Op.readAll res
    let hold ← Op.unmarshal (L.unmarshalLegalHold body)
    pure hold

/-- CreateLegalHold creates a new legal hold. -/
def Client.CreateLegalHold {σ : Type} (L : GoStd) (c : Client σ) (hold : LegalHold) : Op σ LegalHold := do
  let rb ← Op.marshal (L.Marshal hold.toJSON)
  let req ← Op.ofExcept (http.NewRequest L "POST" (c.Endpoint ++ "/legal_holds") (some rb))
  let res ← c.DoRequest req
  if res.StatusCode ≠ http.StatusCreated ∧ res.StatusCode ≠ http.StatusOK then
    let body := (io.ReadAll res).1
    Op.fail (.status res.StatusCode
      ("status: " ++ toString res.StatusCode ++ ", body: " ++ body))
  else
    let body ← Op.readAll res
    let newHold ← Op.unmarshal (L.unmarshalLegalHold body)
    pure newHold

/-- UpdateLegalHold updates an existing legal hold. -/
def Client.UpdateLegalHold {σ : Type} (L : GoStd) (c : Client σ) (holdID : String) (hold : LegalHold) :
    Op σ LegalHold := do
  let rb ← Op.marshal (L.Marshal hold.toJSON)
  let req ← Op.ofExcept (http.NewRequest L "PUT" (c.Endpoint ++ "/legal_holds/" ++ holdID) (some rb))
  let res ← c.DoRequest req
  if res.StatusCode ≠ http.StatusOK then
    let body := (io.ReadAll res).1
    Op.fail (.status res.StatusCode
      ("status: " ++ toString res.StatusCode ++ ", body: " ++ body))
  else
    let body ← Op.readAll res
    let updatedHold ← Op.unmarshal (L.unmarshalLegalHold body)
    pure updatedHold

/-- DeleteLegalHold deletes a legal hold. -/
def Client.DeleteLegalHold {σ : Type} (L : GoStd) (c : Client σ) (holdID : String) : Op σ Unit := do
  let req ← Op.ofExcept (http.NewRequest L "DELETE" (c.Endpoint ++ "/legal_holds/" ++ holdID) none)
  let res ← c.DoRequest req
  if res.StatusCode ≠ http.StatusOK ∧ res.StatusCode ≠ http.StatusNoContent then
    Op.fail (.status res.StatusCode ("status: " ++ toString res.StatusCode))
  else
    pure ()

/-- GetTag retrieves a tag by ID. -/
def Client.GetTag {σ : Type} (L : GoStd) (c : Client σ) (tagID : String) : Op σ Tag := do
  let req ← Op.ofExcept (http.NewRequest L "GET" (c.Endpoint ++ "/tags/" ++ tagID) none)
  let res ← c.DoRequest req
  if res.StatusCode ≠ http.StatusOK then
    Op.fail (.status res.StatusCode
      ("status: " ++ toString res.StatusCode ++ ", body: " ++ "error reading body"))
  else
    let body ← Op.readAll res
    let tag ← Op.unmarshal (L.unmarshalTag body)
    pure tag

/-- CreateTag creates a new tag. -/
def Client.CreateTag {σ : Type} (L : GoStd) (c : Client σ) (tag : Tag) : Op σ Tag := do
  let rb ← Op.marshal (L.Marshal tag.toJSON)
  let req ← Op.ofExcept (http.NewRequest L "POST" (c.Endpoint ++ "/tags") (some rb))
  let res ← c.DoRequest req
  if res.StatusCode ≠ http.StatusCreated ∧ res.StatusCode ≠ http.StatusOK then
    let body := (io.ReadAll res).1
    Op.fail (.status res.StatusCode
      ("status: " ++ toString res.StatusCode ++ ", body: " ++ body))
  else
    let body ← Op.readAll res
    let newTag ← Op.unmarshal (L.unmarshalTag body)
    pure newTag

/-- UpdateTag updates an existing tag. -/
def Client.UpdateTag {σ : Type} (L : GoStd) (c : Client σ) (tagID : String) (tag : Tag) :
    Op σ Tag := do
  let rb ← Op.marshal (L.Marshal tag.toJSON)
  let req ← Op.ofExcept (http.NewRequest L "PUT" (c.Endpoint ++ "/tags/" ++ tagID) (some rb))
  let res ← c.DoRequest req
  if res.StatusCode ≠ http.StatusOK then
    let body := (io.ReadAll res).1
    Op.fail (.status res.StatusCode
      ("status: " ++ toString res.StatusCode ++ ", body: " ++ body))
  else
    let body ← Op.readAll res
    let updatedTag ← Op.unmarshal (L.unmarshalTag body)
    pure updatedTag

/-- DeleteTag deletes a tag. -/
def Client.DeleteTag {σ : Type} (L : GoStd) (c : Client σ) (tagID : String) : Op σ Unit := do
  let req ← Op.ofExcept (http.NewRequest L "DELETE" (c.Endpoint ++ "/tags/" ++ tagID) none)
  let res ← c.DoRequest req
  if res.StatusCode ≠ http.StatusOK ∧ res.StatusCode ≠ http.StatusNoContent then
    Op.fail (.status res.StatusCode ("status: " ++ toString res.StatusCode))
  else
    pure ()

/-- GetAuditLogs retrieves audit logs. -/
def Client.GetAuditLogs {σ : Type} (L : GoStd) (c : Client σ) : Op σ (List AuditLog) := do
  let req ← Op.ofExcept (http.NewRequest L "GET" (c.Endpoint ++ "/audit_logs") none)
  let res ← c.DoRequest req
  if res.StatusCode ≠ http.StatusOK then
    Op.fail (.status res.StatusCode
      ("status: " ++ toString res.StatusCode ++ ", body: " ++ "error reading body"))
  else
    let body ← Op.readAll res
    let logs ← Op.unmarshal (L.unmarshalAuditLogs body)
    pure logs

/-- GetEvents retrieves events. -/
def Client.GetEvents {σ : Type} (L : GoStd) (c : Client σ) : Op σ (List Event) := do
  let req ← Op.ofExcept (http.NewRequest L "GET" (c.Endpoint ++ "/events") none)
  let res ← c.DoRequest req
  if res.StatusCode ≠ http.StatusOK then
    Op.fail (.status res.StatusCode
      ("status: " ++ toString res.StatusCode ++ ", body: " ++ "error reading body"))
  else
    let body ← Op.readAll res
    let events ← Op.unmarshal (L.unmarshalEvents body)
    pure events

/-- GetAnalysisPolicies retrieves analysis policies. -/
def Client.GetAnalysisPolicies {σ : Type} (L : GoStd) (c : Client σ) : Op σ (List AnalysisPolicy) := do
  let req ← Op.ofExcept (http.NewRequest L "GET" (c.Endpoint ++ "/analysis/policies") none)
  let res ← c.DoRequest req
  if res.StatusCode ≠ http.StatusOK then
    Op.fail (.status res.StatusCode
      ("status: " ++ toString res.StatusCode ++ ", body: " ++ "error reading body"))
  else
    let body ← Op.readAll res
    let response ← Op.unmarshal (L.unmarshalAnalysisPoliciesResponse body)
    pure response.Policies

/-- GetIntegrationState retrieves the state of an integration. -/
def Client.GetIntegrationState {σ : Type} (L : GoStd) (c : Client σ) (integrationID : String) : Op σ IntegrationState := do
  let req ← Op.ofExcept (http.NewRequest L "GET" (c.Endpoint ++ "/ingestion/integration/" ++ integrationID ++ "/state") none)
  let res ← c.DoRequest req
  if res.StatusCode ≠ http.StatusOK then
    Op.fail (.status res.StatusCode
      ("status: " ++ toString res.StatusCode ++ ", body: " ++ "error reading body"))
  else
    let body ← Op.readAll res
    let response ← Op.unmarshal (L.unmarshalIntegrationStateResponse body)
    pure response.State

/-- UpdateIntegrationState updates the state of an integration (pauses/unpauses). -/
def Client.UpdateIntegrationState {σ : Type} (L : GoStd) (c : Client σ)
    (integrationID : String) (paused : Bool) : Op σ IntegrationState := do
  let status := if paused then "paused" else "active"
  let reqBody : integrationStateRequest := ⟨status⟩
  let rb ← Op.marshal (L.Marshal reqBody.toJSON)
  let req ← Op.ofExcept (http.NewRequest L "PUT"
    (c.Endpoint ++ "/ingestion/integration/" ++ integrationID ++ "/state") (some rb))
  let res ← c.DoRequest req
  if res.StatusCode ≠ http.StatusOK then
    let body := (io.ReadAll res).1
    Op.fail (.status res.StatusCode
      ("status: " ++ toString res.StatusCode ++ ", body: " ++ body))
  else
    let body ← Op.readAll res
    match L.unmarshalIntegrationStateResponse body with
    | .ok response =>
      if response.State.LastRun ≠ "" then
        pure response.State
      else
        -- Fallback to GET
        c.GetIntegrationState L integrationID
    | .error _ =>
      -- Fallback to GET
      c.GetIntegrationState L integrationID

/-- GetExport retrieves an export by ID. -/
def Client.GetExport {σ : Type} (L : GoStd) (c : Client σ) (exportID : String) : Op σ Export := do
  let req ← Op.ofExcept (http.NewRequest L "GET" (c.Endpoint ++ "/exports/" ++ exportID) none)
  let res ← c.DoRequest req
  if res.StatusCode ≠ http.StatusOK then
    Op.fail (.status res.StatusCode
      ("status: " ++ toString res.StatusCode ++ ", body: " ++ "error reading body"))
  else
    let body ← Op.readAll res
    let theExport ← Op.unmarshal (L.unmarshalExport body)
    pure theExport

/-- CreateExport creates a new export. -/
def Client.CreateExport {σ : Type} (L : GoStd) (c : Client σ) (theExport : Export) : Op σ Export := do
  let rb ← Op.marshal (L.Marshal theExport.toJSON)
  let req ← Op.ofExcept (http.NewRequest L "POST" (c.Endpoint ++ "/exports") (some rb))
  let res ← c.DoRequest req
  if res.StatusCode ≠ http.StatusCreated ∧ res.StatusCode ≠ http.StatusOK then
    let body := (io.ReadAll res).1
    Op.fail (.status res.StatusCode
      ("status: " ++ toString res.StatusCode ++ ", body: " ++ body))
  else
    let body ← Op.readAll res
    let newExport ← Op.unmarshal (L.unmarshalExport body)
    pure newExport

/-- DeleteExport deletes an export. -/
def Client.DeleteExport {σ : Type} (L : GoStd) (c : Client σ) (exportID : String) : Op σ Unit := do
  let req ← Op.ofExcept (http.NewRequest L "DELETE" (c.Endpoint ++ "/exports/" ++ exportID) none)
  let res ← c.DoRequest req
  if res.StatusCode ≠ http.StatusOK ∧ res.StatusCode ≠ http.StatusNoContent then
    Op.fail (.status res.StatusCode ("status: " ++ toString res.StatusCode))
  else
    pure ()

/-- GetRecord retrieves a record by ID. -/
def Client.GetRecord {σ : Type} (L : GoStd) (c : Client σ) (recordID : String) : Op σ Record := do
  let req ← Op.ofExcept (http.NewRequest L "GET" (c.Endpoint ++ "/records/" ++ recordID) none)
  let res ← c.DoRequest req
  if res.StatusCode ≠ http.StatusOK then
    Op.fail (.status res.StatusCode
      ("status: " ++ toString res.StatusCode ++ ", body: " ++ "error reading body"))
  else
    let body ← Op.readAll res
    let record ← Op.unmarshal (L.unmarshalRecord body)
    pure record

/-- UpdateRecordReviewState updates the review state of a record. -/
def Client.UpdateRecordReviewState {σ : Type} (L : GoStd) (c : Client σ)
    (recordID reviewState comment : String) : Op σ Record := do
  let reqBody : recordReviewStateRequest := ⟨reviewState, comment⟩
  let rb ← Op.marshal (L.Marshal reqBody.toJSON)
  let req ← Op.ofExcept (http.NewRequest L "PUT"
    (c.Endpoint ++ "/records/" ++ recordID ++ "/review_state") (some rb))
  let res ← c.DoRequest req
  if res.StatusCode ≠ http.StatusOK then
    let body := (io.ReadAll res).1
    Op.fail (.status res.StatusCode
      ("status: " ++ toString res.StatusCode ++ ", body: " ++ body))
  else
    c.GetRecord L recordID

/-- GetSystemStatus retrieves the system status. -/
def Client.GetSystemStatus {σ : Type} (L : GoStd) (c : Client σ) : Op σ SystemStatus := do
  let req ← Op.ofExcept (http.NewRequest L "GET" (c.Endpoint ++ "/system/status") none)
  let res ← c.DoRequest req
  if res.StatusCode ≠ http.StatusOK then
    Op.fail (.status res.StatusCode
      ("status: " ++ toString res.StatusCode ++ ", body: " ++ "error reading body"))
  else
    let body ← Op.readAll res
    let status ← Op.unmarshal (L.unmarshalSystemStatus body)
    pure status

/-- GetAnalysisPolicyHits retrieves analysis policy hits. -/
def Client.GetAnalysisPolicyHits {σ : Type} (L : GoStd) (c : Client σ) : Op σ (List PolicyHit) := do
  let req ← Op.ofExcept (http.NewRequest L "GET" (c.Endpoint ++ "/analysis/policy_hits") none)
  let res ← c.DoRequest req
  if res.StatusCode ≠ http.StatusOK then
    Op.fail (.status res.StatusCode
      ("status: " ++ toString res.StatusCode ++ ", body: " ++ "error reading body"))
  else
    let body ← Op.readAll res
    let response ← Op.unmarshal (L.unmarshalPolicyHitsResponse body)
    pure response.Hits

/-- AddRecordToCase adds a record to a case. -/
def Client.AddRecordToCase {σ : Type} (L : GoStd) (c : Client σ) (caseID recordID : String) :
    Op σ Unit := do
  let reqBody : JObj := [("record_id", .str recordID)]
  let rb ← Op.marshal (L.Marshal reqBody)
  let req ← Op.ofExcept (http.NewRequest L "POST"
    (c.Endpoint ++ "/cases/" ++ caseID ++ "/records") (some rb))
  let res ← c.DoRequest req
  if res.StatusCode ≠ http.StatusOK ∧ res.StatusCode ≠ http.StatusCreated then
    Op.fail (.status res.StatusCode ("status: " ++ toString res.StatusCode))
  else
    pure ()

/-- RemoveRecordFromCase removes a record from a case. The result of http.NewRequest is
used before its error is checked: `req.URL.Query()` dereferences `req`, which is nil when
the request could not be built. -/
def Client.RemoveRecordFromCase {σ : Type} (L : GoStd) (c : Client σ)
    (caseID recordID : String) : Op σ Unit := do
  let built := http.NewRequest L "DELETE"
    (c.Endpoint ++ "/cases/" ++ caseID ++ "/records/" ++ recordID) none
  let req ← match built with
    | .ok req => pure req
    | .error _ => Op.panic "runtime error: invalid memory address or nil pointer dereference"
  let q := L.urlQuery req.URL.RawQuery
  let q := q.Add "record_id" recordID
  let req := { req with URL := { req.URL with RawQuery := L.valuesEncode q } }
  let _ ← Op.ofExcept built
  let res ← c.DoRequest req
  if res.StatusCode ≠ http.StatusOK ∧ res.StatusCode ≠ http.StatusNoContent then
    Op.fail (.status res.StatusCode ("status: " ++ toString res.StatusCode))
  else
    pure ()

/-- UpdateCaseStatus updates the status of a case (open/close). -/
def Client.UpdateCaseStatus {σ : Type} (L : GoStd) (c : Client σ) (caseID status : String) :
    Op σ Unit := do
  let action ←
    if status = "OPEN" ∨ status = "open" then pure "open"
    else if status = "CLOSED" ∨ status = "closed" then pure "close"
    else Op.fail (.invalid ("invalid status: " ++ status))
  let req ← Op.ofExcept
    (http.NewRequest L "PUT" (c.Endpoint ++ "/cases/" ++ caseID ++ "/" ++ action) none)
  let res ← c.DoRequest req
  if res.StatusCode ≠ http.StatusOK then
    Op.fail (.status res.StatusCode ("status: " ++ toString res.StatusCode))
  else
    pure ()

/-- GetAnalysis retrieves an analysis by ID. -/
def Client.GetAnalysis {σ : Type} (L : GoStd) (c : Client σ) (analysisID : String) : Op σ Analysis := do
  let req ← Op.ofExcept (http.NewRequest L "GET" (c.Endpoint ++ "/analysis/" ++ analysisID) none)
  let res ← c.DoRequest req
  if res.StatusCode ≠ http.StatusOK then
    Op.fail (.status res.StatusCode
      ("status: " ++ toString res.StatusCode ++ ", body: " ++ "error reading body"))
  else
    let body ← Op.readAll res
    let analysis ← Op.unmarshal (L.unmarshalAnalysis body)
    pure analysis

/-! ## Terraform plugin framework

The framework is not part of the repository. The part that the resource mappers call is
modelled here: attribute values, diagnostics, and plan/state access through a typed
record. -/

/-- Framework `types.String`: null, unknown, or a known string. -/
inductive TypesString where
  | null
  | unknown
  | value (s : String)
  deriving DecidableEq, Repr

def TypesString.IsNull : TypesString → Bool
  | .null => true
  | _ => false

def TypesString.IsUnknown : TypesString → Bool
  | .unknown => true
  | _ => false

/-- Framework `ValueString`: the known string, empty when null or unknown. -/
def TypesString.ValueString : TypesString → String
  | .value s => s
  | _ => ""

def types.StringValue (s : String) : TypesString := .value s

def types.StringNull : TypesString := .null

/-- Framework `types.Int64`: null, unknown, or a known integer. -/
inductive TypesInt64 where
  | null
  | unknown
  | value (n : Int)
  deriving DecidableEq, Repr

def TypesInt64.IsNull : TypesInt64 → Bool
  | .null => true
  | _ => false

def TypesInt64.IsUnknown : TypesInt64 → Bool
  | .unknown => true
  | _ => false

/-- Framework `ValueInt64`: the known integer, zero when null or unknown. -/
def TypesInt64.ValueInt64 : TypesInt64 → Int
  | .value n => n
  | _ => 0

def types.Int64Value (n : Int) : TypesInt64 := .value n

def types.Int64Null : TypesInt64 := .null

/-- Framework `types.Bool`: null, unknown, or a known boolean. -/
inductive TypesBool where
  | null
  | unknown
  | value (b : Bool)
  deriving DecidableEq, Repr

/-- Framework `ValueBool`: the known boolean, false when null or unknown. -/
def TypesBool.ValueBool : TypesBool → Bool
  | .value b => b
  | _ => false

def types.BoolValue (b : Bool) : TypesBool := .value b

/-- Go `strconv.Itoa`. -/
def strconv.Itoa (n : Int) : String := toString n

inductive diag.Severity where
  | Error
  | Warning
  deriving DecidableEq, Repr

/-- Framework `diag.Diagnostic`. -/
structure diag.Diagnostic where
  Severity : diag.Severity
  Summary : String
  Detail : String
  deriving DecidableEq, Repr

/-- Framework `diag.Diagnostics`, in the order reported. -/
abbrev diag.Diagnostics := List diag.Diagnostic

/-- Framework `Diagnostics.Append`: each diagnostic is added unless an equal one is
already held. -/
def diag.Diagnostics.Append (diags toAdd : diag.Diagnostics) : diag.Diagnostics :=
  toAdd.foldl (fun acc d => if d ∈ acc then acc else acc ++ [d]) diags

def diag.Diagnostics.AddError (diags : diag.Diagnostics) (summary detail : String) :
    diag.Diagnostics :=
  diags.Append [⟨.Error, summary, detail⟩]

def diag.Diagnostics.AddWarning (diags : diag.Diagnostics) (summary detail : String) :
    diag.Diagnostics :=
  diags.Append [⟨.Warning, summary, detail⟩]

def diag.Diagnostics.HasError (diags : diag.Diagnostics) : Bool :=
  diags.any (fun d => d.Severity == .Error)

/-- Framework `tfsdk.Plan` and `tfsdk.State` over the record type `M` of a resource: the
record held (none for a null value) and the diagnostics that reading it reports. -/
structure tfsdk.State (M : Type) where
  Raw : Option M
  getDiags : diag.Diagnostics := []
  deriving DecidableEq

abbrev tfsdk.Plan (M : Type) : Type := tfsdk.State M

abbrev tfsdk.Config (M : Type) : Type := tfsdk.State M

/-- Framework `Get(ctx, &data)`: the diagnostics of the conversion and the target after
it. A null value leaves the target as it was. -/
def tfsdk.State.Get {M : Type} (s : tfsdk.State M) (data : M) : diag.Diagnostics × M :=
  (s.getDiags, s.Raw.getD data)

/-- Framework `Set(ctx, &data)` with a record of the schema: the state holds the record
and no diagnostic is reported. -/
def tfsdk.State.Set {M : Type} (s : tfsdk.State M) (data : M) :
    diag.Diagnostics × tfsdk.State M :=
  ([], { s with Raw := some data })

structure resource.CreateRequest (M : Type) where
  Plan : tfsdk.Plan M

structure resource.ReadRequest (M : Type) where
  State : tfsdk.State M

structure resource.UpdateRequest (M : Type) where
  Plan : tfsdk.Plan M
  State : tfsdk.State M

structure resource.DeleteRequest (M : Type) where
  State : tfsdk.State M

/-- Framework response of a resource call: `CreateResponse`, `ReadResponse`,
`UpdateResponse` and `DeleteResponse` all carry these two fields. -/
structure resource.Response (M : Type) where
  State : tfsdk.State M
  Diagnostics : diag.Diagnostics
  deriving DecidableEq

/-- Go `resp.Diagnostics.Append(ds...)`. -/
def resource.Response.appendDiags {M : Type} (resp : resource.Response M)
    (ds : diag.Diagnostics) : resource.Response M :=
  { resp with Diagnostics := resp.Diagnostics.Append ds }

/-- Go `resp.Diagnostics.AddError(summary, detail)`. -/
def resource.Response.addError {M : Type} (resp : resource.Response M)
    (summary detail : String) : resource.Response M :=
  { resp with Diagnostics := resp.Diagnostics.AddError summary detail }

/-- Go `resp.Diagnostics.AddWarning(summary, detail)`. -/
def resource.Response.addWarning {M : Type} (resp : resource.Response M)
    (summary detail : String) : resource.Response M :=
  { resp with Diagnostics := resp.Diagnostics.AddWarning summary detail }

/-- Go `resp.Diagnostics.Append(resp.State.Set(ctx, &data)...)`. -/
def resource.Response.setState {M : Type} (resp : resource.Response M) (data : M) :
    resource.Response M :=
  let (d, st) := resp.State.Set data
  { resp with State := st, Diagnostics := resp.Diagnostics.Append d }

abbrev resource.CreateResponse (M : Type) : Type := resource.Response M
abbrev resource.ReadResponse (M : Type) : Type := resource.Response M
abbrev resource.UpdateResponse (M : Type) : Type := resource.Response M
abbrev resource.DeleteResponse (M : Type) : Type := resource.Response M
abbrev resource.ImportStateResponse (M : Type) : Type := resource.Response M

/-- Framework `resource.ImportStateRequest`: the identifier given to `terraform import`. -/
structure resource.ImportStateRequest where
  ID : String

/-! ## Resource mappers (`internal/provider`)

A mapper is called after `Configure` has stored the client, so `client` is a client and
not an optional one. -/

/-- CaseResourceModel describes the resource data model. -/
structure CaseResourceModel where
  ID : TypesString := .null
  Name : TypesString := .null
  Number : TypesString := .null
  OpenDate : TypesString := .null
  Visibility : TypesString := .null
  Description : TypesString := .null
  Status : TypesString := .null
  deriving DecidableEq, Repr

/-- CaseResource defines the resource implementation. -/
structure CaseResource (σ : Type) where
  client : Client σ

def CaseResource.Create {σ : Type} (L : GoStd) (r : CaseResource σ)
    (req : resource.CreateRequest CaseResourceModel)
    (resp : resource.CreateResponse CaseResourceModel) :
    Op σ (resource.CreateResponse CaseResourceModel) := do
  let data : CaseResourceModel := {}
  -- Read Terraform plan data into the model
  let (d, data) := req.Plan.Get data
  let resp := resp.appendDiags d
  if resp.Diagnostics.HasError then
    return resp
  let caseReq : Case :=
    { Name := data.Name.ValueString
      Number := data.Number.ValueString
      OpenDate := data.OpenDate.ValueString
      Visibility := data.Visibility.ValueString
      Description := data.Description.ValueString }
  match ← (r.client.CreateCase L caseReq).try with
  | .error err =>
    return resp.addError "Client Error" ("Unable to create case, got error: " ++ err.Error)
  | .ok createdCase =>
    let data := { data with ID := types.StringValue (strconv.Itoa createdCase.ID) }
    let data := { data with Name := types.StringValue createdCase.Name }
    let data := { data with Number := types.StringValue createdCase.Number }
    let data := { data with OpenDate := types.StringValue createdCase.OpenDate }
    let data := { data with Visibility := types.StringValue createdCase.Visibility }
    let data := { data with Description := types.StringValue createdCase.Description }
    -- Default status is usually OPEN
    let data := { data with Status := types.StringValue "OPEN" }
    -- If status is specified and different from default, update it
    if !data.Status.IsNull && !data.Status.IsUnknown then
      if data.Status.ValueString ≠ "OPEN" then
        match ← (r.client.UpdateCaseStatus L (strconv.Itoa createdCase.ID)
            data.Status.ValueString).try with
        | .error err =>
          return resp.addError "Client Error"
            ("Unable to set case status, got error: " ++ err.Error)
        | .ok _ => pure ()
    -- Save data into Terraform state
    return resp.setState data

def CaseResource.Read {σ : Type} (L : GoStd) (r : CaseResource σ)
    (req : resource.ReadRequest CaseResourceModel)
    (resp : resource.ReadResponse CaseResourceModel) :
    Op σ (resource.ReadResponse CaseResourceModel) := do
  let data : CaseResourceModel := {}
  let (d, data) := req.State.Get data
  let resp := resp.appendDiags d
  if resp.Diagnostics.HasError then
    return resp
  match ← (r.client.GetCase L data.ID.ValueString).try with
  | .error err =>
    return resp.addError "Client Error" ("Unable to read case, got error: " ++ err.Error)
  | .ok createdCase =>
    let data := { data with Name := types.StringValue createdCase.Name }
    let data := { data with Number := types.StringValue createdCase.Number }
    let data := { data with OpenDate := types.StringValue createdCase.OpenDate }
    let data := { data with Visibility := types.StringValue createdCase.Visibility }
    let data := { data with Description := types.StringValue createdCase.Description }
    return resp.setState data

def CaseResource.Update {σ : Type} (L : GoStd) (r : CaseResource σ)
    (req : resource.UpdateRequest CaseResourceModel)
    (resp : resource.UpdateResponse CaseResourceModel) :
    Op σ (resource.UpdateResponse CaseResourceModel) := do
  let data : CaseResourceModel := {}
  -- Read Terraform plan data into the model
  let (d, data) := req.Plan.Get data
  let resp := resp.appendDiags d
  if resp.Diagnostics.HasError then
    return resp
  let caseReq : Case :=
    { Name := data.Name.ValueString
      Number := data.Number.ValueString
      OpenDate := data.OpenDate.ValueString
      Visibility := data.Visibility.ValueString
      Description := data.Description.ValueString }
  match ← (r.client.UpdateCase L data.ID.ValueString caseReq).try with
  | .error err =>
    return resp.addError "Client Error" ("Unable to update case, got error: " ++ err.Error)
  | .ok updatedCase =>
    let data := { data with Name := types.StringValue updatedCase.Name }
    let data := { data with Number := types.StringValue updatedCase.Number }
    let data := { data with OpenDate := types.StringValue updatedCase.OpenDate }
    let data := { data with Visibility := types.StringValue updatedCase.Visibility }
    let data := { data with Description := types.StringValue updatedCase.Description }
    -- Handle Status update
    if !data.Status.IsNull && !data.Status.IsUnknown then
      match ← (r.client.UpdateCaseStatus L data.ID.ValueString
          data.Status.ValueString).try with
      | .error err =>
        return resp.addError "Client Error"
          ("Unable to update case status, got error: " ++ err.Error)
      | .ok _ => pure ()
    -- Save updated data into Terraform state
    return resp.setState data

/-- ExportResourceModel describes the resource data model. -/
structure ExportResourceModel where
  ID : TypesString := .null
  Name : TypesString := .null
  Description : TypesString := .null
  QueryID : TypesInt64 := .null
  Format : TypesString := .null
  Status : TypesString := .null
  DownloadURL : TypesString := .null
  deriving DecidableEq, Repr

/-- ExportResource defines the resource implementation. -/
structure ExportResource (σ : Type) where
  client : Client σ

def ExportResource.Update {σ : Type} (_r : ExportResource σ)
    (req : resource.UpdateRequest ExportResourceModel)
    (resp : resource.UpdateResponse ExportResourceModel) :
    Op σ (resource.UpdateResponse ExportResourceModel) := do
  let data : ExportResourceModel := {}
  let (d, data) := req.Plan.Get data
  let resp := resp.appendDiags d
  if resp.Diagnostics.HasError then
    return resp
  let resp := resp.addWarning "Update Not Supported"
    "Updating exports is not fully supported by this provider version."
  return resp.setState data

def ExportResource.Read {σ : Type} (L : GoStd) (r : ExportResource σ)
    (req : resource.ReadRequest ExportResourceModel)
    (resp : resource.ReadResponse ExportResourceModel) :
    Op σ (resource.ReadResponse ExportResourceModel) := do
  let data : ExportResourceModel := {}
  let (d, data) := req.State.Get data
  let resp := resp.appendDiags d
  if resp.Diagnostics.HasError then
    return resp
  match ← (r.client.GetExport L data.ID.ValueString).try with
  | .error err =>
    return resp.addError "Client Error" ("Unable to read export, got error: " ++ err.Error)
  | .ok createdExport =>
    let data := { data with Name := types.StringValue createdExport.Name }
    let data := { data with Description := types.StringValue createdExport.Description }
    let data := { data with Format := types.StringValue createdExport.Format }
    let data := { data with Status := types.StringValue createdExport.Status }
    let data := { data with DownloadURL := types.StringValue createdExport.DownloadURL }
    let data :=
      if createdExport.QueryID ≠ 0 then { data with QueryID := types.Int64Value createdExport.QueryID }
      else { data with QueryID := types.Int64Null }
    return resp.setState data

/-- UserResourceModel describes the resource data model. -/
structure UserResourceModel where
  ID : TypesString := .null
  Name : TypesString := .null
  Email : TypesString := .null
  Password : TypesString := .null
  PasswordConfirmation : TypesString := .null
  RoleID : TypesInt64 := .null
  SearchID : TypesInt64 := .null
  deriving DecidableEq, Repr

/-- UserResource defines the resource implementation. -/
structure UserResource (σ : Type) where
  client : Client σ

def UserResource.Read {σ : Type} (L : GoStd) (r : UserResource σ)
    (req : resource.ReadRequest UserResourceModel)
    (resp : resource.ReadResponse UserResourceModel) :
    Op σ (resource.ReadResponse UserResourceModel) := do
  let data : UserResourceModel := {}
  let (d, data) := req.State.Get data
  let resp := resp.appendDiags d
  if resp.Diagnostics.HasError then
    return resp
  match ← (r.client.GetUser L data.ID.ValueString).try with
  | .error err =>
    return resp.addError "Client Error" ("Unable to read user, got error: " ++ err.Error)
  | .ok createdUser =>
    let data := { data with Name := types.StringValue createdUser.Name }
    let data := { data with Email := types.StringValue createdUser.Email }
    let data := { data with RoleID := types.Int64Value createdUser.RoleID }
    let data :=
      if createdUser.SearchID ≠ 0 then { data with SearchID := types.Int64Value createdUser.SearchID }
      else { data with SearchID := types.Int64Null }
    return resp.setState data

def UserResource.Update {σ : Type} (L : GoStd) (r : UserResource σ)
    (req : resource.UpdateRequest UserResourceModel)
    (resp : resource.UpdateResponse UserResourceModel) :
    Op σ (resource.UpdateResponse UserResourceModel) := do
  let data : UserResourceModel := {}
  let (d, data) := req.Plan.Get data
  let resp := resp.appendDiags d
  if resp.Diagnostics.HasError then
    return resp
  let userReq : User :=
    { Name := data.Name.ValueString
      Email := data.Email.ValueString
      RoleID := data.RoleID.ValueInt64 }
  let userReq :=
    if !data.SearchID.IsNull && !data.SearchID.IsUnknown then
      { userReq with SearchID := data.SearchID.ValueInt64 }
    else userReq
  match ← (r.client.UpdateUser L data.ID.ValueString userReq).try with
  | .error err =>
    return resp.addError "Client Error" ("Unable to update user, got error: " ++ err.Error)
  | .ok updatedUser =>
    let data := { data with Name := types.StringValue updatedUser.Name }
    let data := { data with Email := types.StringValue updatedUser.Email }
    let data := { data with RoleID := types.Int64Value updatedUser.RoleID }
    let data :=
      if updatedUser.SearchID ≠ 0 then { data with SearchID := types.Int64Value updatedUser.SearchID }
      else { data with SearchID := types.Int64Null }
    return resp.setState data

/-- DirectoryGroupResourceModel describes the resource data model. -/
structure DirectoryGroupResourceModel where
  ID : TypesString := .null
  Name : TypesString := .null
  ExternalID : TypesString := .null
  Description : TypesString := .null
  deriving DecidableEq, Repr

/-- DirectoryGroupResource defines the resource implementation. -/
structure DirectoryGroupResource (σ : Type) where
  client : Client σ

def DirectoryGroupResource.Read {σ : Type} (L : GoStd) (r : DirectoryGroupResource σ)
    (req : resource.ReadRequest DirectoryGroupResourceModel)
    (resp : resource.ReadResponse DirectoryGroupResourceModel) :
    Op σ (resource.ReadResponse DirectoryGroupResourceModel) := do
  let data : DirectoryGroupResourceModel := {}
  let (d, data) := req.State.Get data
  let resp := resp.appendDiags d
  if resp.Diagnostics.HasError then
    return resp
  match ← (r.client.GetDirectoryGroup L data.ID.ValueString).try with
  | .error err =>
    return resp.addError "Client Error" ("Unable to read directory group, got error: " ++ err.Error)
  | .ok createdGroup =>
    let data := { data with Name := types.StringValue createdGroup.Name }
    let data := { data with ExternalID := types.StringValue createdGroup.ExternalID }
    let data := { data with Description := types.StringValue createdGroup.Description }
    return resp.setState data

def DirectoryGroupResource.Update {σ : Type} (L : GoStd) (r : DirectoryGroupResource σ)
    (req : resource.UpdateRequest DirectoryGroupResourceModel)
    (resp : resource.UpdateResponse DirectoryGroupResourceModel) :
    Op σ (resource.UpdateResponse DirectoryGroupResourceModel) := do
  let data : DirectoryGroupResourceModel := {}
  let (d, data) := req.Plan.Get data
  let resp := resp.appendDiags d
  if resp.Diagnostics.HasError then
    return resp
  let groupReq : DirectoryGroup :=
    { Name := data.Name.ValueString
      ExternalID := data.ExternalID.ValueString
      Description := data.Description.ValueString }
  match ← (r.client.UpdateDirectoryGroup L data.ID.ValueString groupReq).try with
  | .error err =>
    return resp.addError "Client Error" ("Unable to update directory group, got error: " ++ err.Error)
  | .ok updatedGroup =>
    let data := { data with Name := types.StringValue updatedGroup.Name }
    let data := { data with ExternalID := types.StringValue updatedGroup.ExternalID }
    let data := { data with Description := types.StringValue updatedGroup.Description }
    return resp.setState data

/-- RetentionPolicyResourceModel describes the resource data model. -/
structure RetentionPolicyResourceModel where
  ID : TypesString := .null
  Name : TypesString := .null
  Description : TypesString := .null
  RetentionPeriodDays : TypesInt64 := .null
  deriving DecidableEq, Repr

/-- RetentionPolicyResource defines the resource implementation. -/
structure RetentionPolicyResource (σ : Type) where
  client : Client σ

def RetentionPolicyResource.Read {σ : Type} (L : GoStd) (r : RetentionPolicyResource σ)
    (req : resource.ReadRequest RetentionPolicyResourceModel)
    (resp : resource.ReadResponse RetentionPolicyResourceModel) :
    Op σ (resource.ReadResponse RetentionPolicyResourceModel) := do
  let data : RetentionPolicyResourceModel := {}
  let (d, data) := req.State.Get data
  let resp := resp.appendDiags d
  if resp.Diagnostics.HasError then
    return resp
  match ← (r.client.GetRetentionPolicy L data.ID.ValueString).try with
  | .error err =>
    return resp.addError "Client Error" ("Unable to read retention policy, got error: " ++ err.Error)
  | .ok createdPolicy =>
    let data := { data with Name := types.StringValue createdPolicy.Name }
    let data := { data with Description := types.StringValue createdPolicy.Description }
    let data :=
      if createdPolicy.RetentionPeriodDays ≠ 0 then { data with RetentionPeriodDays := types.Int64Value createdPolicy.RetentionPeriodDays }
      else { data with RetentionPeriodDays := types.Int64Null }
    return resp.setState data

def RetentionPolicyResource.Update {σ : Type} (L : GoStd) (r : RetentionPolicyResource σ)
    (req : resource.UpdateRequest RetentionPolicyResourceModel)
    (resp : resource.UpdateResponse RetentionPolicyResourceModel) :
    Op σ (resource.UpdateResponse RetentionPolicyResourceModel) := do
  let data : RetentionPolicyResourceModel := {}
  let (d, data) := req.Plan.Get data
  let resp := resp.appendDiags d
  if resp.Diagnostics.HasError then
    return resp
  let policyReq : RetentionPolicy :=
    { Name := data.Name.ValueString
      Description := data.Description.ValueString }
  let policyReq :=
    if !data.RetentionPeriodDays.IsNull && !data.RetentionPeriodDays.IsUnknown then
      { policyReq with RetentionPeriodDays := data.RetentionPeriodDays.ValueInt64 }
    else policyReq
  match ← (r.client.UpdateRetentionPolicy L data.ID.ValueString policyReq).try with
  | .error err =>
    return resp.addError "Client Error" ("Unable to update retention policy, got error: " ++ err.Error)
  | .ok updatedPolicy =>
    let data := { data with Name := types.StringValue updatedPolicy.Name }
    let data := { data with Description := types.StringValue updatedPolicy.Description }
    let data :=
      if updatedPolicy.RetentionPeriodDays ≠ 0 then { data with RetentionPeriodDays := types.Int64Value updatedPolicy.RetentionPeriodDays }
      else { data with RetentionPeriodDays := types.Int64Null }
    return resp.setState data

/-- LegalHoldResourceModel describes the resource data model. -/
structure LegalHoldResourceModel where
  ID : TypesString := .null
  Name : TypesString := .null
  Description : TypesString := .null
  CaseID : TypesInt64 := .null
  deriving DecidableEq, Repr

/-- LegalHoldResource defines the resource implementation. -/
structure LegalHoldResource (σ : Type) where
  client : Client σ

def LegalHoldResource.Read {σ : Type} (L : GoStd) (r : LegalHoldResource σ)
    (req : resource.ReadRequest LegalHoldResourceModel)
    (resp : resource.ReadResponse LegalHoldResourceModel) :
    Op σ (resource.ReadResponse LegalHoldResourceModel) := do
  let data : LegalHoldResourceModel := {}
  let (d, data) := req.State.Get data
  let resp := resp.appendDiags d
  if resp.Diagnostics.HasError then
    return resp
  match ← (r.client.GetLegalHold L data.ID.ValueString).try with
  | .error err =>
    return resp.addError "Client Error" ("Unable to read legal hold, got error: " ++ err.Error)
  | .ok createdHold =>
    let data := { data with Name := types.StringValue createdHold.Name }
    let data := { data with Description := types.StringValue createdHold.Description }
    let data :=
      if createdHold.CaseID ≠ 0 then { data with CaseID := types.Int64Value createdHold.CaseID }
      else { data with CaseID := types.Int64Null }
    return resp.setState data

def LegalHoldResource.Update {σ : Type} (L : GoStd) (r : LegalHoldResource σ)
    (req : resource.UpdateRequest LegalHoldResourceModel)
    (resp : resource.UpdateResponse LegalHoldResourceModel) :
    Op σ (resource.UpdateResponse LegalHoldResourceModel) := do
  let data : LegalHoldResourceModel := {}
  let (d, data) := req.Plan.Get data
  let resp := resp.appendDiags d
  if resp.Diagnostics.HasError then
    return resp
  let holdReq : LegalHold :=
    { Name := data.Name.ValueString
      Description := data.Description.ValueString }
  let holdReq :=
    if !data.CaseID.IsNull && !data.CaseID.IsUnknown then
      { holdReq with CaseID := data.CaseID.ValueInt64 }
    else holdReq
  match ← (r.client.UpdateLegalHold L data.ID.ValueString holdReq).try with
  | .error err =>
    return resp.addError "Client Error" ("Unable to update legal hold, got error: " ++ err.Error)
  | .ok updatedHold =>
    let data := { data with Name := types.StringValue updatedHold.Name }
    let data := { data with Description := types.StringValue updatedHold.Description }
    let data :=
      if updatedHold.CaseID ≠ 0 then { data with CaseID := types.Int64Value updatedHold.CaseID }
      else { data with CaseID := types.Int64Null }
    return resp.setState data

/-- TagResourceModel describes the resource data model. -/
structure TagResourceModel where
  ID : TypesString := .null
  Name : TypesString := .null
  Description : TypesString := .null
  deriving DecidableEq, Repr

/-- TagResource defines the resource implementation. -/
structure TagResource (σ : Type) where
  client : Client σ

def TagResource.Read {σ : Type} (L : GoStd) (r : TagResource σ)
    (req : resource.ReadRequest TagResourceModel)
    (resp : resource.ReadResponse TagResourceModel) :
    Op σ (resource.ReadResponse TagResourceModel) := do
  let data : TagResourceModel := {}
  let (d, data) := req.State.Get data
  let resp := resp.appendDiags d
  if resp.Diagnostics.HasError then
    return resp
  match ← (r.client.GetTag L data.ID.ValueString).try with
  | .error err =>
    return resp.addError "Client Error" ("Unable to read tag, got error: " ++ err.Error)
  | .ok createdTag =>
    let data := { data with Name := types.StringValue createdTag.Name }
    let data := { data with Description := types.StringValue createdTag.Description }
    return resp.setState data

def TagResource.Update {σ : Type} (L : GoStd) (r : TagResource σ)
    (req : resource.UpdateRequest TagResourceModel)
    (resp : resource.UpdateResponse TagResourceModel) :
    Op σ (resource.UpdateResponse TagResourceModel) := do
  let data : TagResourceModel := {}
  let (d, data) := req.Plan.Get data
  let resp := resp.appendDiags d
  if resp.Diagnostics.HasError then
    return resp
  let tagReq : Tag :=
    { Name := data.Name.ValueString
      Description := data.Description.ValueString }
  match ← (r.client.UpdateTag L data.ID.ValueString tagReq).try with
  | .error err =>
    return resp.addError "Client Error" ("Unable to update tag, got error: " ++ err.Error)
  | .ok updatedTag =>
    let data := { data with Name := types.StringValue updatedTag.Name }
    let data := { data with Description := types.StringValue updatedTag.Description }
    return resp.setState data

/-- IntegrationStateResourceModel describes the resource data model. -/
structure IntegrationStateResourceModel where
  IntegrationID : TypesString := .null
  Paused : TypesBool := .null
  LastRun : TypesString := .null
  LastUpload : TypesString := .null
  deriving DecidableEq, Repr

/-- IntegrationStateResource defines the resource implementation. -/
structure IntegrationStateResource (σ : Type) where
  client : Client σ

/-- Deleting this resource doesn't delete the integration, it just stops managing its
state: the body of the Go method is empty. -/
def IntegrationStateResource.Delete {σ : Type} (_r : IntegrationStateResource σ)
    (_req : resource.DeleteRequest IntegrationStateResourceModel)
    (resp : resource.DeleteResponse IntegrationStateResourceModel) :
    Op σ (resource.DeleteResponse IntegrationStateResourceModel) :=
  pure resp

/-- CaseRecordResourceModel describes the resource data model. -/
structure CaseRecordResourceModel where
  CaseID : TypesString := .null
  RecordID : TypesString := .null
  deriving DecidableEq, Repr

/-- CaseRecordResource defines the resource implementation. -/
structure CaseRecordResource (σ : Type) where
  client : Client σ

/-- There is no "get case record" endpoint: the body of the Go method is empty. -/
def CaseRecordResource.Read {σ : Type} (_r : CaseRecordResource σ)
    (_req : resource.ReadRequest CaseRecordResourceModel)
    (resp : resource.ReadResponse CaseRecordResourceModel) :
    Op σ (resource.ReadResponse CaseRecordResourceModel) :=
  pure resp

/-- Import needs a composite ID (case_id:record_id); it is not implemented. -/
def CaseRecordResource.ImportState {σ : Type} (_r : CaseRecordResource σ)
    (_req : resource.ImportStateRequest)
    (resp : resource.ImportStateResponse CaseRecordResourceModel) :
    Op σ (resource.ImportStateResponse CaseRecordResourceModel) :=
  pure (resp.addError "Import Not Supported"
    "Importing case records is not currently supported.")

/-! ## Create mappers and the remaining Read mappers -/

def UserResource.Create {σ : Type} (L : GoStd) (r : UserResource σ)
    (req : resource.CreateRequest UserResourceModel)
    (resp : resource.CreateResponse UserResourceModel) :
    Op σ (resource.CreateResponse UserResourceModel) := do
  let data : UserResourceModel := {}
  let (d, data) := req.Plan.Get data
  let resp := resp.appendDiags d
  if resp.Diagnostics.HasError then
    return resp
  let userReq : User :=
    { Name := data.Name.ValueString
      Email := data.Email.ValueString
      Password := data.Password.ValueString
      PasswordConfirmation := data.PasswordConfirmation.ValueString
      RoleID := data.RoleID.ValueInt64 }
  let userReq :=
    if !data.SearchID.IsNull && !data.SearchID.IsUnknown then
      { userReq with SearchID := data.SearchID.ValueInt64 }
    else userReq
  match ← (r.client.CreateUser L userReq).try with
  | .error err =>
    return resp.addError "Client Error" ("Unable to create user, got error: " ++ err.Error)
  | .ok createdUser =>
    let data := { data with ID := types.StringValue (strconv.Itoa createdUser.ID) }
    let data := { data with Name := types.StringValue createdUser.Name }
    let data := { data with Email := types.StringValue createdUser.Email }
    let data := { data with RoleID := types.Int64Value createdUser.RoleID }
    let data :=
      if createdUser.SearchID ≠ 0 then { data with SearchID := types.Int64Value createdUser.SearchID }
      else { data with SearchID := types.Int64Null }
    -- Password fields are not returned by API, keep them from plan
    return resp.setState data

def DirectoryGroupResource.Create {σ : Type} (L : GoStd) (r : DirectoryGroupResource σ)
    (req : resource.CreateRequest DirectoryGroupResourceModel)
    (resp : resource.CreateResponse DirectoryGroupResourceModel) :
    Op σ (resource.CreateResponse DirectoryGroupResourceModel) := do
  let data : DirectoryGroupResourceModel := {}
  let (d, data) := req.Plan.Get data
  let resp := resp.appendDiags d
  if resp.Diagnostics.HasError then
    return resp
  let groupReq : DirectoryGroup :=
    { Name := data.Name.ValueString
      ExternalID := data.ExternalID.ValueString
      Description := data.Description.ValueString }
  match ← (r.client.CreateDirectoryGroup L groupReq).try with
  | .error err =>
    return resp.addError "Client Error"
      ("Unable to create directory group, got error: " ++ err.Error)
  | .ok createdGroup =>
    let data := { data with ID := types.StringValue (strconv.Itoa createdGroup.ID) }
    let data := { data with Name := types.StringValue createdGroup.Name }
    let data := { data with ExternalID := types.StringValue createdGroup.ExternalID }
    let data := { data with Description := types.StringValue createdGroup.Description }
    return resp.setState data

def RetentionPolicyResource.Create {σ : Type} (L : GoStd) (r : RetentionPolicyResource σ)
    (req : resource.CreateRequest RetentionPolicyResourceModel)
    (resp : resource.CreateResponse RetentionPolicyResourceModel) :
    Op σ (resource.CreateResponse RetentionPolicyResourceModel) := do
  let data : RetentionPolicyResourceModel := {}
  let (d, data) := req.Plan.Get data
  let resp := resp.appendDiags d
  if resp.Diagnostics.HasError then
    return resp
  let policyReq : RetentionPolicy :=
    { Name := data.Name.ValueString
      Description := data.Description.ValueString }
  let policyReq :=
    if !data.RetentionPeriodDays.IsNull && !data.RetentionPeriodDays.IsUnknown then
      { policyReq with RetentionPeriodDays := data.RetentionPeriodDays.ValueInt64 }
    else policyReq
  match ← (r.client.CreateRetentionPolicy L policyReq).try with
  | .error err =>
    return resp.addError "Client Error"
      ("Unable to create retention policy, got error: " ++ err.Error)
  | .ok createdPolicy =>
    let data := { data with ID := types.StringValue (strconv.Itoa createdPolicy.ID) }
    let data := { data with Name := types.StringValue createdPolicy.Name }
    let data := { data with Description := types.StringValue createdPolicy.Description }
    let data :=
      if createdPolicy.RetentionPeriodDays ≠ 0 then
        { data with RetentionPeriodDays := types.Int64Value createdPolicy.RetentionPeriodDays }
      else { data with RetentionPeriodDays := types.Int64Null }
    return resp.setState data

def LegalHoldResource.Create {σ : Type} (L : GoStd) (r : LegalHoldResource σ)
    (req : resource.CreateRequest LegalHoldResourceModel)
    (resp : resource.CreateResponse LegalHoldResourceModel) :
    Op σ (resource.CreateResponse LegalHoldResourceModel) := do
  let data : LegalHoldResourceModel := {}
  let (d, data) := req.Plan.Get data
  let resp := resp.appendDiags d
  if resp.Diagnostics.HasError then
    return resp
  let holdReq : LegalHold :=
    { Name := data.Name.ValueString
      Description := data.Description.ValueString }
  let holdReq :=
    if !data.CaseID.IsNull && !data.CaseID.IsUnknown then
      { holdReq with CaseID := data.CaseID.ValueInt64 }
    else holdReq
  match ← (r.client.CreateLegalHold L holdReq).try with
  | .error err =>
    return resp.addError "Client Error" ("Unable to create legal hold, got error: " ++ err.Error)
  | .ok createdHold =>
    let data := { data with ID := types.StringValue (strconv.Itoa createdHold.ID) }
    let data := { data with Name := types.StringValue createdHold.Name }
    let data := { data with Description := types.StringValue createdHold.Description }
    let data :=
      if createdHold.CaseID ≠ 0 then { data with CaseID := types.Int64Value createdHold.CaseID }
      else { data with CaseID := types.Int64Null }
    return resp.setState data

def TagResource.Create {σ : Type} (L : GoStd) (r : TagResource σ)
    (req : resource.CreateRequest TagResourceModel)
    (resp : resource.CreateResponse TagResourceModel) :
    Op σ (resource.CreateResponse TagResourceModel) := do
  let data : TagResourceModel := {}
  let (d, data) := req.Plan.Get data
  let resp := resp.appendDiags d
  if resp.Diagnostics.HasError then
    return resp
  let tagReq : Tag :=
    { Name := data.Name.ValueString
      Description := data.Description.ValueString }
  match ← (r.client.CreateTag L tagReq).try with
  | .error err =>
    return resp.addError "Client Error" ("Unable to create tag, got error: " ++ err.Error)
  | .ok createdTag =>
    let data := { data with ID := types.StringValue (strconv.Itoa createdTag.ID) }
    let data := { data with Name := types.StringValue createdTag.Name }
    let data := { data with Description := types.StringValue createdTag.Description }
    return resp.setState data

def ExportResource.Create {σ : Type} (L : GoStd) (r : ExportResource σ)
    (req : resource.CreateRequest ExportResourceModel)
    (resp : resource.CreateResponse ExportResourceModel) :
    Op σ (resource.CreateResponse ExportResourceModel) := do
  let data : ExportResourceModel := {}
  let (d, data) := req.Plan.Get data
  let resp := resp.appendDiags d
  if resp.Diagnostics.HasError then
    return resp
  let exportReq : Export :=
    { Name := data.Name.ValueString
      Description := data.Description.ValueString
      Format := data.Format.ValueString }
  let exportReq :=
    if !data.QueryID.IsNull && !data.QueryID.IsUnknown then
      { exportReq with QueryID := data.QueryID.ValueInt64 }
    else exportReq
  match ← (r.client.CreateExport L exportReq).try with
  | .error err =>
    return resp.addError "Client Error" ("Unable to create export, got error: " ++ err.Error)
  | .ok createdExport =>
    let data := { data with ID := types.StringValue (strconv.Itoa createdExport.ID) }
    let data := { data with Name := types.StringValue createdExport.Name }
    let data := { data with Description := types.StringValue createdExport.Description }
    let data := { data with Format := types.StringValue createdExport.Format }
    let data := { data with Status := types.StringValue createdExport.Status }
    let data := { data with DownloadURL := types.StringValue createdExport.DownloadURL }
    let data :=
      if createdExport.QueryID ≠ 0 then { data with QueryID := types.Int64Value createdExport.QueryID }
      else { data with QueryID := types.Int64Null }
    return resp.setState data

def IntegrationStateResource.Read {σ : Type} (L : GoStd) (r : IntegrationStateResource σ)
    (req : resource.ReadRequest IntegrationStateResourceModel)
    (resp : resource.ReadResponse IntegrationStateResourceModel) :
    Op σ (resource.ReadResponse IntegrationStateResourceModel) := do
  let data : IntegrationStateResourceModel := {}
  let (d, data) := req.State.Get data
  let resp := resp.appendDiags d
  if resp.Diagnostics.HasError then
    return resp
  match ← (r.client.GetIntegrationState L data.IntegrationID.ValueString).try with
  | .error err =>
    return resp.addError "Client Error"
      ("Unable to read integration state, got error: " ++ err.Error)
  | .ok state =>
    let data := { data with Paused := types.BoolValue state.Paused }
    let data := { data with LastRun := types.StringValue state.LastRun }
    let data := { data with LastUpload := types.StringValue state.LastUpload }
    return resp.setState data

/-- Framework `types.List` of strings: null, unknown, or the elements. -/
inductive TypesList where
  | null
  | unknown
  | value (elems : List TypesString)
  deriving DecidableEq, Repr

/-- Framework `types.ListValueFrom` at element type string, applied to a slice of
`types.String`; the diagnostics, which the mappers drop, are empty for such a slice. -/
def types.ListValueFrom (elems : List TypesString) : TypesList × diag.Diagnostics :=
  (.value elems, [])

/-- RecordResourceModel describes the resource data model. -/
structure RecordResourceModel where
  ID : TypesString := .null
  ContentDate : TypesString := .null
  Participants : TypesList := .null
  ReviewState : TypesString := .null
  Comment : TypesString := .null
  deriving DecidableEq, Repr

/-- RecordResource defines the resource implementation. -/
structure RecordResource (σ : Type) where
  client : Client σ

def RecordResource.Read {σ : Type} (L : GoStd) (r : RecordResource σ)
    (req : resource.ReadRequest RecordResourceModel)
    (resp : resource.ReadResponse RecordResourceModel) :
    Op σ (resource.ReadResponse RecordResourceModel) := do
  let data : RecordResourceModel := {}
  let (d, data) := req.State.Get data
  let resp := resp.appendDiags d
  if resp.Diagnostics.HasError then
    return resp
  match ← (r.client.GetRecord L data.ID.ValueString).try with
  | .error err =>
    return resp.addError "Client Error" ("Unable to read record, got error: " ++ err.Error)
  | .ok record =>
    let data := { data with ContentDate := types.StringValue record.ContentDate }
    let participants : List TypesString :=
      record.Participants.foldl (fun participants p => participants ++ [types.StringValue p]) []
    let data := { data with Participants := (types.ListValueFrom participants).1 }
    let data := { data with ReviewState := types.StringValue record.ReviewState }
    let data := { data with Comment := types.StringValue record.Comment }
    return resp.setState data

/-! ## Provider (`provider.go`) and client construction -/

/-- NewClient creates a new Theta Lake API client. The Go function allocates the
`http.Client` with its 60 second timeout; what that client does with a request is the
parameter `transport`. The error returned is always nil. -/
def NewClient {σ : Type} (transport : HTTPClient σ) (endpoint token : String) :
    Except Err (Client σ) :=
  .ok ⟨endpoint, token, transport⟩

/-- ThetaLakeProvider defines the provider implementation. -/
structure ThetaLakeProvider where
  version : String

/-- ThetaLakeProviderModel describes the provider data model. -/
structure ThetaLakeProviderModel where
  Endpoint : TypesString := .null
  Token : TypesString := .null
  deriving DecidableEq, Repr

/-- Framework `provider.ConfigureRequest`. -/
structure provider.ConfigureRequest where
  Config : tfsdk.Config ThetaLakeProviderModel

/-- Framework `provider.ConfigureResponse`: the diagnostics and the value handed to data
sources and to resources, nil until set. -/
structure provider.ConfigureResponse (σ : Type) where
  Diagnostics : diag.Diagnostics
  DataSourceData : Option (Client σ)
  ResourceData : Option (Client σ)

def ThetaLakeProvider.Configure {σ : Type} (_p : ThetaLakeProvider)
    (transport : HTTPClient σ) (req : provider.ConfigureRequest)
    (resp : provider.ConfigureResponse σ) : provider.ConfigureResponse σ :=
  let data : ThetaLakeProviderModel := {}
  let (d, data) := req.Config.Get data
  let resp := { resp with Diagnostics := resp.Diagnostics.Append d }
  if resp.Diagnostics.HasError then resp
  else
    let endpoint := data.Endpoint.ValueString
    let token := data.Token.ValueString
    if token = "" then
      let diags := resp.Diagnostics.AddError "Missing API Token"
        "The 'token' provider configuration is required."
      { resp with Diagnostics := diags }
    else if endpoint = "" then
      let diags := resp.Diagnostics.AddError "Missing API Endpoint"
        "The 'endpoint' provider configuration is required."
      { resp with Diagnostics := diags }
    else
      match NewClient transport endpoint token with
      | .error err =>
        let diags := resp.Diagnostics.AddError "Unable to create client" err.Error
        { resp with Diagnostics := diags }
      | .ok c => { resp with DataSourceData := some c, ResourceData := some c }

/-! ## Data sources registered by the provider (`provider.go`, `data_source_*.go`) -/

/-- Framework `datasource.DataSource`, the part that names the type: `Metadata` maps the
type name of the provider to the type name of the data source. -/
structure datasource.DataSource where
  Metadata : String → String

def NewAnalysisDataSource : datasource.DataSource :=
  ⟨fun ProviderTypeName => ProviderTypeName ++ "_analysis"⟩

def NewAnalysisPoliciesDataSource : datasource.DataSource :=
  ⟨fun ProviderTypeName => ProviderTypeName ++ "_analysis_policies"⟩

def NewAnalysisPolicyHitsDataSource : datasource.DataSource :=
  ⟨fun ProviderTypeName => ProviderTypeName ++ "_analysis_policy_hits"⟩

def NewAuditLogsDataSource : datasource.DataSource :=
  ⟨fun ProviderTypeName => ProviderTypeName ++ "_audit_logs"⟩

def NewCaseDataSource : datasource.DataSource :=
  ⟨fun ProviderTypeName => ProviderTypeName ++ "_case"⟩

def NewDirectoryGroupDataSource : datasource.DataSource :=
  ⟨fun ProviderTypeName => ProviderTypeName ++ "_directory_group"⟩

def NewEventsDataSource : datasource.DataSource :=
  ⟨fun ProviderTypeName => ProviderTypeName ++ "_events"⟩

def NewExportDataSource : datasource.DataSource :=
  ⟨fun ProviderTypeName => ProviderTypeName ++ "_export"⟩

def NewIntegrationStateDataSource : datasource.DataSource :=
  ⟨fun ProviderTypeName => ProviderTypeName ++ "_integration_state"⟩

def NewLegalHoldDataSource : datasource.DataSource :=
  ⟨fun ProviderTypeName => ProviderTypeName ++ "_legal_hold"⟩

def NewRecordDataSource : datasource.DataSource :=
  ⟨fun ProviderTypeName => ProviderTypeName ++ "_record"⟩

def NewRetentionPolicyDataSource : datasource.DataSource :=
  ⟨fun ProviderTypeName => ProviderTypeName ++ "_retention_policy"⟩

def NewSystemStatusDataSource : datasource.DataSource :=
  ⟨fun ProviderTypeName => ProviderTypeName ++ "_system_status"⟩

def NewTagDataSource : datasource.DataSource :=
  ⟨fun ProviderTypeName => ProviderTypeName ++ "_tag"⟩

def NewUserDataSource : datasource.DataSource :=
  ⟨fun ProviderTypeName => ProviderTypeName ++ "_user"⟩

/-- Type name and version that the provider reports. -/
def ThetaLakeProvider.Metadata (p : ThetaLakeProvider) : String × String :=
  ("thetalake", p.version)

def ThetaLakeProvider.DataSources (_p : ThetaLakeProvider) : List datasource.DataSource :=
  [ NewAuditLogsDataSource,
    NewEventsDataSource,
    NewAnalysisPoliciesDataSource,
    NewSystemStatusDataSource,
    NewAnalysisPolicyHitsDataSource ]

/-! ## A computable instance of the library and of the service

`stdlib` is one `GoStd`, used to evaluate the operations on concrete inputs. It follows
the Go library on the inputs evaluated in this file: URLs of the shape
`scheme://host/path?query` and relative paths, both without percent escapes in host and
path; queries without escapes of bytes above 0x7f; request bodies over ASCII strings.
The decoders are tables from the response bodies used below to the records that
json.Unmarshal yields on them. No theorem stated for every `L : GoStd` depends on it. -/

/-- Go `strings.Cut` at a single character. -/
def cutAt (sep : Char) : List Char → List Char × Option (List Char)
  | [] => ([], none)
  | c :: cs =>
    if c = sep then ([], some cs)
    else ((c :: (cutAt sep cs).1), (cutAt sep cs).2)

/-- Splits at every occurrence of the character. -/
def splitAt (sep : Char) : List Char → List (List Char)
  | [] => [[]]
  | c :: cs =>
    if c = sep then [] :: splitAt sep cs
    else
      match splitAt sep cs with
      | [] => [[c]]
      | p :: ps => (c :: p) :: ps

/-- Go `getScheme` of net/url: the scheme and the rest after the colon. -/
def getScheme (raw : List Char) : Nat → List Char → List Char →
    Except String (List Char × List Char)
  | _, _, [] => .ok ([], raw)
  | i, acc, c :: cs =>
    if c.isAlpha then getScheme raw (i + 1) (acc ++ [c]) cs
    else if c.isDigit || c = '+' || c = '-' || c = '.' then
      if i = 0 then .ok ([], raw) else getScheme raw (i + 1) (acc ++ [c]) cs
    else if c = ':' then
      if i = 0 then .error "missing protocol scheme" else .ok (acc, cs)
    else .ok ([], raw)

def isCTL (c : Char) : Bool := c.toNat < 32 || c.toNat = 127

/-- Host with an optional port of digits only. -/
def validHost (h : List Char) : Bool :=
  match cutAt ':' h with
  | (_, none) => true
  | (_, some port) => port.all Char.isDigit

/-- Model of `url.Parse` on URLs without user info, IP literals and percent escapes. -/
def stdlibUrlParse (rawURL : String) : Except String URL :=
  let wrap (msg : String) : Except String URL :=
    .error ("parse \"" ++ rawURL ++ "\": " ++ msg)
  let (u, frag) := cutAt '#' rawURL.data
  let frag := frag.getD []
  if u.any isCTL then wrap "net/url: invalid control character in URL"
  else
    match getScheme u 0 [] u with
    | .error e => wrap e
    | .ok (scheme, rest) =>
      let scheme := scheme.map Char.toLower
      let (rest, query) := cutAt '?' rest
      let query := query.getD []
      if rest.any (fun c => c = '%' || c = '@' || c = '[') || frag.any (fun c => c = '%')
      then wrap "outside the URLs of this instance"
      else if rest.head? ≠ some '/' then
        if scheme ≠ [] then
          .ok ⟨String.mk scheme, String.mk rest, "", "", String.mk query, String.mk frag⟩
        else if ((cutAt '/' rest).1).any (fun c => c = ':') then
          wrap "first path segment in URL cannot contain colon"
        else .ok ⟨"", "", "", String.mk rest, String.mk query, String.mk frag⟩
      else
        match rest with
        | '/' :: '/' :: auth =>
          if scheme = [] ∧ auth.head? = some '/' then
            .ok ⟨"", "", "", String.mk rest, String.mk query, String.mk frag⟩
          else
            let host := (cutAt '/' auth).1
            let path := auth.drop host.length
            if validHost host then
              .ok ⟨String.mk scheme, "", String.mk host, String.mk path, String.mk query,
                String.mk frag⟩
            else wrap "invalid port after host"
        | _ => .ok ⟨String.mk scheme, "", "", String.mk rest, String.mk query, String.mk frag⟩

def hexDigits : List Char :=
  ['0', '1', '2', '3', '4', '5', '6', '7', '8', '9', 'A', 'B', 'C', 'D', 'E', 'F']

def hexValue (c : Char) : Option Nat :=
  if c.isDigit then some (c.toNat - 48)
  else if 97 ≤ c.toNat ∧ c.toNat ≤ 102 then some (c.toNat - 87)
  else if 65 ≤ c.toNat ∧ c.toNat ≤ 70 then some (c.toNat - 55)
  else none

/-- Go `url.QueryEscape` on one character. -/
def queryEscapeChar (c : Char) : List Char :=
  if c.isAlphanum || c = '-' || c = '_' || c = '.' || c = '~' then [c]
  else if c = ' ' then ['+']
  else
    (String.utf8EncodeChar c).flatMap (fun b =>
      ['%', hexDigits.getD (b.toNat / 16) '0', hexDigits.getD (b.toNat % 16) '0'])

def queryEscape (s : String) : String := String.mk (s.data.flatMap queryEscapeChar)

/-- Go `url.QueryUnescape` where every escaped byte is below 0x80. -/
def queryUnescape : List Char → Option (List Char)
  | [] => some []
  | '%' :: a :: b :: cs =>
    match hexValue a, hexValue b with
    | some x, some y =>
      if 16 * x + y < 128 then (queryUnescape cs).map (fun r => Char.ofNat (16 * x + y) :: r)
      else none
    | _, _ => none
  | '%' :: _ => none
  | '+' :: cs => (queryUnescape cs).map (fun r => ' ' :: r)
  | c :: cs => (queryUnescape cs).map (fun r => c :: r)

/-- Model of `URL.Query`: pairs that do not parse are dropped. -/
def stdlibUrlQuery (rawQuery : String) : Values :=
  (splitAt '&' rawQuery.data).foldl (fun (m : Values) (pair : List Char) =>
    if pair = [] ∨ pair.any (fun c => c = ';') then m
    else
      match queryUnescape (cutAt '=' pair).1, queryUnescape (((cutAt '=' pair).2).getD []) with
      | some k, some v => m.Add (String.mk k) (String.mk v)
      | _, _ => m) []

/-- Insertion of a key into a list sorted by key. -/
def insertByKey (p : String × List String) : Values → Values
  | [] => [p]
  | q :: qs => if p.1 < q.1 then p :: q :: qs else q :: insertByKey p qs

/-- Model of `Values.Encode`: keys in sorted order, keys and values escaped. -/
def stdlibValuesEncode (v : Values) : String :=
  let sorted := v.foldr insertByKey []
  let parts := sorted.flatMap (fun p => p.2.map (fun x => queryEscape p.1 ++ "=" ++ queryEscape x))
  "&".intercalate parts

/-- JSON string literal as json.Marshal writes it for ASCII text. -/
def jsonQuoteChar (c : Char) : List Char :=
  if c = '"' then ['\\', '"']
  else if c = '\\' then ['\\', '\\']
  else if c = '\n' then ['\\', 'n']
  else if c = '\r' then ['\\', 'r']
  else if c = '\t' then ['\\', 't']
  else if c.toNat < 32 ∨ c = '<' ∨ c = '>' ∨ c = '&' then
    ['\\', 'u', '0', '0', hexDigits.getD (c.toNat / 16) '0',
      (hexDigits.getD (c.toNat % 16) '0').toLower]
  else [c]

def jsonQuote (s : String) : String :=
  "\"" ++ String.mk (s.data.flatMap jsonQuoteChar) ++ "\""

def JVal.render : JVal → String
  | .str s => jsonQuote s
  | .int n => toString n
  | .bool true => "true"
  | .bool false => "false"

/-- Model of `json.Marshal` on a flat object. -/
def stdlibMarshal (obj : JObj) : Except String String :=
  .ok ("\x7b" ++ ",".intercalate (obj.map (fun p => jsonQuote p.1 ++ ":" ++ p.2.render))
    ++ "\x7d")

/-- A decoder given by a table of bodies; any other body is a syntax error. -/
def decodeTable {α : Type} (table : List (String × α)) (body : String) : Except String α :=
  match table.lookup body with
  | some v => .ok v
  | none => .error "invalid character looking for beginning of value"

/-- A case as the service returns it. -/
def caseBody : String :=
  "\x7b\"id\":7,\"name\":\"fraud-2024\",\"number\":\"CASE-7\",\"open_date\":\"2024-01-01\",\"visibility\":\"PRIVATE\"\x7d"

/-- An integration state with both timestamps. -/
def stateBody : String :=
  "\x7b\"state\":\x7b\"paused\":true,\"last_run\":\"2024-05-01T00:00:00Z\",\"last_upload\":\"2024-05-01T00:10:00Z\"\x7d\x7d"

/-- An integration state without `last_run`. -/
def stateBodyNoLastRun : String :=
  "\x7b\"state\":\x7b\"paused\":true\x7d\x7d"

/-- A record as the service returns it. -/
def recordBody : String :=
  "\x7b\"id\":\"rec-1\",\"content_date\":\"2024-03-03\",\"participants\":[\"a@x.io\",\"b@x.io\"],\"review_state\":\"REVIEWED\",\"comment\":\"ok\"\x7d"

/-- A user as a service might return it, password fields included. -/
def userBody : String :=
  "\x7b\"id\":99,\"name\":\"Ana\",\"email\":\"ana@x.io\",\"password\":\"leaked\",\"password_confirmation\":\"leaked\",\"role_id\":3\x7d"

/-- A tag as the service returns it. -/
def tagBody : String :=
  "\x7b\"id\":9,\"name\":\"pii\",\"description\":\"personal data\"\x7d"

/-- A legal hold on case 7 as the service returns it. -/
def holdBody : String :=
  "\x7b\"id\":4,\"name\":\"hold-1\",\"description\":\"litigation\",\"case_id\":7\x7d"

/-- A legal hold without a case as the service returns it. -/
def holdBodyNoCase : String :=
  "\x7b\"id\":4,\"name\":\"hold-1\",\"description\":\"litigation\"\x7d"

/-- An integration state with `last_run` and without `last_upload`. -/
def stateBodyNoUpload : String :=
  "\x7b\"state\":\x7b\"paused\":true,\"last_run\":\"2024-05-01T00:00:00Z\"\x7d\x7d"

/-- The library instance used for evaluation. -/
def stdlib : GoStd where
  urlParse := stdlibUrlParse
  urlQuery := stdlibUrlQuery
  valuesEncode := stdlibValuesEncode
  Marshal := stdlibMarshal
  unmarshalCase := decodeTable
    [(caseBody, ⟨7, "fraud-2024", "CASE-7", "2024-01-01", "PRIVATE", ""⟩)]
  unmarshalUser := decodeTable
    [(userBody, ⟨99, "Ana", "ana@x.io", "leaked", "leaked", 3, 0⟩)]
  unmarshalDirectoryGroup := decodeTable []
  unmarshalRetentionPolicy := decodeTable []
  unmarshalLegalHold := decodeTable
    [(holdBody, ⟨4, "hold-1", "litigation", 7⟩),
     (holdBodyNoCase, ⟨4, "hold-1", "litigation", 0⟩)]
  unmarshalTag := decodeTable [(tagBody, ⟨9, "pii", "personal data"⟩)]
  unmarshalAuditLogs := decodeTable [("[]", [])]
  unmarshalEvents := decodeTable [("[]", [])]
  unmarshalAnalysisPoliciesResponse := decodeTable [("\x7b\x7d", ⟨[]⟩)]
  unmarshalIntegrationStateResponse := decodeTable
    [(stateBody, ⟨⟨0, true, "2024-05-01T00:00:00Z", "2024-05-01T00:10:00Z"⟩⟩),
     (stateBodyNoLastRun, ⟨⟨0, true, "", ""⟩⟩),
     (stateBodyNoUpload, ⟨⟨0, true, "2024-05-01T00:00:00Z", ""⟩⟩),
     ("\x7b\x7d", ⟨⟨0, false, "", ""⟩⟩)]
  unmarshalExport := decodeTable []
  unmarshalRecord := decodeTable
    [(recordBody, ⟨"rec-1", "2024-03-03", ["a@x.io", "b@x.io"], "REVIEWED", "ok"⟩)]
  unmarshalSystemStatus := decodeTable []
  unmarshalPolicyHitsResponse := decodeTable [("\x7b\x7d", ⟨[]⟩)]
  unmarshalAnalysis := decodeTable []

/-- A transport that answers from a script: every request takes the next answer, and an
exhausted script is a connection failure. -/
def scripted : HTTPClient (List (Except String Response)) where
  Do := fun _ s =>
    match s with
    | [] => (.error "dial tcp: connection refused", [])
    | r :: rest => (r, rest)

/-- A client of the scripted transport. -/
def demo : Client (List (Except String Response)) :=
  ⟨"https://api.thetalake.example", "secret", scripted⟩

/-- A response whose body reads without error. -/
def reply (code : Int) (body : String) : Except String Response :=
  .ok ⟨code, body, none⟩

/-- The scripted service before any exchange. -/
def fresh (script : List (Except String Response)) : Net (List (Except String Response)) :=
  ⟨script, []⟩

/-- The URL of the demo service with the given path, as `url.Parse` returns it. -/
def demoURL (path : String) : URL :=
  ⟨"https", "", "api.thetalake.example", path, "", ""⟩

/-- A plan for a case that is to be closed. -/
def closedCasePlan : CaseResourceModel :=
  { Name := .value "fraud-2024"
    Number := .value "CASE-7"
    OpenDate := .value "2024-01-01"
    Visibility := .value "PRIVATE"
    Status := .value "CLOSED" }

/-- A plan for an export whose name was changed. -/
def renamedExportPlan : ExportResourceModel :=
  { ID := .value "12"
    Name := .value "test-export-updated"
    Description := .value "Updated Description"
    QueryID := .value 456
    Format := .value "CSV"
    Status := .unknown
    DownloadURL := .unknown }

/-- The body of the PUT that pauses an integration. -/
def pausedBody : String :=
  "\x7b\"status\":\"paused\"\x7d"

/-- The body of the PUT that marks a record as reviewed. -/
def reviewedBody : String :=
  "\x7b\"review_state\":\"REVIEWED\",\"comment\":\"ok\"\x7d"

/-- A stored user whose id is 5. -/
def userState : UserResourceModel :=
  { ID := .value "5"
    Name := .value "Ana"
    Email := .value "ana@old.io"
    Password := .value "s3cret"
    PasswordConfirmation := .value "s3cret"
    RoleID := .value 2
    SearchID := .value 8 }

/-- The user stored after reading `userBody` over `userState`. -/
def userStateRead : UserResourceModel :=
  { ID := .value "5"
    Name := .value "Ana"
    Email := .value "ana@x.io"
    Password := .value "s3cret"
    PasswordConfirmation := .value "s3cret"
    RoleID := .value 3
    SearchID := .null }

/-- A stored case whose id is 3 and whose status is CLOSED. -/
def caseState : CaseResourceModel :=
  { ID := .value "3"
    Name := .value "old name"
    Number := .value "CASE-3"
    Status := .value "CLOSED" }

/-- The case stored after reading `caseBody` over `caseState`. -/
def caseStateRead : CaseResourceModel :=
  { ID := .value "3"
    Name := .value "fraud-2024"
    Number := .value "CASE-7"
    OpenDate := .value "2024-01-01"
    Visibility := .value "PRIVATE"
    Description := .value ""
    Status := .value "CLOSED" }

/-- The response that the framework hands to a resource call: no diagnostics yet. -/
def emptyResponse {M : Type} (state : Option M) : resource.Response M :=
  ⟨⟨state, []⟩, []⟩

/-- A provider configuration with both values set. -/
def demoConfig : ThetaLakeProviderModel :=
  { Endpoint := .value "https://api.thetalake.example"
    Token := .value "secret" }

/-- A provider configuration whose token is set and whose endpoint is not. -/
def noEndpointConfig : ThetaLakeProviderModel :=
  { Token := .value "secret" }

/-- A tag as the provider sends it. -/
def demoTag : Tag :=
  { Name := "pii", Description := "personal data" }

/-- The body of the POST that creates `demoTag`. -/
def demoTagBody : String :=
  "\x7b\"name\":\"pii\",\"description\":\"personal data\"\x7d"

/-- A client whose endpoint ends in a slash. -/
def slashClient : Client (List (Except String Response)) :=
  ⟨"https://api.thetalake.example/", "secret", scripted⟩

/-! ## Notions used to state the properties -/

/-- Case-insensitive comparison in the sense of the specification: equality after
mapping the ASCII capitals to small letters. -/
def eqIgnoreCase (a b : String) : Bool :=
  a.data.map Char.toLower == b.data.map Char.toLower

/-- The exchanges that a run of an operation adds to the log. -/
def exchangesOf {σ α : Type} (op : Op σ α) (w : Net σ) : List Exchange :=
  (op w).2.log.drop w.log.length

/-- The service after one more exchange: its new state and the log extended. -/
def Net.after {σ : Type} (w : Net σ) (s : σ) (ex : Exchange) : Net σ :=
  ⟨s, w.log ++ [ex]⟩

/-- The wire record that `CaseResource.Create` builds from the planned record. -/
def caseRequestOf (data : CaseResourceModel) : Case :=
  { Name := data.Name.ValueString
    Number := data.Number.ValueString
    OpenDate := data.OpenDate.ValueString
    Visibility := data.Visibility.ValueString
    Description := data.Description.ValueString }

/-- The warning of `ExportResource.Update`. -/
def updateNotSupported : diag.Diagnostic :=
  ⟨.Warning, "Update Not Supported",
    "Updating exports is not fully supported by this provider version."⟩

/-- Request body of an exchange: none for a bodiless request, else the marshalled
object. -/
def encodeBody (L : GoStd) : Option JObj → Except Err (Option String)
  | none => .ok none
  | some obj =>
    match L.Marshal obj with
    | .ok rb => .ok (some rb)
    | .error e => .error (.encode e)

/-- The shape that the operations of the client share: encode the body, build the
request, hand it to `DoRequest`, reject a status outside the accepted set with the error
text given, and continue with the response otherwise. Each operation is proved equal to
an instance of it (`Client.GetCase_eq` and the like). -/
def Client.exchange {σ α : Type} (L : GoStd) (c : Client σ) (method url : String)
    (payload : Option JObj) (reject : Int → Prop) [DecidablePred reject]
    (text : Response → String) (k : Response → Op σ α) : Op σ α := do
  let body ← Op.ofExcept (encodeBody L payload)
  let req ← Op.ofExcept (http.NewRequest L method url body)
  let res ← c.DoRequest req
  if reject res.StatusCode then Op.fail (.status res.StatusCode (text res))
  else k res

/-- Error text of the GET operations. -/
def textFixed (res : Response) : String :=
  "status: " ++ toString res.StatusCode ++ ", body: " ++ "error reading body"

/-- Error text of the POST and PUT operations that decode a record. -/
def textBody (res : Response) : String :=
  "status: " ++ toString res.StatusCode ++ ", body: " ++ (io.ReadAll res).1

/-- Error text of the operations that return only an error. -/
def textCode (res : Response) : String :=
  "status: " ++ toString res.StatusCode

/-- Continuation of the operations that read and decode the response body and return
part of the decoded value. -/
def decodeWith {σ α β : Type} (dec : String → Except String β) (f : β → α)
    (res : Response) : Op σ α := do
  let body ← Op.readAll res
  let v ← Op.unmarshal (dec body)
  pure (f v)

/-- The rule of a verb with accepted status set `accept`: for every exchange of a run
that got a response, the run ends in an unexpected-status error carrying the code of
that response exactly when the code is not accepted. -/
def StatusRule {σ α : Type} (accepted : Int → Prop) (op : Op σ α) : Prop :=
  ∀ (w : Net σ) (ex : Exchange) (res : Response),
    ex ∈ exchangesOf op w → ex.res = .ok res →
      ((∃ msg, (op w).1 = .error (.status res.StatusCode msg)) ↔
        ¬ accepted res.StatusCode)

/-- The invariant behind `StatusRule`, closed under sequencing: a run only appends to the
log, each new exchange with a response obeys the rule, and an unexpected-status error
always carries a rejected code. -/
def Classified {σ α : Type} (reject : Int → Prop) (op : Op σ α) : Prop :=
  ∀ w : Net σ, ∃ new : List Exchange,
    (op w).2.log = w.log ++ new ∧
    (∀ ex ∈ new, ∀ res, ex.res = .ok res →
      ((∃ msg, (op w).1 = .error (.status res.StatusCode msg)) ↔ reject res.StatusCode)) ∧
    (∀ code msg, (op w).1 = .error (.status code msg) → reject code)

/-- An operation that neither talks to the service nor reports a status error. -/
def Quiet {σ α : Type} (op : Op σ α) : Prop :=
  ∀ w : Net σ, (op w).2 = w ∧ ∀ code msg, (op w).1 ≠ .error (.status code msg)

/-- The rule of the DELETE operations: for every exchange of a run that got a response,
the run returns no error exactly when the status is 200 or 204, and otherwise returns the
error whose text names the status code. -/
def DeleteRule {σ : Type} (op : Op σ Unit) : Prop :=
  ∀ (w : Net σ) (ex : Exchange) (res : Response),
    ex ∈ exchangesOf op w → ex.res = .ok res →
      ((op w).1 = .ok () ↔ (res.StatusCode = 200 ∨ res.StatusCode = 204)) ∧
      (¬ (res.StatusCode = 200 ∨ res.StatusCode = 204) →
        (op w).1 = .error (.status res.StatusCode ("status: " ++ toString res.StatusCode)))

/-- Go `url.Parse` followed by the query edit of `RemoveRecordFromCase`: the parsed URL
with `record_id` added to its query. -/
def parseWithRecordQuery (L : GoStd) (recordID : String) (rawURL : String) :
    Except String URL :=
  match L.urlParse rawURL with
  | .ok u =>
    .ok { u with RawQuery := L.valuesEncode ((L.urlQuery u.RawQuery).Add "record_id" recordID) }
  | .error e => .error e

/-- The library whose `url.Parse` is `parseWithRecordQuery`; with it the request of
`RemoveRecordFromCase` is built in one step. -/
def GoStd.withRecordQuery (L : GoStd) (recordID : String) : GoStd :=
  { L with urlParse := parseWithRecordQuery L recordID }

/-- The wire record that `UserResource.Update` builds from the planned record. -/
def userRequestOf (data : UserResourceModel) : User :=
  let req : User :=
    { Name := data.Name.ValueString
      Email := data.Email.ValueString
      RoleID := data.RoleID.ValueInt64 }
  let req :=
    if !data.SearchID.IsNull && !data.SearchID.IsUnknown then
      { req with SearchID := data.SearchID.ValueInt64 }
    else req
  req

/-- The wire record that `DirectoryGroupResource.Update` builds from the planned record. -/
def directoryGroupRequestOf (data : DirectoryGroupResourceModel) : DirectoryGroup :=
  let req : DirectoryGroup :=
    { Name := data.Name.ValueString
      ExternalID := data.ExternalID.ValueString
      Description := data.Description.ValueString }
  req

/-- The wire record that `RetentionPolicyResource.Update` builds from the planned record. -/
def retentionPolicyRequestOf (data : RetentionPolicyResourceModel) : RetentionPolicy :=
  let req : RetentionPolicy :=
    { Name := data.Name.ValueString
      Description := data.Description.ValueString }
  let req :=
    if !data.RetentionPeriodDays.IsNull && !data.RetentionPeriodDays.IsUnknown then
      { req with RetentionPeriodDays := data.RetentionPeriodDays.ValueInt64 }
    else req
  req

/-- The wire record that `LegalHoldResource.Update` builds from the planned record. -/
def legalHoldRequestOf (data : LegalHoldResourceModel) : LegalHold :=
  let req : LegalHold :=
    { Name := data.Name.ValueString
      Description := data.Description.ValueString }
  let req :=
    if !data.CaseID.IsNull && !data.CaseID.IsUnknown then
      { req with CaseID := data.CaseID.ValueInt64 }
    else req
  req

/-- The wire record that `TagResource.Update` builds from the planned record. -/
def tagRequestOf (data : TagResourceModel) : Tag :=
  let req : Tag :=
    { Name := data.Name.ValueString
      Description := data.Description.ValueString }
  req

/-- The shape that the Read and Update mappers share: read the record from the state or
plan into a zero record, stop on an error diagnostic, call the client, and either report
the client's error or store the record merged with the answer. Each mapper is proved
equal to an instance of it (`UserResource_Read_eq` and the like). -/
def resourceCall {σ M β : Type} (src : tfsdk.State M) (zero : M) (call : M → Op σ β)
    (failText : String) (merge : M → β → M) (resp : resource.Response M) :
    Op σ (resource.Response M) := do
  let (d, data) := src.Get zero
  let resp := resp.appendDiags d
  if resp.Diagnostics.HasError then
    return resp
  match ← (call data).try with
  | .error err =>
    return resp.addError "Client Error" (failText ++ err.Error)
  | .ok got =>
    return resp.setState (merge data got)

/-- A resource call succeeded with response `resp1`: it ended normally and the response
carries no error diagnostic. -/
def Succeeded {σ M : Type} (run : Outcome (resource.Response M) × Net σ)
    (resp1 : resource.Response M) : Prop :=
  run.1 = .ok resp1 ∧ resp1.Diagnostics.HasError = false

/-- A run keeps the field `f` of the record held by `src`: whenever `src` holds a record
and the run succeeded, the state it leaves holds a record with the same value of `f`. -/
def Keeps {σ M F : Type} (f : M → F) (src : tfsdk.State M)
    (run : Outcome (resource.Response M) × Net σ) : Prop :=
  ∀ (prior : M) (resp1 : resource.Response M),
    src.Raw = some prior → Succeeded run resp1 →
      ∃ stored, resp1.State.Raw = some stored ∧ f stored = f prior

/-- The operation sends exactly one request, with the given method, to the URL that is
the parse of the string `url` and with the encoding of `payload` as body, whenever that
string parses and the payload encodes. -/
def SendsOne {σ α : Type} (L : GoStd) (c : Client σ) (method url : String)
    (payload : Option JObj) (op : Op σ α) : Prop :=
  ∀ (w : Net σ) (u : URL) (body : Option String),
    L.urlParse url = .ok u → encodeBody L payload = .ok body →
      exchangesOf op w =
        [⟨c.stamp ⟨method, u, [], body⟩,
          (c.HTTPClient.Do (c.stamp ⟨method, u, [], body⟩) w.remote).1⟩]

/-- The error of `CaseRecordResource.ImportState`. -/
def importNotSupported : diag.Diagnostic :=
  ⟨.Error, "Import Not Supported", "Importing case records is not currently supported."⟩

/-- The wire record that `UserResource.Create` builds from the planned record. -/
def userCreateRequestOf (data : UserResourceModel) : User :=
  let req : User :=
    { Name := data.Name.ValueString
      Email := data.Email.ValueString
      Password := data.Password.ValueString
      PasswordConfirmation := data.PasswordConfirmation.ValueString
      RoleID := data.RoleID.ValueInt64 }
  let req :=
    if !data.SearchID.IsNull && !data.SearchID.IsUnknown then
      { req with SearchID := data.SearchID.ValueInt64 }
    else req
  req

/-- The wire record that `ExportResource.Create` builds from the planned record. -/
def exportRequestOf (data : ExportResourceModel) : Export :=
  let req : Export :=
    { Name := data.Name.ValueString
      Description := data.Description.ValueString
      Format := data.Format.ValueString }
  let req :=
    if !data.QueryID.IsNull && !data.QueryID.IsUnknown then
      { req with QueryID := data.QueryID.ValueInt64 }
    else req
  req

/-- The rule of the GET operations for a rejected answer: for every exchange of a run
that got a response with a status other than 200, the run returns the unexpected-status
error whose text is built from the status code alone. -/
def FixedStatusText {σ α : Type} (op : Op σ α) : Prop :=
  ∀ (w : Net σ) (ex : Exchange) (res : Response),
    ex ∈ exchangesOf op w → ex.res = .ok res → res.StatusCode ≠ 200 →
      (op w).1 = .error (.status res.StatusCode
        ("status: " ++ toString res.StatusCode ++ ", body: error reading body"))

/-- A read mapper reports a rejected GET: for every exchange of a run that got a response
with a status other than 200, the run returns the response given with its state
untouched and with one more diagnostic, the error "Client Error" whose detail is
`failText` followed by the error text of the client. -/
def ReadFails {σ M : Type} (failText : String) (src : tfsdk.State M)
    (read : resource.Response M → Op σ (resource.Response M)) : Prop :=
  ∀ (resp : resource.Response M) (w : Net σ) (ex : Exchange) (res : Response),
    ex ∈ exchangesOf (read resp) w → ex.res = .ok res → res.StatusCode ≠ 200 →
      ∃ resp1, (read resp w).1 = .ok resp1 ∧
        resp1.State = resp.State ∧
        resp1.Diagnostics =
          (resp.Diagnostics.Append src.getDiags).AddError "Client Error"
            (failText ++
              ("status: " ++ toString res.StatusCode ++ ", body: error reading body")) ∧
        resp1.Diagnostics.HasError = true

/-- A stored tag whose id is 9. -/
def tagState : TagResourceModel :=
  { ID := .value "9"
    Name := .value "pii"
    Description := .value "personal data" }

/-- The answer of a service that does not know the entity asked for. -/
def notFound : Response :=
  ⟨404, "\x7b\"error\":\"not found\"\x7d", none⟩

/-- Read directly after Create, answered with the entity that Create was answered with:
when the Create run succeeded with the POST decoded to `created`, and the Read run on the
state that Create left succeeded with the GET decoded to `created` too, then both runs
stored the same record. -/
def ReadRestores {σ M E : Type} (created : E) (post : Outcome E)
    (createRun : Outcome (resource.Response M) × Net σ) (get : Outcome E)
    (readRun : tfsdk.State M → Outcome (resource.Response M) × Net σ) : Prop :=
  ∀ respC respR : resource.Response M,
    Succeeded createRun respC → post = .ok created → get = .ok created →
      Succeeded (readRun respC.State) respR →
        ∃ stored, respC.State.Raw = some stored ∧ respR.State.Raw = some stored

/-- The case stored by creating `closedCasePlan` when the service answers `caseBody`. -/
def createdCaseState : CaseResourceModel :=
  { ID := .value "7"
    Name := .value "fraud-2024"
    Number := .value "CASE-7"
    OpenDate := .value "2024-01-01"
    Visibility := .value "PRIVATE"
    Description := .value ""
    Status := .value "OPEN" }

/-- The record that `CaseResource.Update` stores: the planned record with the five fields
of the answer of `UpdateCase` written over it. -/
def caseMerge (data : CaseResourceModel) (updatedCase : Case) : CaseResourceModel :=
  let data := { data with Name := types.StringValue updatedCase.Name }
  let data := { data with Number := types.StringValue updatedCase.Number }
  let data := { data with OpenDate := types.StringValue updatedCase.OpenDate }
  let data := { data with Visibility := types.StringValue updatedCase.Visibility }
  let data := { data with Description := types.StringValue updatedCase.Description }
  data

/-- A plan that renames the stored case 3 and asks for it to be closed. -/
def closeCase3Plan : CaseResourceModel :=
  { ID := .value "3"
    Name := .value "fraud-2024"
    Number := .value "CASE-7"
    OpenDate := .value "2024-01-01"
    Visibility := .value "PRIVATE"
    Status := .value "CLOSED" }

/-- The request that an operation of the shared shape sends, when it can be built: none
when the payload does not encode or the URL does not parse. -/
def plannedRequest {σ : Type} (L : GoStd) (c : Client σ) (method url : String)
    (payload : Option JObj) : List Request :=
  match encodeBody L payload, L.urlParse url with
  | .ok body, .ok u => [c.stamp ⟨method, u, [], body⟩]
  | _, _ => []

/-- The request of `UpdateCaseStatus`, when it sends one. -/
def plannedStatus {σ : Type} (L : GoStd) (c : Client σ) (caseID status : String) :
    List Request :=
  if status = "OPEN" ∨ status = "open" then
    plannedRequest L c "PUT" (c.Endpoint ++ "/cases/" ++ caseID ++ "/" ++ "open") none
  else if status = "CLOSED" ∨ status = "closed" then
    plannedRequest L c "PUT" (c.Endpoint ++ "/cases/" ++ caseID ++ "/" ++ "close") none
  else []

/-- The requests of `CaseResource.Update` for a planned record: the PUT of the fields,
then the status transition when the planned status is known. -/
def plannedCaseUpdate {σ : Type} (L : GoStd) (c : Client σ) (data : CaseResourceModel) :
    List Request :=
  plannedRequest L c "PUT" (c.Endpoint ++ "/cases/" ++ data.ID.ValueString)
      (some (caseRequestOf data).toJSON) ++
    (if !data.Status.IsNull && !data.Status.IsUnknown then
      plannedStatus L c data.ID.ValueString data.Status.ValueString
    else [])

/-- Applying a plan is repeatable: the requests of every run are an initial part of the
list `planned`, which is fixed by the plan; and for two runs, from any two states of the
service and with any prior state and response, whose exchanges got the same answers, the
requests sent are the same and, when both runs succeed, so is the record stored. -/
def Repeatable {σ M : Type} (planned : List Request)
    (run : tfsdk.State M → resource.Response M → Op σ (resource.Response M)) : Prop :=
  (∀ st resp w, (exchangesOf (run st resp) w).map (fun ex => ex.req) <+: planned) ∧
  ∀ st1 st2 resp1 resp2 w1 w2,
    (exchangesOf (run st1 resp1) w1).map (fun ex => ex.res) =
        (exchangesOf (run st2 resp2) w2).map (fun ex => ex.res) →
      (exchangesOf (run st1 resp1) w1).map (fun ex => ex.req) =
        (exchangesOf (run st2 resp2) w2).map (fun ex => ex.req) ∧
      ∀ out1 out2, Succeeded (run st1 resp1 w1) out1 → Succeeded (run st2 resp2 w2) out2 →
        ∃ stored, out1.State.Raw = some stored ∧ out2.State.Raw = some stored

/-- A stored tag 9 before it was renamed. -/
def tagStateOld : TagResourceModel :=
  { ID := .value "9"
    Name := .value "old"
    Description := .null }

/-- The type names of the data sources that the provider registers. -/
def registeredDataSources (p : ThetaLakeProvider) : List String :=
  p.DataSources.map (fun d => d.Metadata p.Metadata.1)

/-- The data source types that the acceptance tests read
(`data_source_case_test.go`, `data_source_user_test.go`, `data_source_analysis_test.go`). -/
def dataSourcesUnderTest : List String :=
  ["thetalake_case", "thetalake_user", "thetalake_analysis"]

/-- The rule of an optional numeric field: when the run succeeded and the client call was
answered with `got`, the stored field is null exactly when `got` carries 0 for it, and
holds the value of `got` otherwise. -/
def StoresOptional {σ M E : Type} (field : M → TypesInt64) (wire : E → Int)
    (answer : Outcome E) (run : Outcome (resource.Response M) × Net σ) : Prop :=
  ∀ (resp1 : resource.Response M) (got : E), Succeeded run resp1 → answer = .ok got →
    ∃ stored, resp1.State.Raw = some stored ∧
      (field stored = types.Int64Null ↔ wire got = 0) ∧
      (wire got ≠ 0 → field stored = types.Int64Value (wire got))

/-- A plan for an export whose query id is 0. -/
def zeroQueryExportPlan : ExportResourceModel :=
  { ID := .value "12"
    Name := .value "test-export"
    QueryID := .value 0
    Format := .value "CSV" }

/-- A plan for a legal hold whose case id is 0. -/
def zeroCaseHoldPlan : LegalHoldResourceModel :=
  { Name := .value "hold-1"
    Description := .value "litigation"
    CaseID := .value 0 }

/-- The legal hold stored by creating `zeroCaseHoldPlan` when the service echoes it. -/
def zeroCaseHoldStored : LegalHoldResourceModel :=
  { ID := .value "4"
    Name := .value "hold-1"
    Description := .value "litigation"
    CaseID := .null }

/-! # Properties -/

@[simp] theorem Op.pure_apply {σ α : Type} (a : α) (w : Net σ) :
    (pure a : Op σ α) w = (.ok a, w) := rfl

@[simp] theorem Op.fail_apply {σ α : Type} (e : Err) (w : Net σ) :
    (Op.fail e : Op σ α) w = (.error e, w) := rfl

@[simp] theorem Op.panic_apply {σ α : Type} (m : String) (w : Net σ) :
    (Op.panic m : Op σ α) w = (.panic m, w) := rfl

@[simp] theorem Op.bind_apply {σ α β : Type} (x : Op σ α) (f : α → Op σ β) (w : Net σ) :
    (x >>= f) w = match x w with
      | (.ok a, w1) => f a w1
      | (.error e, w1) => (.error e, w1)
      | (.panic m, w1) => (.panic m, w1) := rfl

/-! ## Every operation is an instance of the shared shape -/

theorem Client.GetCase_eq {σ : Type} (L : GoStd) (c : Client σ) (caseID : String) :
    c.GetCase L caseID =
      c.exchange L "GET" (c.Endpoint ++ "/cases/" ++ caseID) none
        (fun n => n ≠ http.StatusOK) textFixed (decodeWith L.unmarshalCase id) := rfl

theorem Client.CreateCase_eq {σ : Type} (L : GoStd) (c : Client σ) (x : Case) :
    c.CreateCase L x =
      c.exchange L "POST" (c.Endpoint ++ "/cases") (some x.toJSON)
        (fun n => n ≠ http.StatusCreated ∧ n ≠ http.StatusOK) textBody
        (decodeWith L.unmarshalCase id) := by
  funext w
  dsimp only [Client.CreateCase, Client.exchange, encodeBody]
  cases L.Marshal x.toJSON <;> rfl

theorem Client.UpdateCase_eq {σ : Type} (L : GoStd) (c : Client σ) (caseID : String) (x : Case) :
    c.UpdateCase L caseID x =
      c.exchange L "PUT" (c.Endpoint ++ "/cases/" ++ caseID) (some x.toJSON)
        (fun n => n ≠ http.StatusOK) textBody
        (decodeWith L.unmarshalCase id) := by
  funext w
  dsimp only [Client.UpdateCase, Client.exchange, encodeBody]
  cases L.Marshal x.toJSON <;> rfl

theorem Client.DeleteCase_eq {σ : Type} (L : GoStd) (c : Client σ) (caseID : String) :
    c.DeleteCase L caseID =
      c.exchange L "DELETE" (c.Endpoint ++ "/cases/" ++ caseID) none
        (fun n => n ≠ http.StatusOK ∧ n ≠ http.StatusNoContent) textCode (fun _ => pure ()) := rfl

theorem Client.GetUser_eq {σ : Type} (L : GoStd) (c : Client σ) (userID : String) :
    c.GetUser L userID =
      c.exchange L "GET" (c.Endpoint ++ "/users/" ++ userID) none
        (fun n => n ≠ http.StatusOK) textFixed (decodeWith L.unmarshalUser id) := rfl

theorem Client.CreateUser_eq {σ : Type} (L : GoStd) (c : Client σ) (x : User) :
    c.CreateUser L x =
      c.exchange L "POST" (c.Endpoint ++ "/users") (some x.toJSON)
        (fun n => n ≠ http.StatusCreated ∧ n ≠ http.StatusOK) textBody
        (decodeWith L.unmarshalUser id) := by
  funext w
  dsimp only [Client.CreateUser, Client.exchange, encodeBody]
  cases L.Marshal x.toJSON <;> rfl

theorem Client.UpdateUser_eq {σ : Type} (L : GoStd) (c : Client σ) (userID : String) (x : User) :
    c.UpdateUser L userID x =
      c.exchange L "PUT" (c.Endpoint ++ "/users/" ++ userID) (some x.toJSON)
        (fun n => n ≠ http.StatusOK) textBody
        (decodeWith L.unmarshalUser id) := by
  funext w
  dsimp only [Client.UpdateUser, Client.exchange, encodeBody]
  cases L.Marshal x.toJSON <;> rfl

theorem Client.DeleteUser_eq {σ : Type} (L : GoStd) (c : Client σ) (userID : String) :
    c.DeleteUser L userID =
      c.exchange L "DELETE" (c.Endpoint ++ "/users/" ++ userID) none
        (fun n => n ≠ http.StatusOK ∧ n ≠ http.StatusNoContent) textCode (fun _ => pure ()) := rfl

theorem Client.GetDirectoryGroup_eq {σ : Type} (L : GoStd) (c : Client σ) (groupID : String) :
    c.GetDirectoryGroup L groupID =
      c.exchange L "GET" (c.Endpoint ++ "/directory_groups/" ++ groupID) none
        (fun n => n ≠ http.StatusOK) textFixed (decodeWith L.unmarshalDirectoryGroup id) := rfl

theorem Client.CreateDirectoryGroup_eq {σ : Type} (L : GoStd) (c : Client σ) (x : DirectoryGroup) :
    c.CreateDirectoryGroup L x =
      c.exchange L "POST" (c.Endpoint ++ "/directory_groups") (some x.toJSON)
        (fun n => n ≠ http.StatusCreated ∧ n ≠ http.StatusOK) textBody
        (decodeWith L.unmarshalDirectoryGroup id) := by
  funext w
  dsimp only [Client.CreateDirectoryGroup, Client.exchange, encodeBody]
  cases L.Marshal x.toJSON <;> rfl

theorem Client.UpdateDirectoryGroup_eq {σ : Type} (L : GoStd) (c : Client σ) (groupID : String) (x : DirectoryGroup) :
    c.UpdateDirectoryGroup L groupID x =
      c.exchange L "PUT" (c.Endpoint ++ "/directory_groups/" ++ groupID) (some x.toJSON)
        (fun n => n ≠ http.StatusOK) textBody
        (decodeWith L.unmarshalDirectoryGroup id) := by
  funext w
  dsimp only [Client.UpdateDirectoryGroup, Client.exchange, encodeBody]
  cases L.Marshal x.toJSON <;> rfl

theorem Client.DeleteDirectoryGroup_eq {σ : Type} (L : GoStd) (c : Client σ) (groupID : String) :
    c.DeleteDirectoryGroup L groupID =
      c.exchange L "DELETE" (c.Endpoint ++ "/directory_groups/" ++ groupID) none
        (fun n => n ≠ http.StatusOK ∧ n ≠ http.StatusNoContent) textCode (fun _ => pure ()) := rfl

theorem Client.GetRetentionPolicy_eq {σ : Type} (L : GoStd) (c : Client σ) (policyID : String) :
    c.GetRetentionPolicy L policyID =
      c.exchange L "GET" (c.Endpoint ++ "/retention_policies/" ++ policyID) none
        (fun n => n ≠ http.StatusOK) textFixed (decodeWith L.unmarshalRetentionPolicy id) := rfl

theorem Client.CreateRetentionPolicy_eq {σ : Type} (L : GoStd) (c : Client σ) (x : RetentionPolicy) :
    c.CreateRetentionPolicy L x =
      c.exchange L "POST" (c.Endpoint ++ "/retention_policies") (some x.toJSON)
        (fun n => n ≠ http.StatusCreated ∧ n ≠ http.StatusOK) textBody
        (decodeWith L.unmarshalRetentionPolicy id) := by
  funext w
  dsimp only [Client.CreateRetentionPolicy, Client.exchange, encodeBody]
  cases L.Marshal x.toJSON <;> rfl

theorem Client.UpdateRetentionPolicy_eq {σ : Type} (L : GoStd) (c : Client σ) (policyID : String) (x : RetentionPolicy) :
    c.UpdateRetentionPolicy L policyID x =
      c.exchange L "PUT" (c.Endpoint ++ "/retention_policies/" ++ policyID) (some x.toJSON)
        (fun n => n ≠ http.StatusOK) textBody
        (decodeWith L.unmarshalRetentionPolicy id) := by
  funext w
  dsimp only [Client.UpdateRetentionPolicy, Client.exchange, encodeBody]
  cases L.Marshal x.toJSON <;> rfl

theorem Client.DeleteRetentionPolicy_eq {σ : Type} (L : GoStd) (c : Client σ) (policyID : String) :
    c.DeleteRetentionPolicy L policyID =
      c.exchange L "DELETE" (c.Endpoint ++ "/retention_policies/" ++ policyID) none
        (fun n => n ≠ http.StatusOK ∧ n ≠ http.StatusNoContent) textCode (fun _ => pure ()) := rfl

theorem Client.GetLegalHold_eq {σ : Type} (L : GoStd) (c : Client σ) (holdID : String) :
    c.GetLegalHold L holdID =
      c.exchange L "GET" (c.Endpoint ++ "/legal_holds/" ++ holdID) none
        (fun n => n ≠ http.StatusOK) textFixed (decodeWith L.unmarshalLegalHold id) := rfl

theorem Client.CreateLegalHold_eq {σ : Type} (L : GoStd) (c : Client σ) (x : LegalHold) :
    c.CreateLegalHold L x =
      c.exchange L "POST" (c.Endpoint ++ "/legal_holds") (some x.toJSON)
        (fun n => n ≠ http.StatusCreated ∧ n ≠ http.StatusOK) textBody
        (decodeWith L.unmarshalLegalHold id) := by
  funext w
  dsimp only [Client.CreateLegalHold, Client.exchange, encodeBody]
  cases L.Marshal x.toJSON <;> rfl

theorem Client.UpdateLegalHold_eq {σ : Type} (L : GoStd) (c : Client σ) (holdID : String) (x : LegalHold) :
    c.UpdateLegalHold L holdID x =
      c.exchange L "PUT" (c.Endpoint ++ "/legal_holds/" ++ holdID) (some x.toJSON)
        (fun n => n ≠ http.StatusOK) textBody
        (decodeWith L.unmarshalLegalHold id) := by
  funext w
  dsimp only [Client.UpdateLegalHold, Client.exchange, encodeBody]
  cases L.Marshal x.toJSON <;> rfl

theorem Client.DeleteLegalHold_eq {σ : Type} (L : GoStd) (c : Client σ) (holdID : String) :
    c.DeleteLegalHold L holdID =
      c.exchange L "DELETE" (c.Endpoint ++ "/legal_holds/" ++ holdID) none
        (fun n => n ≠ http.StatusOK ∧ n ≠ http.StatusNoContent) textCode (fun _ => pure ()) := rfl

theorem Client.GetTag_eq {σ : Type} (L : GoStd) (c : Client σ) (tagID : String) :
    c.GetTag L tagID =
      c.exchange L "GET" (c.Endpoint ++ "/tags/" ++ tagID) none
        (fun n => n ≠ http.StatusOK) textFixed (decodeWith L.unmarshalTag id) := rfl

theorem Client.CreateTag_eq {σ : Type} (L : GoStd) (c : Client σ) (x : Tag) :
    c.CreateTag L x =
      c.exchange L "POST" (c.Endpoint ++ "/tags") (some x.toJSON)
        (fun n => n ≠ http.StatusCreated ∧ n ≠ http.StatusOK) textBody
        (decodeWith L.unmarshalTag id) := by
  funext w
  dsimp only [Client.CreateTag, Client.exchange, encodeBody]
  cases L.Marshal x.toJSON <;> rfl

theorem Client.UpdateTag_eq {σ : Type} (L : GoStd) (c : Client σ) (tagID : String) (x : Tag) :
    c.UpdateTag L tagID x =
      c.exchange L "PUT" (c.Endpoint ++ "/tags/" ++ tagID) (some x.toJSON)
        (fun n => n ≠ http.StatusOK) textBody
        (decodeWith L.unmarshalTag id) := by
  funext w
  dsimp only [Client.UpdateTag, Client.exchange, encodeBody]
  cases L.Marshal x.toJSON <;> rfl

theorem Client.DeleteTag_eq {σ : Type} (L : GoStd) (c : Client σ) (tagID : String) :
    c.DeleteTag L tagID =
      c.exchange L "DELETE" (c.Endpoint ++ "/tags/" ++ tagID) none
        (fun n => n ≠ http.StatusOK ∧ n ≠ http.StatusNoContent) textCode (fun _ => pure ()) := rfl

theorem Client.GetAuditLogs_eq {σ : Type} (L : GoStd) (c : Client σ) :
    c.GetAuditLogs L =
      c.exchange L "GET" (c.Endpoint ++ "/audit_logs") none
        (fun n => n ≠ http.StatusOK) textFixed (decodeWith L.unmarshalAuditLogs id) := rfl

theorem Client.GetEvents_eq {σ : Type} (L : GoStd) (c : Client σ) :
    c.GetEvents L =
      c.exchange L "GET" (c.Endpoint ++ "/events") none
        (fun n => n ≠ http.StatusOK) textFixed (decodeWith L.unmarshalEvents id) := rfl

theorem Client.GetAnalysisPolicies_eq {σ : Type} (L : GoStd) (c : Client σ) :
    c.GetAnalysisPolicies L =
      c.exchange L "GET" (c.Endpoint ++ "/analysis/policies") none
        (fun n => n ≠ http.StatusOK) textFixed
        (decodeWith L.unmarshalAnalysisPoliciesResponse (fun response => response.Policies)) := rfl

theorem Client.GetIntegrationState_eq {σ : Type} (L : GoStd) (c : Client σ) (integrationID : String) :
    c.GetIntegrationState L integrationID =
      c.exchange L "GET" (c.Endpoint ++ "/ingestion/integration/" ++ integrationID ++ "/state") none
        (fun n => n ≠ http.StatusOK) textFixed
        (decodeWith L.unmarshalIntegrationStateResponse (fun response => response.State)) := rfl

theorem Client.GetExport_eq {σ : Type} (L : GoStd) (c : Client σ) (exportID : String) :
    c.GetExport L exportID =
      c.exchange L "GET" (c.Endpoint ++ "/exports/" ++ exportID) none
        (fun n => n ≠ http.StatusOK) textFixed (decodeWith L.unmarshalExport id) := rfl

theorem Client.CreateExport_eq {σ : Type} (L : GoStd) (c : Client σ) (x : Export) :
    c.CreateExport L x =
      c.exchange L "POST" (c.Endpoint ++ "/exports") (some x.toJSON)
        (fun n => n ≠ http.StatusCreated ∧ n ≠ http.StatusOK) textBody
        (decodeWith L.unmarshalExport id) := by
  funext w
  dsimp only [Client.CreateExport, Client.exchange, encodeBody]
  cases L.Marshal x.toJSON <;> rfl

theorem Client.DeleteExport_eq {σ : Type} (L : GoStd) (c : Client σ) (exportID : String) :
    c.DeleteExport L exportID =
      c.exchange L "DELETE" (c.Endpoint ++ "/exports/" ++ exportID) none
        (fun n => n ≠ http.StatusOK ∧ n ≠ http.StatusNoContent) textCode (fun _ => pure ()) := rfl

theorem Client.GetRecord_eq {σ : Type} (L : GoStd) (c : Client σ) (recordID : String) :
    c.GetRecord L recordID =
      c.exchange L "GET" (c.Endpoint ++ "/records/" ++ recordID) none
        (fun n => n ≠ http.StatusOK) textFixed (decodeWith L.unmarshalRecord id) := rfl

theorem Client.GetSystemStatus_eq {σ : Type} (L : GoStd) (c : Client σ) :
    c.GetSystemStatus L =
      c.exchange L "GET" (c.Endpoint ++ "/system/status") none
        (fun n => n ≠ http.StatusOK) textFixed (decodeWith L.unmarshalSystemStatus id) := rfl

theorem Client.GetAnalysisPolicyHits_eq {σ : Type} (L : GoStd) (c : Client σ) :
    c.GetAnalysisPolicyHits L =
      c.exchange L "GET" (c.Endpoint ++ "/analysis/policy_hits") none
        (fun n => n ≠ http.StatusOK) textFixed
        (decodeWith L.unmarshalPolicyHitsResponse (fun response => response.Hits)) := rfl

theorem Client.GetAnalysis_eq {σ : Type} (L : GoStd) (c : Client σ) (analysisID : String) :
    c.GetAnalysis L analysisID =
      c.exchange L "GET" (c.Endpoint ++ "/analysis/" ++ analysisID) none
        (fun n => n ≠ http.StatusOK) textFixed (decodeWith L.unmarshalAnalysis id) := rfl

theorem Client.AddRecordToCase_eq {σ : Type} (L : GoStd) (c : Client σ) (caseID recordID : String) :
    c.AddRecordToCase L caseID recordID =
      c.exchange L "POST" (c.Endpoint ++ "/cases/" ++ caseID ++ "/records") (some [("record_id", .str recordID)])
        (fun n => n ≠ http.StatusOK ∧ n ≠ http.StatusCreated) textCode (fun _ => pure ()) := by
  funext w
  dsimp only [Client.AddRecordToCase, Client.exchange, encodeBody]
  cases L.Marshal [("record_id", .str recordID)] <;> rfl

theorem Client.UpdateRecordReviewState_eq {σ : Type} (L : GoStd) (c : Client σ) (recordID reviewState comment : String) :
    c.UpdateRecordReviewState L recordID reviewState comment =
      c.exchange L "PUT" (c.Endpoint ++ "/records/" ++ recordID ++ "/review_state") (some (recordReviewStateRequest.toJSON ⟨reviewState, comment⟩))
        (fun n => n ≠ http.StatusOK) textBody (fun _ => c.GetRecord L recordID) := by
  funext w
  dsimp only [Client.UpdateRecordReviewState, Client.exchange, encodeBody]
  cases L.Marshal (recordReviewStateRequest.toJSON ⟨reviewState, comment⟩) <;> rfl

theorem Client.UpdateIntegrationState_eq {σ : Type} (L : GoStd) (c : Client σ) (integrationID : String) (paused : Bool) :
    c.UpdateIntegrationState L integrationID paused =
      c.exchange L "PUT" (c.Endpoint ++ "/ingestion/integration/" ++ integrationID ++ "/state") (some (integrationStateRequest.toJSON ⟨if paused then "paused" else "active"⟩))
        (fun n => n ≠ http.StatusOK) textBody (fun res => do
          let body ← Op.readAll res
          match L.unmarshalIntegrationStateResponse body with
          | .ok response =>
            if response.State.LastRun ≠ "" then pure response.State
            else c.GetIntegrationState L integrationID
          | .error _ => c.GetIntegrationState L integrationID) := by
  funext w
  dsimp only [Client.UpdateIntegrationState, Client.exchange, encodeBody]
  cases L.Marshal (integrationStateRequest.toJSON ⟨if paused then "paused" else "active"⟩) <;> rfl

theorem Client.UpdateCaseStatus_eq {σ : Type} (L : GoStd) (c : Client σ)
    (caseID status : String) :
    c.UpdateCaseStatus L caseID status =
      if status = "OPEN" ∨ status = "open" then
        c.exchange L "PUT" (c.Endpoint ++ "/cases/" ++ caseID ++ "/" ++ "open") none
          (fun n => n ≠ http.StatusOK) textCode (fun _ => pure ())
      else if status = "CLOSED" ∨ status = "closed" then
        c.exchange L "PUT" (c.Endpoint ++ "/cases/" ++ caseID ++ "/" ++ "close") none
          (fun n => n ≠ http.StatusOK) textCode (fun _ => pure ())
      else Op.fail (.invalid ("invalid status: " ++ status)) := by
  unfold Client.UpdateCaseStatus
  split_ifs <;> rfl

/-! ## Runs of the shared shape -/

/-- A run of the shared shape, step by step. -/
theorem Client.exchange_apply {σ α : Type} (L : GoStd) (c : Client σ) (method url : String)
    (payload : Option JObj) (reject : Int → Prop) [DecidablePred reject]
    (text : Response → String) (k : Response → Op σ α) (w : Net σ) :
    c.exchange L method url payload reject text k w =
      match encodeBody L payload with
      | .error e => (.error e, w)
      | .ok body =>
        match L.urlParse url with
        | .error e => (.error (.request e), w)
        | .ok u =>
          match c.HTTPClient.Do (c.stamp ⟨method, u, [], body⟩) w.remote with
          | (.error e, s) =>
            (.error (.transport e), ⟨s, w.log ++ [⟨c.stamp ⟨method, u, [], body⟩, .error e⟩]⟩)
          | (.ok res, s) =>
            if reject res.StatusCode then
              (.error (.status res.StatusCode (text res)),
                ⟨s, w.log ++ [⟨c.stamp ⟨method, u, [], body⟩, .ok res⟩]⟩)
            else k res ⟨s, w.log ++ [⟨c.stamp ⟨method, u, [], body⟩, .ok res⟩]⟩ := by
  unfold Client.exchange
  cases encodeBody L payload with
  | error e => rfl
  | ok body =>
    cases hU : L.urlParse url with
    | error e => simp [Op.ofExcept, http.NewRequest, hU]
    | ok u =>
      cases hD : c.HTTPClient.Do (c.stamp ⟨method, u, [], body⟩) w.remote with
      | mk r s =>
        cases r with
        | error e => simp [Op.ofExcept, http.NewRequest, hU, Client.DoRequest, hD]
        | ok res =>
          by_cases hr : reject res.StatusCode <;>
            simp [Op.ofExcept, http.NewRequest, hU, Client.DoRequest, hD, hr]

theorem Quiet.classified {σ α : Type} {op : Op σ α} (h : Quiet op) (reject : Int → Prop) :
    Classified reject op := by
  intro w
  refine ⟨[], by simp [(h w).1], ?_, ?_⟩
  · intro ex hex; simp at hex
  · intro code msg hc; exact absurd hc ((h w).2 code msg)

theorem Classified.statusRule {σ α : Type} {reject accepted : Int → Prop} {op : Op σ α}
    (h : Classified reject op) (hacc : ∀ n, reject n ↔ ¬ accepted n) :
    StatusRule accepted op := by
  intro w ex res hex hres
  obtain ⟨new, hlog, h1, _⟩ := h w
  have : exchangesOf op w = new := by simp [exchangesOf, hlog]
  rw [this] at hex
  exact (h1 ex hex res hres).trans (hacc _)

theorem encodeBody_error {L : GoStd} {payload : Option JObj} {e : Err}
    (h : encodeBody L payload = .error e) : ∃ m, e = .encode m := by
  cases payload with
  | none => simp [encodeBody] at h
  | some obj =>
    simp only [encodeBody] at h
    cases hM : L.Marshal obj with
    | ok rb => simp [hM] at h
    | error m => exact ⟨m, by simpa [hM] using h.symm⟩

theorem Client.exchange_classified {σ α : Type} (L : GoStd) (c : Client σ)
    (method url : String) (payload : Option JObj) (reject : Int → Prop)
    [DecidablePred reject] (text : Response → String) (k : Response → Op σ α)
    (hk : ∀ res, Classified reject (k res)) :
    Classified reject (c.exchange L method url payload reject text k) := by
  intro w
  rw [Client.exchange_apply]
  cases hE : encodeBody L payload with
  | error e =>
    obtain ⟨m, rfl⟩ := encodeBody_error hE
    exact ⟨[], by simp, by simp, by simp⟩
  | ok body =>
    cases L.urlParse url with
    | error e => exact ⟨[], by simp, by simp, by simp⟩
    | ok u =>
      cases hD : c.HTTPClient.Do (c.stamp ⟨method, u, [], body⟩) w.remote with
      | mk r s =>
        cases r with
        | error e =>
          simp only [hD]
          refine ⟨[⟨c.stamp ⟨method, u, [], body⟩, .error e⟩], by simp, ?_, by simp⟩
          intro ex hex res hres
          simp at hex
          subst hex
          simp at hres
        | ok res =>
          simp only [hD]
          by_cases hr : reject res.StatusCode
          · refine ⟨[⟨c.stamp ⟨method, u, [], body⟩, .ok res⟩], by simp [hr], ?_, ?_⟩
            · intro ex hex res1 hres
              simp at hex
              subst hex
              simp at hres
              subst hres
              simp [hr]
            · intro code msg hc
              simp [hr] at hc
              rw [← hc.1]
              exact hr
          · obtain ⟨new, hlog, h1, h2⟩ :=
              hk res ⟨s, w.log ++ [⟨c.stamp ⟨method, u, [], body⟩, .ok res⟩]⟩
            refine ⟨⟨c.stamp ⟨method, u, [], body⟩, .ok res⟩ :: new, ?_, ?_, ?_⟩
            · simp [hr, hlog]
            · intro ex hex res1 hres
              simp only [hr, if_false]
              rcases List.mem_cons.1 hex with hex | hex
              · subst hex
                simp at hres
                subst hres
                constructor
                · rintro ⟨msg, hm⟩
                  exact h2 _ _ hm
                · intro h
                  exact absurd h hr
              · exact h1 ex hex res1 hres
            · intro code msg hc
              simp only [hr, if_false] at hc
              exact h2 code msg hc

/-- With a continuation that does not talk to the service, a run whose request can be
built performs exactly one exchange: the stamped request and the answer of the
transport. -/
theorem Client.exchange_exchanges {σ α : Type} (L : GoStd) (c : Client σ)
    (method url : String) (payload : Option JObj) (reject : Int → Prop)
    [DecidablePred reject] (text : Response → String) (k : Response → Op σ α)
    (w : Net σ) (body : Option String) (u : URL)
    (hB : encodeBody L payload = .ok body) (hU : L.urlParse url = .ok u)
    (hk : ∀ res, Quiet (k res)) :
    exchangesOf (c.exchange L method url payload reject text k) w =
      [⟨c.stamp ⟨method, u, [], body⟩,
        (c.HTTPClient.Do (c.stamp ⟨method, u, [], body⟩) w.remote).1⟩] := by
  unfold exchangesOf
  rw [Client.exchange_apply]
  simp only [hB, hU]
  cases hD : c.HTTPClient.Do (c.stamp ⟨method, u, [], body⟩) w.remote with
  | mk r s =>
    cases r with
    | error e => simp
    | ok res =>
      by_cases hr : reject res.StatusCode
      · simp [hr]
      · simp [hr, (hk res _).1]

/-- The outcome of a run depends on the state of the service, not on the ghost log. -/
theorem Client.exchange_outcome_log {σ α : Type} (L : GoStd) (c : Client σ)
    (method url : String) (payload : Option JObj) (reject : Int → Prop)
    [DecidablePred reject] (text : Response → String) (k : Response → Op σ α)
    (hk : ∀ res w1 w2, (k res w1).1 = (k res w2).1) (s : σ) (log1 log2 : List Exchange) :
    (c.exchange L method url payload reject text k ⟨s, log1⟩).1 =
      (c.exchange L method url payload reject text k ⟨s, log2⟩).1 := by
  rw [Client.exchange_apply, Client.exchange_apply]
  cases encodeBody L payload with
  | error e => rfl
  | ok body =>
    cases L.urlParse url with
    | error e => rfl
    | ok u =>
      simp only
      cases c.HTTPClient.Do (c.stamp ⟨method, u, [], body⟩) s with
      | mk r s1 =>
        cases r with
        | error e => rfl
        | ok res =>
          by_cases hr : reject res.StatusCode
          · simp [hr]
          · simp only [hr, if_false]
            exact hk res _ _

theorem decodeWith_outcome {σ α β : Type} (dec : String → Except String β) (f : β → α)
    (res : Response) (w1 w2 : Net σ) :
    (decodeWith dec f res w1).1 = (decodeWith dec f res w2).1 := by
  unfold decodeWith Op.readAll io.ReadAll
  cases res.BodyErr with
  | some e => rfl
  | none =>
    cases hdec : dec res.Body with
    | error e => simp [Op.unmarshal, hdec]
    | ok v => simp [Op.unmarshal, hdec]

theorem decodeWith_quiet {σ α β : Type} (dec : String → Except String β) (f : β → α)
    (res : Response) : Quiet (decodeWith dec f res : Op σ α) := by
  intro w
  unfold decodeWith Op.readAll io.ReadAll
  cases res.BodyErr with
  | some e => exact ⟨rfl, by intro code msg h; simp at h⟩
  | none =>
    cases hdec : dec res.Body with
    | error e => exact ⟨by simp [Op.unmarshal, hdec], by simp [Op.unmarshal, hdec]⟩
    | ok v => exact ⟨by simp [Op.unmarshal, hdec], by simp [Op.unmarshal, hdec]⟩

theorem pure_quiet {σ α : Type} (a : α) : Quiet (pure a : Op σ α) := by
  intro w
  exact ⟨rfl, by intro code msg h; simp at h⟩

theorem Client.GetCase_classified {σ : Type} (L : GoStd) (c : Client σ) (id : String) :
    Classified (fun n => n ≠ http.StatusOK) (c.GetCase L id) := by
  rw [Client.GetCase_eq]
  exact Client.exchange_classified _ _ _ _ _ _ _ _
    (fun res => Quiet.classified (decodeWith_quiet _ _ res) _)

theorem Client.GetUser_classified {σ : Type} (L : GoStd) (c : Client σ) (id : String) :
    Classified (fun n => n ≠ http.StatusOK) (c.GetUser L id) := by
  rw [Client.GetUser_eq]
  exact Client.exchange_classified _ _ _ _ _ _ _ _
    (fun res => Quiet.classified (decodeWith_quiet _ _ res) _)

theorem Client.GetDirectoryGroup_classified {σ : Type} (L : GoStd) (c : Client σ) (id : String) :
    Classified (fun n => n ≠ http.StatusOK) (c.GetDirectoryGroup L id) := by
  rw [Client.GetDirectoryGroup_eq]
  exact Client.exchange_classified _ _ _ _ _ _ _ _
    (fun res => Quiet.classified (decodeWith_quiet _ _ res) _)

theorem Client.GetRetentionPolicy_classified {σ : Type} (L : GoStd) (c : Client σ) (id : String) :
    Classified (fun n => n ≠ http.StatusOK) (c.GetRetentionPolicy L id) := by
  rw [Client.GetRetentionPolicy_eq]
  exact Client.exchange_classified _ _ _ _ _ _ _ _
    (fun res => Quiet.classified (decodeWith_quiet _ _ res) _)

theorem Client.GetLegalHold_classified {σ : Type} (L : GoStd) (c : Client σ) (id : String) :
    Classified (fun n => n ≠ http.StatusOK) (c.GetLegalHold L id) := by
  rw [Client.GetLegalHold_eq]
  exact Client.exchange_classified _ _ _ _ _ _ _ _
    (fun res => Quiet.classified (decodeWith_quiet _ _ res) _)

theorem Client.GetTag_classified {σ : Type} (L : GoStd) (c : Client σ) (id : String) :
    Classified (fun n => n ≠ http.StatusOK) (c.GetTag L id) := by
  rw [Client.GetTag_eq]
  exact Client.exchange_classified _ _ _ _ _ _ _ _
    (fun res => Quiet.classified (decodeWith_quiet _ _ res) _)

theorem Client.GetExport_classified {σ : Type} (L : GoStd) (c : Client σ) (id : String) :
    Classified (fun n => n ≠ http.StatusOK) (c.GetExport L id) := by
  rw [Client.GetExport_eq]
  exact Client.exchange_classified _ _ _ _ _ _ _ _
    (fun res => Quiet.classified (decodeWith_quiet _ _ res) _)

theorem Client.GetRecord_classified {σ : Type} (L : GoStd) (c : Client σ) (id : String) :
    Classified (fun n => n ≠ http.StatusOK) (c.GetRecord L id) := by
  rw [Client.GetRecord_eq]
  exact Client.exchange_classified _ _ _ _ _ _ _ _
    (fun res => Quiet.classified (decodeWith_quiet _ _ res) _)

theorem Client.GetIntegrationState_classified {σ : Type} (L : GoStd) (c : Client σ) (id : String) :
    Classified (fun n => n ≠ http.StatusOK) (c.GetIntegrationState L id) := by
  rw [Client.GetIntegrationState_eq]
  exact Client.exchange_classified _ _ _ _ _ _ _ _
    (fun res => Quiet.classified (decodeWith_quiet _ _ res) _)

theorem Client.GetAuditLogs_classified {σ : Type} (L : GoStd) (c : Client σ) :
    Classified (fun n => n ≠ http.StatusOK) (c.GetAuditLogs L) := by
  rw [Client.GetAuditLogs_eq]
  exact Client.exchange_classified _ _ _ _ _ _ _ _
    (fun res => Quiet.classified (decodeWith_quiet _ _ res) _)

theorem Client.GetEvents_classified {σ : Type} (L : GoStd) (c : Client σ) :
    Classified (fun n => n ≠ http.StatusOK) (c.GetEvents L) := by
  rw [Client.GetEvents_eq]
  exact Client.exchange_classified _ _ _ _ _ _ _ _
    (fun res => Quiet.classified (decodeWith_quiet _ _ res) _)

theorem Client.GetAnalysisPolicies_classified {σ : Type} (L : GoStd) (c : Client σ) :
    Classified (fun n => n ≠ http.StatusOK) (c.GetAnalysisPolicies L) := by
  rw [Client.GetAnalysisPolicies_eq]
  exact Client.exchange_classified _ _ _ _ _ _ _ _
    (fun res => Quiet.classified (decodeWith_quiet _ _ res) _)

theorem Client.GetAnalysisPolicyHits_classified {σ : Type} (L : GoStd) (c : Client σ) :
    Classified (fun n => n ≠ http.StatusOK) (c.GetAnalysisPolicyHits L) := by
  rw [Client.GetAnalysisPolicyHits_eq]
  exact Client.exchange_classified _ _ _ _ _ _ _ _
    (fun res => Quiet.classified (decodeWith_quiet _ _ res) _)

theorem Client.GetSystemStatus_classified {σ : Type} (L : GoStd) (c : Client σ) :
    Classified (fun n => n ≠ http.StatusOK) (c.GetSystemStatus L) := by
  rw [Client.GetSystemStatus_eq]
  exact Client.exchange_classified _ _ _ _ _ _ _ _
    (fun res => Quiet.classified (decodeWith_quiet _ _ res) _)

theorem Client.GetAnalysis_classified {σ : Type} (L : GoStd) (c : Client σ) (id : String) :
    Classified (fun n => n ≠ http.StatusOK) (c.GetAnalysis L id) := by
  rw [Client.GetAnalysis_eq]
  exact Client.exchange_classified _ _ _ _ _ _ _ _
    (fun res => Quiet.classified (decodeWith_quiet _ _ res) _)

theorem Client.UpdateCase_classified {σ : Type} (L : GoStd) (c : Client σ) (id : String) (x : Case) :
    Classified (fun n => n ≠ http.StatusOK) (c.UpdateCase L id x) := by
  rw [Client.UpdateCase_eq]
  exact Client.exchange_classified _ _ _ _ _ _ _ _
    (fun res => Quiet.classified (decodeWith_quiet _ _ res) _)

theorem Client.UpdateUser_classified {σ : Type} (L : GoStd) (c : Client σ) (id : String) (x : User) :
    Classified (fun n => n ≠ http.StatusOK) (c.UpdateUser L id x) := by
  rw [Client.UpdateUser_eq]
  exact Client.exchange_classified _ _ _ _ _ _ _ _
    (fun res => Quiet.classified (decodeWith_quiet _ _ res) _)

theorem Client.UpdateDirectoryGroup_classified {σ : Type} (L : GoStd) (c : Client σ) (id : String) (x : DirectoryGroup) :
    Classified (fun n => n ≠ http.StatusOK) (c.UpdateDirectoryGroup L id x) := by
  rw [Client.UpdateDirectoryGroup_eq]
  exact Client.exchange_classified _ _ _ _ _ _ _ _
    (fun res => Quiet.classified (decodeWith_quiet _ _ res) _)

theorem Client.UpdateRetentionPolicy_classified {σ : Type} (L : GoStd) (c : Client σ) (id : String) (x : RetentionPolicy) :
    Classified (fun n => n ≠ http.StatusOK) (c.UpdateRetentionPolicy L id x) := by
  rw [Client.UpdateRetentionPolicy_eq]
  exact Client.exchange_classified _ _ _ _ _ _ _ _
    (fun res => Quiet.classified (decodeWith_quiet _ _ res) _)

theorem Client.UpdateLegalHold_classified {σ : Type} (L : GoStd) (c : Client σ) (id : String) (x : LegalHold) :
    Classified (fun n => n ≠ http.StatusOK) (c.UpdateLegalHold L id x) := by
  rw [Client.UpdateLegalHold_eq]
  exact Client.exchange_classified _ _ _ _ _ _ _ _
    (fun res => Quiet.classified (decodeWith_quiet _ _ res) _)

theorem Client.UpdateTag_classified {σ : Type} (L : GoStd) (c : Client σ) (id : String) (x : Tag) :
    Classified (fun n => n ≠ http.StatusOK) (c.UpdateTag L id x) := by
  rw [Client.UpdateTag_eq]
  exact Client.exchange_classified _ _ _ _ _ _ _ _
    (fun res => Quiet.classified (decodeWith_quiet _ _ res) _)

theorem Client.CreateCase_classified {σ : Type} (L : GoStd) (c : Client σ) (x : Case) :
    Classified (fun n => n ≠ http.StatusCreated ∧ n ≠ http.StatusOK) (c.CreateCase L x) := by
  rw [Client.CreateCase_eq]
  exact Client.exchange_classified _ _ _ _ _ _ _ _
    (fun res => Quiet.classified (decodeWith_quiet _ _ res) _)

theorem Client.CreateUser_classified {σ : Type} (L : GoStd) (c : Client σ) (x : User) :
    Classified (fun n => n ≠ http.StatusCreated ∧ n ≠ http.StatusOK) (c.CreateUser L x) := by
  rw [Client.CreateUser_eq]
  exact Client.exchange_classified _ _ _ _ _ _ _ _
    (fun res => Quiet.classified (decodeWith_quiet _ _ res) _)

theorem Client.CreateDirectoryGroup_classified {σ : Type} (L : GoStd) (c : Client σ) (x : DirectoryGroup) :
    Classified (fun n => n ≠ http.StatusCreated ∧ n ≠ http.StatusOK) (c.CreateDirectoryGroup L x) := by
  rw [Client.CreateDirectoryGroup_eq]
  exact Client.exchange_classified _ _ _ _ _ _ _ _
    (fun res => Quiet.classified (decodeWith_quiet _ _ res) _)

theorem Client.CreateRetentionPolicy_classified {σ : Type} (L : GoStd) (c : Client σ) (x : RetentionPolicy) :
    Classified (fun n => n ≠ http.StatusCreated ∧ n ≠ http.StatusOK) (c.CreateRetentionPolicy L x) := by
  rw [Client.CreateRetentionPolicy_eq]
  exact Client.exchange_classified _ _ _ _ _ _ _ _
    (fun res => Quiet.classified (decodeWith_quiet _ _ res) _)

theorem Client.CreateLegalHold_classified {σ : Type} (L : GoStd) (c : Client σ) (x : LegalHold) :
    Classified (fun n => n ≠ http.StatusCreated ∧ n ≠ http.StatusOK) (c.CreateLegalHold L x) := by
  rw [Client.CreateLegalHold_eq]
  exact Client.exchange_classified _ _ _ _ _ _ _ _
    (fun res => Quiet.classified (decodeWith_quiet _ _ res) _)

theorem Client.CreateTag_classified {σ : Type} (L : GoStd) (c : Client σ) (x : Tag) :
    Classified (fun n => n ≠ http.StatusCreated ∧ n ≠ http.StatusOK) (c.CreateTag L x) := by
  rw [Client.CreateTag_eq]
  exact Client.exchange_classified _ _ _ _ _ _ _ _
    (fun res => Quiet.classified (decodeWith_quiet _ _ res) _)

theorem Client.CreateExport_classified {σ : Type} (L : GoStd) (c : Client σ) (x : Export) :
    Classified (fun n => n ≠ http.StatusCreated ∧ n ≠ http.StatusOK) (c.CreateExport L x) := by
  rw [Client.CreateExport_eq]
  exact Client.exchange_classified _ _ _ _ _ _ _ _
    (fun res => Quiet.classified (decodeWith_quiet _ _ res) _)

theorem Client.AddRecordToCase_classified {σ : Type} (L : GoStd) (c : Client σ) (caseID recordID : String) :
    Classified (fun n => n ≠ http.StatusOK ∧ n ≠ http.StatusCreated) (c.AddRecordToCase L caseID recordID) := by
  rw [Client.AddRecordToCase_eq]
  exact Client.exchange_classified _ _ _ _ _ _ _ _
    (fun _ => Quiet.classified (pure_quiet _) _)

theorem Client.UpdateRecordReviewState_classified {σ : Type} (L : GoStd) (c : Client σ)
    (recordID reviewState comment : String) :
    Classified (fun n => n ≠ http.StatusOK)
      (c.UpdateRecordReviewState L recordID reviewState comment) := by
  rw [Client.UpdateRecordReviewState_eq]
  exact Client.exchange_classified _ _ _ _ _ _ _ _
    (fun _ => Client.GetRecord_classified L c recordID)

theorem Client.UpdateIntegrationState_classified {σ : Type} (L : GoStd) (c : Client σ)
    (integrationID : String) (paused : Bool) :
    Classified (fun n => n ≠ http.StatusOK)
      (c.UpdateIntegrationState L integrationID paused) := by
  rw [Client.UpdateIntegrationState_eq]
  refine Client.exchange_classified _ _ _ _ _ _ _ _ (fun res => ?_)
  intro w
  simp only [Op.bind_apply, Op.readAll, io.ReadAll]
  cases res.BodyErr with
  | some e => exact ⟨[], by simp, by simp, by simp⟩
  | none =>
    simp only [Op.pure_apply]
    cases L.unmarshalIntegrationStateResponse res.Body with
    | error e => exact Client.GetIntegrationState_classified L c integrationID w
    | ok response =>
      by_cases h : response.State.LastRun = ""
      · simpa [h] using Client.GetIntegrationState_classified L c integrationID w
      · exact ⟨[], by simp [h], by simp, by simp [h]⟩

theorem Client.UpdateCaseStatus_classified {σ : Type} (L : GoStd) (c : Client σ)
    (caseID status : String) :
    Classified (fun n => n ≠ http.StatusOK) (c.UpdateCaseStatus L caseID status) := by
  rw [Client.UpdateCaseStatus_eq]
  split_ifs
  · exact Client.exchange_classified _ _ _ _ _ _ _ _
      (fun _ => Quiet.classified (pure_quiet _) _)
  · exact Client.exchange_classified _ _ _ _ _ _ _ _
      (fun _ => Quiet.classified (pure_quiet _) _)
  · exact Quiet.classified (fun w => ⟨rfl, by intro code msg h; simp at h⟩) _

theorem rejects_iff_not_200 (n : Int) : n ≠ http.StatusOK ↔ ¬ n = 200 := Iff.rfl

theorem rejects_iff_not_200_201 (n : Int) :
    (n ≠ http.StatusCreated ∧ n ≠ http.StatusOK) ↔ ¬ (n = 200 ∨ n = 201) := by
  simp only [http.StatusCreated, http.StatusOK]
  tauto

theorem rejects_iff_not_200_201_swapped (n : Int) :
    (n ≠ http.StatusOK ∧ n ≠ http.StatusCreated) ↔ ¬ (n = 200 ∨ n = 201) := by
  simp only [http.StatusCreated, http.StatusOK]
  tauto

theorem Client.exchange_deleteRule {σ : Type} (L : GoStd) (c : Client σ) (url : String) :
    DeleteRule (c.exchange L "DELETE" url none
      (fun n => n ≠ http.StatusOK ∧ n ≠ http.StatusNoContent) textCode
      (fun _ => pure ())) := by
  intro w ex res hex hres
  unfold exchangesOf at hex
  rw [Client.exchange_apply] at hex ⊢
  simp only [encodeBody] at hex ⊢
  cases hU : L.urlParse url with
  | error e => simp [hU] at hex
  | ok u =>
    simp only [hU] at hex ⊢
    cases hD : c.HTTPClient.Do (c.stamp ⟨"DELETE", u, [], none⟩) w.remote with
    | mk r s =>
      simp only [hD] at hex ⊢
      cases r with
      | error e =>
        simp at hex
        subst hex
        simp at hres
      | ok res0 =>
        have hlog : ∀ o : Outcome Unit × Net σ,
            o.2.log = w.log ++ [⟨c.stamp ⟨"DELETE", u, [], none⟩, .ok res0⟩] →
            ex ∈ List.drop w.log.length o.2.log → res0 = res := by
          intro o ho hmem
          rw [ho] at hmem
          simp at hmem
          subst hmem
          simpa using hres
        simp only [Op.pure_apply] at hex ⊢
        by_cases hr : res0.StatusCode ≠ http.StatusOK ∧ res0.StatusCode ≠ http.StatusNoContent
        · rw [if_pos hr] at hex ⊢
          have := hlog _ rfl hex
          subst this
          simp only [http.StatusOK, http.StatusNoContent] at hr
          exact ⟨by simp [hr.1, hr.2], fun _ => rfl⟩
        · rw [if_neg hr] at hex ⊢
          have := hlog _ rfl hex
          subst this
          simp only [http.StatusOK, http.StatusNoContent] at hr
          have h : res0.StatusCode = 200 ∨ res0.StatusCode = 204 := by tauto
          exact ⟨by simp [h], fun hn => absurd h hn⟩

theorem Client.RemoveRecordFromCase_apply {σ : Type} (L : GoStd) (c : Client σ)
    (caseID recordID : String) (w : Net σ) :
    c.RemoveRecordFromCase L caseID recordID w =
      match L.urlParse (c.Endpoint ++ "/cases/" ++ caseID ++ "/records/" ++ recordID) with
      | .error _ =>
        (.panic "runtime error: invalid memory address or nil pointer dereference", w)
      | .ok _ =>
        c.exchange (L.withRecordQuery recordID) "DELETE"
          (c.Endpoint ++ "/cases/" ++ caseID ++ "/records/" ++ recordID) none
          (fun n => n ≠ http.StatusOK ∧ n ≠ http.StatusNoContent) textCode
          (fun _ => pure ()) w := by
  unfold Client.RemoveRecordFromCase Client.exchange
  cases hU : L.urlParse (c.Endpoint ++ "/cases/" ++ caseID ++ "/records/" ++ recordID) with
  | error e => simp [http.NewRequest, hU]
  | ok u =>
    simp [http.NewRequest, hU, Op.ofExcept, encodeBody, GoStd.withRecordQuery,
      parseWithRecordQuery, textCode]

theorem Client.RemoveRecordFromCase_deleteRule {σ : Type} (L : GoStd) (c : Client σ)
    (caseID recordID : String) : DeleteRule (c.RemoveRecordFromCase L caseID recordID) := by
  intro w ex res hex hres
  have key := Client.RemoveRecordFromCase_apply L c caseID recordID w
  cases hU : L.urlParse (c.Endpoint ++ "/cases/" ++ caseID ++ "/records/" ++ recordID) with
  | error e =>
    simp only [hU] at key
    simp [exchangesOf, key] at hex
  | ok u =>
    simp only [hU] at key
    have hrule := Client.exchange_deleteRule (L.withRecordQuery recordID) c
      (c.Endpoint ++ "/cases/" ++ caseID ++ "/records/" ++ recordID) w ex res
    simp only [exchangesOf, key] at hex ⊢
    exact hrule hex hres

theorem Op.try_apply {σ α : Type} (x : Op σ α) (w : Net σ) :
    x.try w = match x w with
      | (.ok a, w1) => (.ok (.ok a), w1)
      | (.error e, w1) => (.ok (.error e), w1)
      | (.panic m, w1) => (.panic m, w1) := rfl

theorem eqIgnoreCase_literals :
    eqIgnoreCase "OPEN" "OPEN" = true ∧ eqIgnoreCase "open" "OPEN" = true ∧
    eqIgnoreCase "CLOSED" "CLOSED" = true ∧ eqIgnoreCase "closed" "CLOSED" = true := by
  decide

/-! ## Case status: local validation -/

/-- A status outside the four accepted spellings is rejected before any request is
built: the call returns the validation error and leaves service and log as they were. -/
theorem UpdateCaseStatus_rejects {σ : Type} (L : GoStd) (c : Client σ)
    (caseID status : String) (w : Net σ)
    (h1 : status ≠ "OPEN") (h2 : status ≠ "open")
    (h3 : status ≠ "CLOSED") (h4 : status ≠ "closed") :
    c.UpdateCaseStatus L caseID status w
      = (.error (.invalid ("invalid status: " ++ status)), w) := by
  simp [Client.UpdateCaseStatus, h1, h2, h3, h4]

/-- C1. A status that is neither "OPEN" nor "CLOSED" under case-insensitive comparison
makes `UpdateCaseStatus` return a validation error with the service and the exchange
log untouched: no HTTP request is sent. The comparison folds the ASCII letters only, so
the statement covers every coarser case folding as well. -/
theorem UpdateCaseStatus_invalid_status_local {σ : Type} (L : GoStd) (c : Client σ)
    (caseID status : String) (w : Net σ)
    (hopen : eqIgnoreCase status "OPEN" = false)
    (hclosed : eqIgnoreCase status "CLOSED" = false) :
    c.UpdateCaseStatus L caseID status w
      = (.error (.invalid ("invalid status: " ++ status)), w) := by
  have h1 : status ≠ "OPEN" := by
    rintro rfl; exact absurd eqIgnoreCase_literals.1 (by simp [hopen])
  have h2 : status ≠ "open" := by
    rintro rfl; exact absurd eqIgnoreCase_literals.2.1 (by simp [hopen])
  have h3 : status ≠ "CLOSED" := by
    rintro rfl; exact absurd eqIgnoreCase_literals.2.2.1 (by simp [hclosed])
  have h4 : status ≠ "closed" := by
    rintro rfl; exact absurd eqIgnoreCase_literals.2.2.2 (by simp [hclosed])
  exact UpdateCaseStatus_rejects L c caseID status w h1 h2 h3 h4

theorem UpdateCaseStatus_invalid_status_local_witness :
    eqIgnoreCase "pending" "OPEN" = false ∧ eqIgnoreCase "pending" "CLOSED" = false ∧
    demo.UpdateCaseStatus stdlib "7" "pending" (fresh [reply 200 ""]) =
      (.error (.invalid ("invalid status: " ++ "pending")), fresh [reply 200 ""]) :=
  ⟨by decide, by decide,
    UpdateCaseStatus_invalid_status_local stdlib demo "7" "pending" (fresh [reply 200 ""])
      (by decide) (by decide)⟩

/-! ## Status rules of the verbs -/

/-- C6. Every GET operation and every PUT operation of the client obeys the status rule
with accepted set `200`: whenever the transport returned a response to an exchange of the
operation, the operation ends in an unexpected-status error carrying the code of that
response if and only if the code is not 200. In particular 201 and 204 are errors. -/
theorem get_put_success_is_200_only {σ : Type} (L : GoStd) (c : Client σ) :
    (∀ id, StatusRule (fun n => n = 200) (c.GetCase L id)) ∧
    (∀ id, StatusRule (fun n => n = 200) (c.GetUser L id)) ∧
    (∀ id, StatusRule (fun n => n = 200) (c.GetDirectoryGroup L id)) ∧
    (∀ id, StatusRule (fun n => n = 200) (c.GetRetentionPolicy L id)) ∧
    (∀ id, StatusRule (fun n => n = 200) (c.GetLegalHold L id)) ∧
    (∀ id, StatusRule (fun n => n = 200) (c.GetTag L id)) ∧
    (∀ id, StatusRule (fun n => n = 200) (c.GetExport L id)) ∧
    (∀ id, StatusRule (fun n => n = 200) (c.GetRecord L id)) ∧
    (∀ id, StatusRule (fun n => n = 200) (c.GetIntegrationState L id)) ∧
    StatusRule (fun n => n = 200) (c.GetAuditLogs L) ∧
    StatusRule (fun n => n = 200) (c.GetEvents L) ∧
    StatusRule (fun n => n = 200) (c.GetAnalysisPolicies L) ∧
    StatusRule (fun n => n = 200) (c.GetAnalysisPolicyHits L) ∧
    StatusRule (fun n => n = 200) (c.GetSystemStatus L) ∧
    (∀ id, StatusRule (fun n => n = 200) (c.GetAnalysis L id)) ∧
    (∀ id x, StatusRule (fun n => n = 200) (c.UpdateCase L id x)) ∧
    (∀ id x, StatusRule (fun n => n = 200) (c.UpdateUser L id x)) ∧
    (∀ id x, StatusRule (fun n => n = 200) (c.UpdateDirectoryGroup L id x)) ∧
    (∀ id x, StatusRule (fun n => n = 200) (c.UpdateRetentionPolicy L id x)) ∧
    (∀ id x, StatusRule (fun n => n = 200) (c.UpdateLegalHold L id x)) ∧
    (∀ id x, StatusRule (fun n => n = 200) (c.UpdateTag L id x)) ∧
    (∀ id status, StatusRule (fun n => n = 200) (c.UpdateCaseStatus L id status)) ∧
    (∀ id paused, StatusRule (fun n => n = 200) (c.UpdateIntegrationState L id paused)) ∧
    (∀ id reviewState comment,
      StatusRule (fun n => n = 200) (c.UpdateRecordReviewState L id reviewState comment)) :=
  ⟨fun id => (Client.GetCase_classified L c id).statusRule rejects_iff_not_200,
   fun id => (Client.GetUser_classified L c id).statusRule rejects_iff_not_200,
   fun id => (Client.GetDirectoryGroup_classified L c id).statusRule rejects_iff_not_200,
   fun id => (Client.GetRetentionPolicy_classified L c id).statusRule rejects_iff_not_200,
   fun id => (Client.GetLegalHold_classified L c id).statusRule rejects_iff_not_200,
   fun id => (Client.GetTag_classified L c id).statusRule rejects_iff_not_200,
   fun id => (Client.GetExport_classified L c id).statusRule rejects_iff_not_200,
   fun id => (Client.GetRecord_classified L c id).statusRule rejects_iff_not_200,
   fun id => (Client.GetIntegrationState_classified L c id).statusRule rejects_iff_not_200,
   (Client.GetAuditLogs_classified L c).statusRule rejects_iff_not_200,
   (Client.GetEvents_classified L c).statusRule rejects_iff_not_200,
   (Client.GetAnalysisPolicies_classified L c).statusRule rejects_iff_not_200,
   (Client.GetAnalysisPolicyHits_classified L c).statusRule rejects_iff_not_200,
   (Client.GetSystemStatus_classified L c).statusRule rejects_iff_not_200,
   fun id => (Client.GetAnalysis_classified L c id).statusRule rejects_iff_not_200,
   fun id x => (Client.UpdateCase_classified L c id x).statusRule rejects_iff_not_200,
   fun id x => (Client.UpdateUser_classified L c id x).statusRule rejects_iff_not_200,
   fun id x => (Client.UpdateDirectoryGroup_classified L c id x).statusRule rejects_iff_not_200,
   fun id x => (Client.UpdateRetentionPolicy_classified L c id x).statusRule rejects_iff_not_200,
   fun id x => (Client.UpdateLegalHold_classified L c id x).statusRule rejects_iff_not_200,
   fun id x => (Client.UpdateTag_classified L c id x).statusRule rejects_iff_not_200,
   fun id status =>
      (Client.UpdateCaseStatus_classified L c id status).statusRule rejects_iff_not_200,
   fun id paused =>
      (Client.UpdateIntegrationState_classified L c id paused).statusRule rejects_iff_not_200,
   fun id reviewState comment =>
      (Client.UpdateRecordReviewState_classified L c id reviewState comment).statusRule
        rejects_iff_not_200⟩

/-- C7. Every POST operation of the client obeys the status rule with accepted set
`200, 201`: whenever the transport returned a response, the operation returns an
unexpected-status error (carrying the code of the response) if and only if the status is
neither 200 nor 201. -/
theorem post_success_is_200_or_201 {σ : Type} (L : GoStd) (c : Client σ) :
    (∀ x, StatusRule (fun n => n = 200 ∨ n = 201) (c.CreateCase L x)) ∧
    (∀ x, StatusRule (fun n => n = 200 ∨ n = 201) (c.CreateUser L x)) ∧
    (∀ x, StatusRule (fun n => n = 200 ∨ n = 201) (c.CreateDirectoryGroup L x)) ∧
    (∀ x, StatusRule (fun n => n = 200 ∨ n = 201) (c.CreateRetentionPolicy L x)) ∧
    (∀ x, StatusRule (fun n => n = 200 ∨ n = 201) (c.CreateLegalHold L x)) ∧
    (∀ x, StatusRule (fun n => n = 200 ∨ n = 201) (c.CreateTag L x)) ∧
    (∀ x, StatusRule (fun n => n = 200 ∨ n = 201) (c.CreateExport L x)) ∧
    (∀ caseID recordID,
      StatusRule (fun n => n = 200 ∨ n = 201) (c.AddRecordToCase L caseID recordID)) :=
  ⟨fun x => (Client.CreateCase_classified L c x).statusRule rejects_iff_not_200_201,
   fun x => (Client.CreateUser_classified L c x).statusRule rejects_iff_not_200_201,
   fun x => (Client.CreateDirectoryGroup_classified L c x).statusRule rejects_iff_not_200_201,
   fun x => (Client.CreateRetentionPolicy_classified L c x).statusRule rejects_iff_not_200_201,
   fun x => (Client.CreateLegalHold_classified L c x).statusRule rejects_iff_not_200_201,
   fun x => (Client.CreateTag_classified L c x).statusRule rejects_iff_not_200_201,
   fun x => (Client.CreateExport_classified L c x).statusRule rejects_iff_not_200_201,
   fun caseID recordID =>
      (Client.AddRecordToCase_classified L c caseID recordID).statusRule
        rejects_iff_not_200_201_swapped⟩

/-- C8. Every DELETE operation of the client obeys the delete rule: whenever the
transport returned a response, the operation returns no error if and only if the status
is 200 or 204, and for any other status it returns the error `status: <code>`. -/
theorem delete_success_is_200_or_204 {σ : Type} (L : GoStd) (c : Client σ) :
    (∀ id, DeleteRule (c.DeleteCase L id)) ∧
    (∀ id, DeleteRule (c.DeleteUser L id)) ∧
    (∀ id, DeleteRule (c.DeleteDirectoryGroup L id)) ∧
    (∀ id, DeleteRule (c.DeleteRetentionPolicy L id)) ∧
    (∀ id, DeleteRule (c.DeleteLegalHold L id)) ∧
    (∀ id, DeleteRule (c.DeleteTag L id)) ∧
    (∀ id, DeleteRule (c.DeleteExport L id)) ∧
    (∀ caseID recordID, DeleteRule (c.RemoveRecordFromCase L caseID recordID)) :=
  ⟨fun id => by rw [Client.DeleteCase_eq]; exact Client.exchange_deleteRule _ _ _,
   fun id => by rw [Client.DeleteUser_eq]; exact Client.exchange_deleteRule _ _ _,
   fun id => by rw [Client.DeleteDirectoryGroup_eq]; exact Client.exchange_deleteRule _ _ _,
   fun id => by rw [Client.DeleteRetentionPolicy_eq]; exact Client.exchange_deleteRule _ _ _,
   fun id => by rw [Client.DeleteLegalHold_eq]; exact Client.exchange_deleteRule _ _ _,
   fun id => by rw [Client.DeleteTag_eq]; exact Client.exchange_deleteRule _ _ _,
   fun id => by rw [Client.DeleteExport_eq]; exact Client.exchange_deleteRule _ _ _,
   fun caseID recordID => Client.RemoveRecordFromCase_deleteRule L c caseID recordID⟩

theorem get_put_success_is_200_only_witness :
    ∃ msg, (demo.GetCase stdlib "7" (fresh [reply 201 caseBody])).1 =
      .error (.status 201 msg) :=
  ((get_put_success_is_200_only stdlib demo).1 "7" (fresh [reply 201 caseBody])
    ⟨demo.stamp ⟨"GET", demoURL "/cases/7", [], none⟩, reply 201 caseBody⟩
    ⟨201, caseBody, none⟩ (by decide) rfl).mpr (by decide)

theorem post_success_is_200_or_201_witness :
    ∃ msg, (demo.CreateCase stdlib ⟨0, "fraud-2024", "CASE-7", "", "", ""⟩
      (fresh [reply 204 ""])).1 = .error (.status 204 msg) :=
  ((post_success_is_200_or_201 stdlib demo).1 ⟨0, "fraud-2024", "CASE-7", "", "", ""⟩
    (fresh [reply 204 ""])
    ⟨demo.stamp ⟨"POST", demoURL "/cases", [],
      (stdlib.Marshal (Case.toJSON ⟨0, "fraud-2024", "CASE-7", "", "", ""⟩)).toOption⟩,
      reply 204 ""⟩
    ⟨204, "", none⟩ (by decide) rfl).mpr (by decide)

theorem delete_success_is_200_or_204_witness :
    (demo.DeleteCase stdlib "7" (fresh [reply 201 ""])).1 =
      .error (.status 201 ("status: " ++ toString (201 : Int))) :=
  ((delete_success_is_200_or_204 stdlib demo).1 "7" (fresh [reply 201 ""])
    ⟨demo.stamp ⟨"DELETE", demoURL "/cases/7", [], none⟩, reply 201 ""⟩
    ⟨201, "", none⟩ (by decide) rfl).2 (by decide)

/-! ## Case status transition -/

/-- C2 (counterexample). The status "Open" equals "OPEN" ignoring letter case, yet
`UpdateCaseStatus` rejects it by local validation: the call returns the validation error
and the exchange log stays empty, so no PUT is issued. -/
theorem UpdateCaseStatus_mixed_case_rejected :
    eqIgnoreCase "Open" "OPEN" = true ∧
    demo.UpdateCaseStatus stdlib "7" "Open" (fresh [reply 200 ""]) =
      (.error (.invalid "invalid status: Open"), fresh [reply 200 ""]) := by
  decide

/-- C2 (amended). For a status spelled exactly "OPEN" or "open" the action is `open`, for
one spelled exactly "CLOSED" or "closed" the action is `close`. Such a status is never
rejected by local validation, and whenever `<endpoint>/cases/<id>/<action>` parses as a
URL the call performs exactly one exchange: a bodiless PUT to that URL. Every other
spelling is rejected by local validation with no request sent. -/
theorem UpdateCaseStatus_exact_spelling {σ : Type} (L : GoStd) (c : Client σ)
    (caseID status action : String) (w : Net σ)
    (hs : (action = "open" ∧ (status = "OPEN" ∨ status = "open")) ∨
          (action = "close" ∧ (status = "CLOSED" ∨ status = "closed"))) :
    (∀ msg, (c.UpdateCaseStatus L caseID status w).1 ≠ .error (.invalid msg)) ∧
    (∀ u, L.urlParse (c.Endpoint ++ "/cases/" ++ caseID ++ "/" ++ action) = .ok u →
      exchangesOf (c.UpdateCaseStatus L caseID status) w =
        [⟨c.stamp ⟨"PUT", u, [], none⟩,
          (c.HTTPClient.Do (c.stamp ⟨"PUT", u, [], none⟩) w.remote).1⟩]) ∧
    (∀ other, other ≠ "OPEN" → other ≠ "open" → other ≠ "CLOSED" → other ≠ "closed" →
      c.UpdateCaseStatus L caseID other w =
        (.error (.invalid ("invalid status: " ++ other)), w)) := by
  have hsh : c.UpdateCaseStatus L caseID status =
      c.exchange L "PUT" (c.Endpoint ++ "/cases/" ++ caseID ++ "/" ++ action) none
        (fun n => n ≠ http.StatusOK) textCode (fun _ => pure ()) := by
    rw [Client.UpdateCaseStatus_eq]
    rcases hs with ⟨rfl, h⟩ | ⟨rfl, h⟩
    · rw [if_pos h]
    · have hno : ¬ (status = "OPEN" ∨ status = "open") := by
        rcases h with rfl | rfl <;> decide
      rw [if_neg hno, if_pos h]
  refine ⟨?_, ?_, fun other h1 h2 h3 h4 =>
    UpdateCaseStatus_rejects L c caseID other w h1 h2 h3 h4⟩
  · intro msg hm
    rw [hsh, Client.exchange_apply] at hm
    simp only [encodeBody] at hm
    cases hU : L.urlParse (c.Endpoint ++ "/cases/" ++ caseID ++ "/" ++ action) with
    | error e => simp [hU] at hm
    | ok u =>
      simp only [hU] at hm
      cases hD : c.HTTPClient.Do (c.stamp ⟨"PUT", u, [], none⟩) w.remote with
      | mk r s =>
        simp only [hD] at hm
        cases r with
        | error e => simp at hm
        | ok res => by_cases hr : res.StatusCode ≠ http.StatusOK <;> simp [hr] at hm
  · intro u hU
    rw [hsh]
    exact Client.exchange_exchanges L c _ _ none _ _ _ w none u rfl hU (fun _ => pure_quiet _)

theorem UpdateCaseStatus_exact_spelling_witness :
    (demo.UpdateCaseStatus stdlib "7" "closed" (fresh [reply 200 ""])).1
      ≠ .error (.invalid "invalid status: closed") ∧
    exchangesOf (demo.UpdateCaseStatus stdlib "7" "closed") (fresh [reply 200 ""]) =
      [⟨demo.stamp ⟨"PUT", demoURL "/cases/7/close", [], none⟩, reply 200 ""⟩] :=
  ⟨(UpdateCaseStatus_exact_spelling stdlib demo "7" "closed" "close" (fresh [reply 200 ""])
      (by decide)).1 "invalid status: closed",
   (UpdateCaseStatus_exact_spelling stdlib demo "7" "closed" "close" (fresh [reply 200 ""])
      (by decide)).2.1 (demoURL "/cases/7/close") (by decide)⟩

/-! ## Case-record link removal -/

/-- The request of `RemoveRecordFromCase`: when the URL parses, the call performs exactly
one exchange, a bodiless DELETE whose URL is the parse of
`<endpoint>/cases/<c>/records/<r>` with `record_id=<r>` added to its query. -/
theorem RemoveRecordFromCase_request {σ : Type} (L : GoStd) (c : Client σ)
    (caseID recordID : String) (w : Net σ) (u : URL)
    (hU : L.urlParse (c.Endpoint ++ "/cases/" ++ caseID ++ "/records/" ++ recordID) = .ok u) :
    (exchangesOf (c.RemoveRecordFromCase L caseID recordID) w).map (fun ex => ex.req) =
      [c.stamp ⟨"DELETE",
        { u with RawQuery := L.valuesEncode ((L.urlQuery u.RawQuery).Add "record_id" recordID) },
        [], none⟩] := by
  have hrun : c.RemoveRecordFromCase L caseID recordID w =
      c.exchange (L.withRecordQuery recordID) "DELETE"
        (c.Endpoint ++ "/cases/" ++ caseID ++ "/records/" ++ recordID) none
        (fun n => n ≠ http.StatusOK ∧ n ≠ http.StatusNoContent) textCode
        (fun _ => pure ()) w := by
    rw [Client.RemoveRecordFromCase_apply, hU]
  have hparse : (L.withRecordQuery recordID).urlParse
      (c.Endpoint ++ "/cases/" ++ caseID ++ "/records/" ++ recordID) =
      .ok { u with
        RawQuery := L.valuesEncode ((L.urlQuery u.RawQuery).Add "record_id" recordID) } := by
    simp [GoStd.withRecordQuery, parseWithRecordQuery, hU]
  have hex := Client.exchange_exchanges (L.withRecordQuery recordID) c "DELETE"
    (c.Endpoint ++ "/cases/" ++ caseID ++ "/records/" ++ recordID) none
    (fun n => n ≠ http.StatusOK ∧ n ≠ http.StatusNoContent) textCode
    (fun _ => (pure () : Op σ Unit)) w none _ rfl hparse (fun _ => pure_quiet _)
  unfold exchangesOf at hex ⊢
  rw [hrun, hex]
  rfl

theorem RemoveRecordFromCase_request_witness :
    (exchangesOf (demo.RemoveRecordFromCase stdlib "7" "r1") (fresh [reply 204 ""])).map
        (fun ex => ex.req) =
      [demo.stamp ⟨"DELETE",
        { demoURL "/cases/7/records/r1" with
            RawQuery := stdlib.valuesEncode
              ((stdlib.urlQuery (demoURL "/cases/7/records/r1").RawQuery).Add "record_id" "r1") },
        [], none⟩] :=
  RemoveRecordFromCase_request stdlib demo "7" "r1" (fresh [reply 204 ""])
    (demoURL "/cases/7/records/r1") (by decide)

/-- C3 (evaluation at the failing input). For case `7` and record `r1` the one request
that `RemoveRecordFromCase` sends is a DELETE with path `/cases/7/records/r1` and query
`record_id=r1`: the record identifier is the last path segment as well as a query
parameter, where the claim has the path `/cases/7/records`. -/
theorem RemoveRecordFromCase_record_in_path :
    (exchangesOf (demo.RemoveRecordFromCase stdlib "7" "r1") (fresh [reply 204 ""])).map
        (fun ex => (ex.req.Method, ex.req.URL.Path, ex.req.URL.RawQuery)) =
      [("DELETE", "/cases/7/records/r1", "record_id=r1")] := by
  decide

/-! ## Integration state: fallback to GET -/

/-- C4. Let the PUT of `UpdateIntegrationState` be answered with status 200 and a readable
body that either fails to decode or decodes to a state with empty `last_run`. Then the
call continues as `GetIntegrationState` in the service state left by the PUT and returns
what that returns; the exchanges are the PUT followed by exactly one bodiless GET to the
same URL; and the value returned is the outcome of `GetIntegrationState` in that service
state, whatever the log, so it does not depend on the PUT body. -/
theorem UpdateIntegrationState_fallback {σ : Type} (L : GoStd) (c : Client σ)
    (integrationID : String) (paused : Bool) (w : Net σ) (rb : String) (u : URL)
    (res : Response) (s : σ)
    (hM : L.Marshal (integrationStateRequest.toJSON ⟨if paused then "paused" else "active"⟩)
      = .ok rb)
    (hU : L.urlParse (c.Endpoint ++ "/ingestion/integration/" ++ integrationID ++ "/state")
      = .ok u)
    (hD : c.HTTPClient.Do (c.stamp ⟨"PUT", u, [], some rb⟩) w.remote = (.ok res, s))
    (h200 : res.StatusCode = 200) (hread : res.BodyErr = none)
    (hbody : ∀ r, L.unmarshalIntegrationStateResponse res.Body = .ok r →
      r.State.LastRun = "") :
    c.UpdateIntegrationState L integrationID paused w =
      c.GetIntegrationState L integrationID
        (w.after s ⟨c.stamp ⟨"PUT", u, [], some rb⟩, .ok res⟩) ∧
    exchangesOf (c.UpdateIntegrationState L integrationID paused) w =
      [⟨c.stamp ⟨"PUT", u, [], some rb⟩, .ok res⟩,
       ⟨c.stamp ⟨"GET", u, [], none⟩,
        (c.HTTPClient.Do (c.stamp ⟨"GET", u, [], none⟩) s).1⟩] ∧
    ∀ log, (c.UpdateIntegrationState L integrationID paused w).1 =
      (c.GetIntegrationState L integrationID ⟨s, log⟩).1 := by
  have hrun : c.UpdateIntegrationState L integrationID paused w =
      c.GetIntegrationState L integrationID
        (w.after s ⟨c.stamp ⟨"PUT", u, [], some rb⟩, .ok res⟩) := by
    rw [Client.UpdateIntegrationState_eq, Client.exchange_apply]
    simp only [encodeBody, hM, hU, hD]
    rw [if_neg (by simp [h200, http.StatusOK])]
    simp only [Op.bind_apply, Op.readAll, io.ReadAll, hread, Op.pure_apply, Net.after]
    cases hdec : L.unmarshalIntegrationStateResponse res.Body with
    | error e => rfl
    | ok r => simp [hbody r hdec]
  have hget := Client.exchange_exchanges L c "GET"
    (c.Endpoint ++ "/ingestion/integration/" ++ integrationID ++ "/state") none
    (fun n => n ≠ http.StatusOK) textFixed
    (decodeWith (σ := σ) L.unmarshalIntegrationStateResponse (fun response => response.State))
    (w.after s ⟨c.stamp ⟨"PUT", u, [], some rb⟩, .ok res⟩) none u rfl hU
    (fun r => decodeWith_quiet _ _ r)
  refine ⟨hrun, ?_, ?_⟩
  · rw [← Client.GetIntegrationState_eq] at hget
    unfold exchangesOf at hget ⊢
    rw [hrun]
    have hlen : (w.after s ⟨c.stamp ⟨"PUT", u, [], some rb⟩, .ok res⟩).log.length
        = w.log.length + 1 := by simp [Net.after]
    rw [hlen, ← List.drop_drop] at hget
    have hsplit : ∃ rest, (c.GetIntegrationState L integrationID
        (w.after s ⟨c.stamp ⟨"PUT", u, [], some rb⟩, .ok res⟩)).2.log
        = (w.log ++ [⟨c.stamp ⟨"PUT", u, [], some rb⟩, .ok res⟩]) ++ rest := by
      obtain ⟨new, hnew, _⟩ := Client.GetIntegrationState_classified L c integrationID
        (w.after s ⟨c.stamp ⟨"PUT", u, [], some rb⟩, .ok res⟩)
      exact ⟨new, by simpa [Net.after] using hnew⟩
    obtain ⟨rest, hrest⟩ := hsplit
    rw [hrest] at hget ⊢
    simp at hget
    simp [hget, Net.after]
  · intro log
    rw [hrun, Client.GetIntegrationState_eq]
    exact Client.exchange_outcome_log L c _ _ _ _ _ _
      (fun r w1 w2 => decodeWith_outcome _ _ r w1 w2) s _ log

theorem UpdateIntegrationState_fallback_witness :
    demo.UpdateIntegrationState stdlib "42" true
        (fresh [reply 200 stateBodyNoLastRun, reply 200 stateBody]) =
      demo.GetIntegrationState stdlib "42"
        ((fresh [reply 200 stateBodyNoLastRun, reply 200 stateBody]).after [reply 200 stateBody]
          ⟨demo.stamp ⟨"PUT", demoURL "/ingestion/integration/42/state", [], some pausedBody⟩,
            .ok ⟨200, stateBodyNoLastRun, none⟩⟩) ∧
    exchangesOf (demo.UpdateIntegrationState stdlib "42" true)
        (fresh [reply 200 stateBodyNoLastRun, reply 200 stateBody]) =
      [⟨demo.stamp ⟨"PUT", demoURL "/ingestion/integration/42/state", [], some pausedBody⟩,
          .ok ⟨200, stateBodyNoLastRun, none⟩⟩,
       ⟨demo.stamp ⟨"GET", demoURL "/ingestion/integration/42/state", [], none⟩,
          (demo.HTTPClient.Do
            (demo.stamp ⟨"GET", demoURL "/ingestion/integration/42/state", [], none⟩)
            [reply 200 stateBody]).1⟩] ∧
    (demo.UpdateIntegrationState stdlib "42" true
        (fresh [reply 200 stateBodyNoLastRun, reply 200 stateBody])).1 =
      (demo.GetIntegrationState stdlib "42" (fresh [reply 200 stateBody])).1 :=
  have h := UpdateIntegrationState_fallback stdlib demo "42" true
    (fresh [reply 200 stateBodyNoLastRun, reply 200 stateBody]) pausedBody
    (demoURL "/ingestion/integration/42/state") ⟨200, stateBodyNoLastRun, none⟩
    [reply 200 stateBody] (by decide) (by decide) (by decide) rfl rfl
    (by
      intro r h
      have hdec : stdlib.unmarshalIntegrationStateResponse stateBodyNoLastRun =
          .ok ⟨⟨0, true, "", ""⟩⟩ := by decide
      rw [show (⟨200, stateBodyNoLastRun, none⟩ : Response).Body = stateBodyNoLastRun from rfl,
        hdec] at h
      cases h
      rfl)
  ⟨h.1, h.2.1, h.2.2 []⟩

/-! ## Record review state: unconditional re-read -/

/-- C5. Let the PUT of `UpdateRecordReviewState` to `<endpoint>/records/<id>/review_state`
get a response. If its status is 200 the call continues as `GetRecord` in the service
state left by the PUT and returns exactly what that returns, whatever the PUT body; when
`<endpoint>/records/<id>` parses, the exchanges are the PUT followed by one bodiless GET
to that URL. If the status is not 200 the call returns the unexpected-status error and
the PUT is the only exchange. -/
theorem UpdateRecordReviewState_refetch {σ : Type} (L : GoStd) (c : Client σ)
    (recordID reviewState comment : String) (w : Net σ) (rb : String) (u : URL)
    (res : Response) (s : σ)
    (hM : L.Marshal (recordReviewStateRequest.toJSON ⟨reviewState, comment⟩) = .ok rb)
    (hU : L.urlParse (c.Endpoint ++ "/records/" ++ recordID ++ "/review_state") = .ok u)
    (hD : c.HTTPClient.Do (c.stamp ⟨"PUT", u, [], some rb⟩) w.remote = (.ok res, s)) :
    (res.StatusCode = 200 →
      c.UpdateRecordReviewState L recordID reviewState comment w =
        c.GetRecord L recordID (w.after s ⟨c.stamp ⟨"PUT", u, [], some rb⟩, .ok res⟩) ∧
      (∀ log, (c.UpdateRecordReviewState L recordID reviewState comment w).1 =
        (c.GetRecord L recordID ⟨s, log⟩).1) ∧
      ∀ u2, L.urlParse (c.Endpoint ++ "/records/" ++ recordID) = .ok u2 →
        exchangesOf (c.UpdateRecordReviewState L recordID reviewState comment) w =
          [⟨c.stamp ⟨"PUT", u, [], some rb⟩, .ok res⟩,
           ⟨c.stamp ⟨"GET", u2, [], none⟩,
            (c.HTTPClient.Do (c.stamp ⟨"GET", u2, [], none⟩) s).1⟩]) ∧
    (res.StatusCode ≠ 200 →
      c.UpdateRecordReviewState L recordID reviewState comment w =
        (.error (.status res.StatusCode
          ("status: " ++ toString res.StatusCode ++ ", body: " ++ res.Body)),
         w.after s ⟨c.stamp ⟨"PUT", u, [], some rb⟩, .ok res⟩) ∧
      exchangesOf (c.UpdateRecordReviewState L recordID reviewState comment) w =
        [⟨c.stamp ⟨"PUT", u, [], some rb⟩, .ok res⟩]) := by
  constructor
  · intro h200
    have hrun : c.UpdateRecordReviewState L recordID reviewState comment w =
        c.GetRecord L recordID (w.after s ⟨c.stamp ⟨"PUT", u, [], some rb⟩, .ok res⟩) := by
      rw [Client.UpdateRecordReviewState_eq, Client.exchange_apply]
      simp only [encodeBody, hM, hU, hD]
      rw [if_neg (by simp [h200, http.StatusOK])]
      rfl
    refine ⟨hrun, ?_, ?_⟩
    · intro log
      rw [hrun, Client.GetRecord_eq]
      exact Client.exchange_outcome_log L c _ _ _ _ _ _
        (fun r w1 w2 => decodeWith_outcome _ _ r w1 w2) s _ log
    · intro u2 hU2
      have hget := Client.exchange_exchanges L c "GET" (c.Endpoint ++ "/records/" ++ recordID)
        none (fun n => n ≠ http.StatusOK) textFixed
        (decodeWith (σ := σ) L.unmarshalRecord id)
        (w.after s ⟨c.stamp ⟨"PUT", u, [], some rb⟩, .ok res⟩) none u2 rfl hU2
        (fun r => decodeWith_quiet _ _ r)
      rw [← Client.GetRecord_eq] at hget
      unfold exchangesOf at hget ⊢
      rw [hrun]
      obtain ⟨new, hnew, _⟩ := Client.GetRecord_classified L c recordID
        (w.after s ⟨c.stamp ⟨"PUT", u, [], some rb⟩, .ok res⟩)
      rw [hnew] at hget ⊢
      simp [Net.after] at hget ⊢
      simp [hget]
  · intro hne
    have hrun : c.UpdateRecordReviewState L recordID reviewState comment w =
        (.error (.status res.StatusCode
          ("status: " ++ toString res.StatusCode ++ ", body: " ++ res.Body)),
         w.after s ⟨c.stamp ⟨"PUT", u, [], some rb⟩, .ok res⟩) := by
      rw [Client.UpdateRecordReviewState_eq, Client.exchange_apply]
      simp only [encodeBody, hM, hU, hD]
      rw [if_pos (by simpa [http.StatusOK] using hne)]
      rfl
    refine ⟨hrun, ?_⟩
    unfold exchangesOf
    rw [hrun]
    simp [Net.after]

theorem UpdateRecordReviewState_refetch_witness :
    demo.UpdateRecordReviewState stdlib "rec-1" "REVIEWED" "ok"
        (fresh [reply 200 "ignored", reply 200 recordBody]) =
      demo.GetRecord stdlib "rec-1"
        ((fresh [reply 200 "ignored", reply 200 recordBody]).after [reply 200 recordBody]
          ⟨demo.stamp ⟨"PUT", demoURL "/records/rec-1/review_state", [], some reviewedBody⟩,
            .ok ⟨200, "ignored", none⟩⟩) ∧
    exchangesOf (demo.UpdateRecordReviewState stdlib "rec-1" "REVIEWED" "ok")
        (fresh [reply 200 "ignored", reply 200 recordBody]) =
      [⟨demo.stamp ⟨"PUT", demoURL "/records/rec-1/review_state", [], some reviewedBody⟩,
          .ok ⟨200, "ignored", none⟩⟩,
       ⟨demo.stamp ⟨"GET", demoURL "/records/rec-1", [], none⟩,
        (demo.HTTPClient.Do (demo.stamp ⟨"GET", demoURL "/records/rec-1", [], none⟩)
          [reply 200 recordBody]).1⟩] :=
  have h := (UpdateRecordReviewState_refetch stdlib demo "rec-1" "REVIEWED" "ok"
    (fresh [reply 200 "ignored", reply 200 recordBody]) reviewedBody
    (demoURL "/records/rec-1/review_state") ⟨200, "ignored", none⟩ [reply 200 recordBody]
    (by decide) (by decide) (by decide)).1 rfl
  ⟨h.1, h.2.2 (demoURL "/records/rec-1") (by decide)⟩

/-! ## Case creation and the planned status -/

/-- Whatever the plan, `CaseResource.Create` leaves the service and the log exactly as
its call of `CreateCase` leaves them, or untouched when the plan cannot be read: no call
of `UpdateCaseStatus` is ever made. -/
theorem CaseResource_Create_net {σ : Type} (L : GoStd) (r : CaseResource σ)
    (req : resource.CreateRequest CaseResourceModel)
    (resp : resource.CreateResponse CaseResourceModel) (w : Net σ) :
    (r.Create L req resp w).2 = w ∨
    (r.Create L req resp w).2 =
      (r.client.CreateCase L (caseRequestOf (req.Plan.Get {}).2) w).2 := by
  have hcr : ∀ data : CaseResourceModel,
      ({ Name := data.Name.ValueString
         Number := data.Number.ValueString
         OpenDate := data.OpenDate.ValueString
         Visibility := data.Visibility.ValueString
         Description := data.Description.ValueString } : Case) = caseRequestOf data :=
    fun _ => rfl
  have hstatus : (types.StringValue "OPEN").ValueString = "OPEN" := rfl
  unfold CaseResource.Create
  by_cases hE : (resp.appendDiags (req.Plan.Get {}).1).Diagnostics.HasError = true
  · left
    simp [hE]
  · right
    simp only [hE, hcr, hstatus, Bool.false_eq_true, ↓reduceIte, Op.bind_apply, Op.try_apply]
    generalize r.client.CreateCase L (caseRequestOf (req.Plan.Get {}).2) w = run
    rcases run with ⟨o, w1⟩
    cases o <;> simp

/-- C9 (evaluation at the failing input). The plan asks for status "CLOSED"; the service
answers the POST with 201 and a case of id 7. `Create` performs the POST to `/cases` and
nothing else, and stores the status "OPEN": the status transition to "CLOSED" that the
claim requires is not made. -/
theorem CaseResource_Create_drops_planned_status :
    (exchangesOf
        ((⟨demo⟩ : CaseResource (List (Except String Response))).Create stdlib
          ⟨⟨some closedCasePlan, []⟩⟩ (emptyResponse none))
        (fresh [reply 201 caseBody, reply 200 ""])).map
        (fun ex => (ex.req.Method, ex.req.URL.Path)) = [("POST", "/cases")] ∧
    ((⟨demo⟩ : CaseResource (List (Except String Response))).Create stdlib
        ⟨⟨some closedCasePlan, []⟩⟩ (emptyResponse none)
        (fresh [reply 201 caseBody, reply 200 ""])).1 =
      .ok ⟨⟨some
        { ID := .value "7"
          Name := .value "fraud-2024"
          Number := .value "CASE-7"
          OpenDate := .value "2024-01-01"
          Visibility := .value "PRIVATE"
          Description := .value ""
          Status := .value "OPEN" }, []⟩, []⟩ := by
  decide

/-! ## Export update -/

/-- C10. For every planned export record, read from the plan without diagnostics, and
every response that holds no error and not yet the warning, `ExportResource.Update`
leaves the service and the exchange log untouched (no HTTP request), adds exactly the
warning "Update Not Supported" to the diagnostics and nothing else, and stores exactly
the planned record as state. -/
theorem ExportResource_Update_stores_plan {σ : Type} (r : ExportResource σ)
    (plan : ExportResourceModel) (prior : tfsdk.State ExportResourceModel)
    (resp : resource.UpdateResponse ExportResourceModel) (w : Net σ)
    (hclean : resp.Diagnostics.HasError = false)
    (hnew : updateNotSupported ∉ resp.Diagnostics) :
    r.Update ⟨⟨some plan, []⟩, prior⟩ resp w =
      (.ok ⟨{ resp.State with Raw := some plan },
          resp.Diagnostics ++ [updateNotSupported]⟩, w) := by
  have hw : (⟨.Warning, "Update Not Supported",
      "Updating exports is not fully supported by this provider version."⟩ : diag.Diagnostic)
      = updateNotSupported := rfl
  simp [ExportResource.Update, tfsdk.State.Get, resource.Response.appendDiags,
    resource.Response.addWarning, resource.Response.setState, tfsdk.State.Set,
    diag.Diagnostics.Append, diag.Diagnostics.AddWarning, hclean, hnew, hw]

theorem ExportResource_Update_stores_plan_witness :
    (⟨demo⟩ : ExportResource (List (Except String Response))).Update
        ⟨⟨some renamedExportPlan, []⟩, ⟨none, []⟩⟩ (emptyResponse none)
        (fresh [reply 200 ""]) =
      (.ok ⟨⟨some renamedExportPlan, []⟩, [updateNotSupported]⟩, fresh [reply 200 ""]) :=
  ExportResource_Update_stores_plan ⟨demo⟩ renamedExportPlan ⟨none, []⟩ (emptyResponse none)
    (fresh [reply 200 ""]) (by decide) (by decide)

/-! ## Resource mappers: the shared shape -/

theorem CaseResource_Read_eq {σ : Type} (L : GoStd) (r : CaseResource σ)
    (req : resource.ReadRequest CaseResourceModel)
    (resp : resource.ReadResponse CaseResourceModel) :
    r.Read L req resp =
      resourceCall req.State {} (fun data => r.client.GetCase L data.ID.ValueString)
        "Unable to read case, got error: "
        (fun data createdCase =>
          let data := { data with Name := types.StringValue createdCase.Name }
          let data := { data with Number := types.StringValue createdCase.Number }
          let data := { data with OpenDate := types.StringValue createdCase.OpenDate }
          let data := { data with Visibility := types.StringValue createdCase.Visibility }
          let data := { data with Description := types.StringValue createdCase.Description }
          data) resp := by
  unfold CaseResource.Read resourceCall
  simp only [tfsdk.State.Get]
  split
  · rfl
  · congr 1
    funext _
    congr 1
    funext e
    cases e <;> rfl

theorem ExportResource_Read_eq {σ : Type} (L : GoStd) (r : ExportResource σ)
    (req : resource.ReadRequest ExportResourceModel)
    (resp : resource.ReadResponse ExportResourceModel) :
    r.Read L req resp =
      resourceCall req.State {} (fun data => r.client.GetExport L data.ID.ValueString)
        "Unable to read export, got error: "
        (fun data createdExport =>
          let data := { data with Name := types.StringValue createdExport.Name }
          let data := { data with Description := types.StringValue createdExport.Description }
          let data := { data with Format := types.StringValue createdExport.Format }
          let data := { data with Status := types.StringValue createdExport.Status }
          let data := { data with DownloadURL := types.StringValue createdExport.DownloadURL }
          let data :=
            if createdExport.QueryID ≠ 0 then { data with QueryID := types.Int64Value createdExport.QueryID }
            else { data with QueryID := types.Int64Null }
          data) resp := by
  unfold ExportResource.Read resourceCall
  simp only [tfsdk.State.Get]
  split
  · rfl
  · congr 1
    funext _
    congr 1
    funext e
    cases e <;> rfl

theorem UserResource_Read_eq {σ : Type} (L : GoStd) (r : UserResource σ)
    (req : resource.ReadRequest UserResourceModel)
    (resp : resource.ReadResponse UserResourceModel) :
    r.Read L req resp =
      resourceCall req.State {} (fun data => r.client.GetUser L data.ID.ValueString)
        "Unable to read user, got error: "
        (fun data createdUser =>
          let data := { data with Name := types.StringValue createdUser.Name }
          let data := { data with Email := types.StringValue createdUser.Email }
          let data := { data with RoleID := types.Int64Value createdUser.RoleID }
          let data :=
            if createdUser.SearchID ≠ 0 then { data with SearchID := types.Int64Value createdUser.SearchID }
            else { data with SearchID := types.Int64Null }
          data) resp := by
  unfold UserResource.Read resourceCall
  simp only [tfsdk.State.Get]
  split
  · rfl
  · congr 1
    funext _
    congr 1
    funext e
    cases e <;> rfl

theorem UserResource_Update_eq {σ : Type} (L : GoStd) (r : UserResource σ)
    (req : resource.UpdateRequest UserResourceModel)
    (resp : resource.UpdateResponse UserResourceModel) :
    r.Update L req resp =
      resourceCall req.Plan {}
        (fun data => r.client.UpdateUser L data.ID.ValueString (userRequestOf data))
        "Unable to update user, got error: "
        (fun data updatedUser =>
          let data := { data with Name := types.StringValue updatedUser.Name }
          let data := { data with Email := types.StringValue updatedUser.Email }
          let data := { data with RoleID := types.Int64Value updatedUser.RoleID }
          let data :=
            if updatedUser.SearchID ≠ 0 then { data with SearchID := types.Int64Value updatedUser.SearchID }
            else { data with SearchID := types.Int64Null }
          data) resp := by
  unfold UserResource.Update resourceCall
  simp only [tfsdk.State.Get]
  split
  · rfl
  · congr 1
    funext _
    congr 1
    funext e
    cases e <;> rfl

theorem DirectoryGroupResource_Read_eq {σ : Type} (L : GoStd) (r : DirectoryGroupResource σ)
    (req : resource.ReadRequest DirectoryGroupResourceModel)
    (resp : resource.ReadResponse DirectoryGroupResourceModel) :
    r.Read L req resp =
      resourceCall req.State {} (fun data => r.client.GetDirectoryGroup L data.ID.ValueString)
        "Unable to read directory group, got error: "
        (fun data createdGroup =>
          let data := { data with Name := types.StringValue createdGroup.Name }
          let data := { data with ExternalID := types.StringValue createdGroup.ExternalID }
          let data := { data with Description := types.StringValue createdGroup.Description }
          data) resp := by
  unfold DirectoryGroupResource.Read resourceCall
  simp only [tfsdk.State.Get]
  split
  · rfl
  · congr 1
    funext _
    congr 1
    funext e
    cases e <;> rfl

theorem DirectoryGroupResource_Update_eq {σ : Type} (L : GoStd) (r : DirectoryGroupResource σ)
    (req : resource.UpdateRequest DirectoryGroupResourceModel)
    (resp : resource.UpdateResponse DirectoryGroupResourceModel) :
    r.Update L req resp =
      resourceCall req.Plan {}
        (fun data => r.client.UpdateDirectoryGroup L data.ID.ValueString (directoryGroupRequestOf data))
        "Unable to update directory group, got error: "
        (fun data updatedGroup =>
          let data := { data with Name := types.StringValue updatedGroup.Name }
          let data := { data with ExternalID := types.StringValue updatedGroup.ExternalID }
          let data := { data with Description := types.StringValue updatedGroup.Description }
          data) resp := by
  unfold DirectoryGroupResource.Update resourceCall
  simp only [tfsdk.State.Get]
  split
  · rfl
  · congr 1
    funext _
    congr 1
    funext e
    cases e <;> rfl

theorem RetentionPolicyResource_Read_eq {σ : Type} (L : GoStd) (r : RetentionPolicyResource σ)
    (req : resource.ReadRequest RetentionPolicyResourceModel)
    (resp : resource.ReadResponse RetentionPolicyResourceModel) :
    r.Read L req resp =
      resourceCall req.State {} (fun data => r.client.GetRetentionPolicy L data.ID.ValueString)
        "Unable to read retention policy, got error: "
        (fun data createdPolicy =>
          let data := { data with Name := types.StringValue createdPolicy.Name }
          let data := { data with Description := types.StringValue createdPolicy.Description }
          let data :=
            if createdPolicy.RetentionPeriodDays ≠ 0 then { data with RetentionPeriodDays := types.Int64Value createdPolicy.RetentionPeriodDays }
            else { data with RetentionPeriodDays := types.Int64Null }
          data) resp := by
  unfold RetentionPolicyResource.Read resourceCall
  simp only [tfsdk.State.Get]
  split
  · rfl
  · congr 1
    funext _
    congr 1
    funext e
    cases e <;> rfl

theorem RetentionPolicyResource_Update_eq {σ : Type} (L : GoStd) (r : RetentionPolicyResource σ)
    (req : resource.UpdateRequest RetentionPolicyResourceModel)
    (resp : resource.UpdateResponse RetentionPolicyResourceModel) :
    r.Update L req resp =
      resourceCall req.Plan {}
        (fun data => r.client.UpdateRetentionPolicy L data.ID.ValueString (retentionPolicyRequestOf data))
        "Unable to update retention policy, got error: "
        (fun data updatedPolicy =>
          let data := { data with Name := types.StringValue updatedPolicy.Name }
          let data := { data with Description := types.StringValue updatedPolicy.Description }
          let data :=
            if updatedPolicy.RetentionPeriodDays ≠ 0 then { data with RetentionPeriodDays := types.Int64Value updatedPolicy.RetentionPeriodDays }
            else { data with RetentionPeriodDays := types.Int64Null }
          data) resp := by
  unfold RetentionPolicyResource.Update resourceCall
  simp only [tfsdk.State.Get]
  split
  · rfl
  · congr 1
    funext _
    congr 1
    funext e
    cases e <;> rfl

theorem LegalHoldResource_Read_eq {σ : Type} (L : GoStd) (r : LegalHoldResource σ)
    (req : resource.ReadRequest LegalHoldResourceModel)
    (resp : resource.ReadResponse LegalHoldResourceModel) :
    r.Read L req resp =
      resourceCall req.State {} (fun data => r.client.GetLegalHold L data.ID.ValueString)
        "Unable to read legal hold, got error: "
        (fun data createdHold =>
          let data := { data with Name := types.StringValue createdHold.Name }
          let data := { data with Description := types.StringValue createdHold.Description }
          let data :=
            if createdHold.CaseID ≠ 0 then { data with CaseID := types.Int64Value createdHold.CaseID }
            else { data with CaseID := types.Int64Null }
          data) resp := by
  unfold LegalHoldResource.Read resourceCall
  simp only [tfsdk.State.Get]
  split
  · rfl
  · congr 1
    funext _
    congr 1
    funext e
    cases e <;> rfl

theorem LegalHoldResource_Update_eq {σ : Type} (L : GoStd) (r : LegalHoldResource σ)
    (req : resource.UpdateRequest LegalHoldResourceModel)
    (resp : resource.UpdateResponse LegalHoldResourceModel) :
    r.Update L req resp =
      resourceCall req.Plan {}
        (fun data => r.client.UpdateLegalHold L data.ID.ValueString (legalHoldRequestOf data))
        "Unable to update legal hold, got error: "
        (fun data updatedHold =>
          let data := { data with Name := types.StringValue updatedHold.Name }
          let data := { data with Description := types.StringValue updatedHold.Description }
          let data :=
            if updatedHold.CaseID ≠ 0 then { data with CaseID := types.Int64Value updatedHold.CaseID }
            else { data with CaseID := types.Int64Null }
          data) resp := by
  unfold LegalHoldResource.Update resourceCall
  simp only [tfsdk.State.Get]
  split
  · rfl
  · congr 1
    funext _
    congr 1
    funext e
    cases e <;> rfl

theorem TagResource_Read_eq {σ : Type} (L : GoStd) (r : TagResource σ)
    (req : resource.ReadRequest TagResourceModel)
    (resp : resource.ReadResponse TagResourceModel) :
    r.Read L req resp =
      resourceCall req.State {} (fun data => r.client.GetTag L data.ID.ValueString)
        "Unable to read tag, got error: "
        (fun data createdTag =>
          let data := { data with Name := types.StringValue createdTag.Name }
          let data := { data with Description := types.StringValue createdTag.Description }
          data) resp := by
  unfold TagResource.Read resourceCall
  simp only [tfsdk.State.Get]
  split
  · rfl
  · congr 1
    funext _
    congr 1
    funext e
    cases e <;> rfl

theorem TagResource_Update_eq {σ : Type} (L : GoStd) (r : TagResource σ)
    (req : resource.UpdateRequest TagResourceModel)
    (resp : resource.UpdateResponse TagResourceModel) :
    r.Update L req resp =
      resourceCall req.Plan {}
        (fun data => r.client.UpdateTag L data.ID.ValueString (tagRequestOf data))
        "Unable to update tag, got error: "
        (fun data updatedTag =>
          let data := { data with Name := types.StringValue updatedTag.Name }
          let data := { data with Description := types.StringValue updatedTag.Description }
          data) resp := by
  unfold TagResource.Update resourceCall
  simp only [tfsdk.State.Get]
  split
  · rfl
  · congr 1
    funext _
    congr 1
    funext e
    cases e <;> rfl

theorem HasError_append_left (diags toAdd : diag.Diagnostics)
    (h : diags.HasError = true) : (diags.Append toAdd).HasError = true := by
  induction toAdd generalizing diags with
  | nil => simpa [diag.Diagnostics.Append] using h
  | cons d ds ih =>
    simp only [diag.Diagnostics.Append, List.foldl_cons]
    by_cases hd : d ∈ diags
    · simp only [hd, if_true]
      exact ih diags h
    · simp only [hd, if_false]
      apply ih
      simp only [diag.Diagnostics.HasError, List.any_append, Bool.or_eq_true]
      exact Or.inl h

theorem HasError_addError (diags : diag.Diagnostics) (summary detail : String) :
    (diags.AddError summary detail).HasError = true := by
  simp only [diag.Diagnostics.AddError, diag.Diagnostics.Append, List.foldl_cons,
    List.foldl_nil]
  by_cases hd : (⟨.Error, summary, detail⟩ : diag.Diagnostic) ∈ diags
  · simp only [hd, if_true, diag.Diagnostics.HasError, List.any_eq_true]
    exact ⟨_, hd, by simp⟩
  · simp [hd, diag.Diagnostics.HasError]

theorem setState_diagnostics {M : Type} (resp : resource.Response M) (data : M) :
    (resp.setState data).Diagnostics = resp.Diagnostics := rfl

theorem setState_raw {M : Type} (resp : resource.Response M) (data : M) :
    (resp.setState data).State.Raw = some data := rfl

/-- A run of the shared shape of the mappers, case by case. -/
theorem resourceCall_apply {σ M β : Type} (src : tfsdk.State M) (zero : M)
    (call : M → Op σ β) (failText : String) (merge : M → β → M)
    (resp : resource.Response M) (w : Net σ) :
    resourceCall src zero call failText merge resp w =
      if (resp.appendDiags src.getDiags).Diagnostics.HasError = true then
        (.ok (resp.appendDiags src.getDiags), w)
      else
        match call (src.Raw.getD zero) w with
        | (.ok got, w1) =>
          (.ok ((resp.appendDiags src.getDiags).setState (merge (src.Raw.getD zero) got)), w1)
        | (.error err, w1) =>
          (.ok ((resp.appendDiags src.getDiags).addError "Client Error"
            (failText ++ err.Error)), w1)
        | (.panic m, w1) => (.panic m, w1) := by
  unfold resourceCall
  simp only [tfsdk.State.Get]
  split
  · rfl
  · simp only [Op.bind_apply, Op.pure_apply, Op.try_apply]
    rcases call (src.Raw.getD zero) w with ⟨o, w1⟩
    cases o <;> rfl

/-- A successful run of the shared shape: the client call returned a value, the state
holds the record read merged with that value, and the service is where the client call
left it. -/
theorem resourceCall_succeeded {σ M β : Type} (src : tfsdk.State M) (zero : M)
    (call : M → Op σ β) (failText : String) (merge : M → β → M)
    (resp : resource.Response M) (w : Net σ) (resp1 : resource.Response M)
    (h : Succeeded (resourceCall src zero call failText merge resp w) resp1) :
    ∃ got, (call (src.Raw.getD zero) w).1 = .ok got ∧
      resp1.State.Raw = some (merge (src.Raw.getD zero) got) ∧
      (resourceCall src zero call failText merge resp w).2 =
        (call (src.Raw.getD zero) w).2 := by
  obtain ⟨hrun, hclean⟩ := h
  rw [resourceCall_apply] at hrun ⊢
  by_cases hE : (resp.appendDiags src.getDiags).Diagnostics.HasError = true
  · rw [if_pos hE] at hrun
    simp only [Outcome.ok.injEq] at hrun
    subst hrun
    rw [hE] at hclean
    exact absurd hclean (by simp)
  · rw [if_neg hE] at hrun ⊢
    rcases hcall : call (src.Raw.getD zero) w with ⟨o, w1⟩
    rw [hcall] at hrun
    cases o with
    | ok got =>
      simp only [Outcome.ok.injEq] at hrun
      subst hrun
      exact ⟨got, rfl, rfl, rfl⟩
    | error err =>
      simp only [Outcome.ok.injEq] at hrun
      subst hrun
      have := HasError_addError (resp.appendDiags src.getDiags).Diagnostics "Client Error"
        (failText ++ err.Error)
      simp only [resource.Response.addError] at hclean
      rw [this] at hclean
      exact absurd hclean (by simp)
    | panic m => simp at hrun

/-- The shared shape keeps every field that the merge leaves alone. -/
theorem resourceCall_keeps {σ M β F : Type} (f : M → F) (src : tfsdk.State M) (zero : M)
    (call : M → Op σ β) (failText : String) (merge : M → β → M)
    (resp : resource.Response M) (w : Net σ)
    (hf : ∀ data got, f (merge data got) = f data) :
    Keeps f src (resourceCall src zero call failText merge resp w) := by
  intro prior resp1 hprior hs
  obtain ⟨got, _, hraw, _⟩ := resourceCall_succeeded src zero call failText merge resp w resp1 hs
  refine ⟨_, hraw, ?_⟩
  rw [hf, hprior]
  rfl

/-- A successful `CaseResource.Update` stores the planned record with the five fields of
the answer of `UpdateCase` written over it. -/
theorem CaseResource_Update_succeeded {σ : Type} (L : GoStd) (r : CaseResource σ)
    (req : resource.UpdateRequest CaseResourceModel)
    (resp : resource.UpdateResponse CaseResourceModel) (w : Net σ)
    (resp1 : resource.Response CaseResourceModel)
    (h : Succeeded (r.Update L req resp w) resp1) :
    ∃ updatedCase,
      (r.client.UpdateCase L (req.Plan.Raw.getD {}).ID.ValueString
        (caseRequestOf (req.Plan.Raw.getD {})) w).1 = .ok updatedCase ∧
      resp1.State.Raw = some
        { req.Plan.Raw.getD {} with
          Name := types.StringValue updatedCase.Name
          Number := types.StringValue updatedCase.Number
          OpenDate := types.StringValue updatedCase.OpenDate
          Visibility := types.StringValue updatedCase.Visibility
          Description := types.StringValue updatedCase.Description } := by
  obtain ⟨hrun, hclean⟩ := h
  have hcr : ∀ data : CaseResourceModel,
      ({ Name := data.Name.ValueString
         Number := data.Number.ValueString
         OpenDate := data.OpenDate.ValueString
         Visibility := data.Visibility.ValueString
         Description := data.Description.ValueString } : Case) = caseRequestOf data :=
    fun _ => rfl
  unfold CaseResource.Update at hrun
  simp only [tfsdk.State.Get, hcr] at hrun
  by_cases hE : (resp.appendDiags req.Plan.getDiags).Diagnostics.HasError = true
  · simp only [hE, if_true, Op.pure_apply, Outcome.ok.injEq] at hrun
    subst hrun
    rw [hE] at hclean
    exact absurd hclean (by simp)
  · simp only [hE, Bool.false_eq_true, if_false, Op.bind_apply, Op.try_apply,
      Op.pure_apply] at hrun
    rcases hX : r.client.UpdateCase L (req.Plan.Raw.getD {}).ID.ValueString
      (caseRequestOf (req.Plan.Raw.getD {})) w with ⟨o, w1⟩
    rw [hX] at hrun
    cases o with
    | panic m => simp at hrun
    | error err =>
      simp only [Op.pure_apply, Outcome.ok.injEq] at hrun
      subst hrun
      have := HasError_addError (resp.appendDiags req.Plan.getDiags).Diagnostics
        "Client Error" ("Unable to update case, got error: " ++ err.Error)
      simp only [resource.Response.addError] at hclean
      rw [this] at hclean
      exact absurd hclean (by simp)
    | ok updatedCase =>
      refine ⟨updatedCase, rfl, ?_⟩
      simp only at hrun
      split at hrun
      · rcases hY : r.client.UpdateCaseStatus L (req.Plan.Raw.getD {}).ID.ValueString
          (req.Plan.Raw.getD {}).Status.ValueString w1 with ⟨o2, w2⟩
        simp only [Op.bind_apply, Op.try_apply, hY] at hrun
        cases o2 with
        | panic m => simp at hrun
        | error err =>
          simp only [Op.pure_apply, Outcome.ok.injEq] at hrun
          subst hrun
          have := HasError_addError (resp.appendDiags req.Plan.getDiags).Diagnostics
            "Client Error" ("Unable to update case status, got error: " ++ err.Error)
          simp only [resource.Response.addError] at hclean
          rw [this] at hclean
          exact absurd hclean (by simp)
        | ok u =>
          simp only [Op.bind_apply, Op.pure_apply, Outcome.ok.injEq] at hrun
          subst hrun
          rfl
      · simp only [Op.bind_apply, Op.pure_apply, Outcome.ok.injEq] at hrun
        subst hrun
        rfl

/-- A successful `ExportResource.Update` stores the planned record. -/
theorem ExportResource_Update_succeeded {σ : Type} (r : ExportResource σ)
    (req : resource.UpdateRequest ExportResourceModel)
    (resp : resource.UpdateResponse ExportResourceModel) (w : Net σ)
    (resp1 : resource.Response ExportResourceModel)
    (h : Succeeded (r.Update req resp w) resp1) :
    resp1.State.Raw = some (req.Plan.Raw.getD {}) := by
  obtain ⟨hrun, hclean⟩ := h
  unfold ExportResource.Update at hrun
  simp only [tfsdk.State.Get] at hrun
  by_cases hE : (resp.appendDiags req.Plan.getDiags).Diagnostics.HasError = true
  · simp only [hE, if_true, Op.pure_apply, Outcome.ok.injEq] at hrun
    subst hrun
    rw [hE] at hclean
    exact absurd hclean (by simp)
  · simp only [hE, Bool.false_eq_true, if_false, Op.bind_apply, Op.pure_apply,
      Outcome.ok.injEq] at hrun
    subst hrun
    rfl

/-! ## Resource mappers without a remote call -/

/-- C11. For every prior state, request and response, `IntegrationStateResource.Delete`
returns the response it was given and leaves the service and the exchange log as they
were: no HTTP request is sent, no diagnostic is added, and the pause state of the
integration, which is part of the service state, is not changed. -/
theorem IntegrationStateResource_Delete_is_noop {σ : Type}
    (r : IntegrationStateResource σ)
    (req : resource.DeleteRequest IntegrationStateResourceModel)
    (resp : resource.DeleteResponse IntegrationStateResourceModel) (w : Net σ) :
    r.Delete req resp w = (.ok resp, w) ∧
    exchangesOf (r.Delete req resp) w = [] ∧
    (r.Delete req resp w).2.remote = w.remote := by
  refine ⟨rfl, ?_, rfl⟩
  simp [exchangesOf, IntegrationStateResource.Delete]

/-- C12. For every prior state `CaseRecordResource.Read` returns the response it was
given, stored state and diagnostics included, and sends no HTTP request. For every import
identifier `CaseRecordResource.ImportState` sends no request, leaves the state as it was
and ends with an error diagnostic; on a response without diagnostics the diagnostics
are exactly the error "Import Not Supported". -/
theorem CaseRecordResource_Read_and_Import {σ : Type} (r : CaseRecordResource σ)
    (w : Net σ) :
    (∀ (req : resource.ReadRequest CaseRecordResourceModel)
       (resp : resource.ReadResponse CaseRecordResourceModel),
      r.Read req resp w = (.ok resp, w) ∧ exchangesOf (r.Read req resp) w = []) ∧
    (∀ (req : resource.ImportStateRequest)
       (resp : resource.ImportStateResponse CaseRecordResourceModel),
      ∃ resp1, r.ImportState req resp w = (.ok resp1, w) ∧
        resp1.Diagnostics.HasError = true ∧ resp1.State = resp.State ∧
        importNotSupported ∈ resp1.Diagnostics ∧
        (resp.Diagnostics = [] → resp1.Diagnostics = [importNotSupported])) := by
  constructor
  · intro req resp
    refine ⟨rfl, ?_⟩
    simp [exchangesOf, CaseRecordResource.Read]
  · intro req resp
    refine ⟨_, rfl, HasError_addError _ _ _, rfl, ?_, ?_⟩
    · simp only [resource.Response.addError, diag.Diagnostics.AddError,
        diag.Diagnostics.Append, List.foldl_cons, List.foldl_nil, importNotSupported]
      split
      · assumption
      · simp
    · intro h
      simp [resource.Response.addError, diag.Diagnostics.AddError,
        diag.Diagnostics.Append, h, importNotSupported]

/-! ## Fields that a read or an update leaves alone -/

/-- C13. For every prior user state and every answer of the service: when
`UserResource.Read` succeeds, the stored record has the `password` and the
`password_confirmation` of the prior state. The record decoded from the response body,
password fields included, is arbitrary. -/
theorem UserResource_Read_keeps_passwords {σ : Type} (L : GoStd) (r : UserResource σ)
    (req : resource.ReadRequest UserResourceModel)
    (resp : resource.ReadResponse UserResourceModel) (w : Net σ) :
    Keeps UserResourceModel.Password req.State (r.Read L req resp w) ∧
    Keeps UserResourceModel.PasswordConfirmation req.State (r.Read L req resp w) := by
  rw [UserResource_Read_eq]
  constructor
  · exact resourceCall_keeps _ _ _ _ _ _ _ _
      (fun data got => by dsimp only; split <;> rfl)
  · exact resourceCall_keeps _ _ _ _ _ _ _ _
      (fun data got => by dsimp only; split <;> rfl)

theorem UserResource_Read_keeps_passwords_witness :
    (∃ stored, (emptyResponse (some userStateRead)).State.Raw = some stored ∧
      stored.Password = userState.Password) ∧
    ∃ stored, (emptyResponse (some userStateRead)).State.Raw = some stored ∧
      stored.PasswordConfirmation = userState.PasswordConfirmation :=
  have h := UserResource_Read_keeps_passwords stdlib ⟨demo⟩ ⟨⟨some userState, []⟩⟩
    (emptyResponse (some userState)) (fresh [reply 200 userBody])
  ⟨h.1 userState (emptyResponse (some userStateRead)) rfl ⟨by decide, by decide⟩,
   h.2 userState (emptyResponse (some userStateRead)) rfl ⟨by decide, by decide⟩⟩

/-- C15. For every prior case state and every answer of the service: when
`CaseResource.Read` succeeds, the stored record has the `status` of the prior state. -/
theorem CaseResource_Read_keeps_status {σ : Type} (L : GoStd) (r : CaseResource σ)
    (req : resource.ReadRequest CaseResourceModel)
    (resp : resource.ReadResponse CaseResourceModel) (w : Net σ) :
    Keeps CaseResourceModel.Status req.State (r.Read L req resp w) := by
  rw [CaseResource_Read_eq]
  exact resourceCall_keeps _ _ _ _ _ _ _ _ (fun data got => rfl)

theorem CaseResource_Read_keeps_status_witness :
    ∃ stored, (emptyResponse (some caseStateRead)).State.Raw = some stored ∧
      stored.Status = caseState.Status :=
  CaseResource_Read_keeps_status stdlib ⟨demo⟩ ⟨⟨some caseState, []⟩⟩
    (emptyResponse (some caseState)) (fresh [reply 200 caseBody])
    caseState (emptyResponse (some caseStateRead)) rfl ⟨by decide, by decide⟩

/-! ## Identifiers -/

/-- C14. For each of Case, User, DirectoryGroup, RetentionPolicy, LegalHold, Tag and
Export: when `Read` succeeds, the stored record has the `id` of the prior state, and when
`Update` succeeds, the stored record has the `id` of the plan. The record decoded from
the response body, its id included, is arbitrary. -/
theorem stored_id_is_the_id_received {σ : Type} (L : GoStd) (w : Net σ) :
    (∀ (r : CaseResource σ) (req : resource.ReadRequest CaseResourceModel) resp,
      Keeps CaseResourceModel.ID req.State (r.Read L req resp w)) ∧
    (∀ (r : CaseResource σ) (req : resource.UpdateRequest CaseResourceModel) resp,
      Keeps CaseResourceModel.ID req.Plan (r.Update L req resp w)) ∧
    (∀ (r : UserResource σ) (req : resource.ReadRequest UserResourceModel) resp,
      Keeps UserResourceModel.ID req.State (r.Read L req resp w)) ∧
    (∀ (r : UserResource σ) (req : resource.UpdateRequest UserResourceModel) resp,
      Keeps UserResourceModel.ID req.Plan (r.Update L req resp w)) ∧
    (∀ (r : DirectoryGroupResource σ)
       (req : resource.ReadRequest DirectoryGroupResourceModel) resp,
      Keeps DirectoryGroupResourceModel.ID req.State (r.Read L req resp w)) ∧
    (∀ (r : DirectoryGroupResource σ)
       (req : resource.UpdateRequest DirectoryGroupResourceModel) resp,
      Keeps DirectoryGroupResourceModel.ID req.Plan (r.Update L req resp w)) ∧
    (∀ (r : RetentionPolicyResource σ)
       (req : resource.ReadRequest RetentionPolicyResourceModel) resp,
      Keeps RetentionPolicyResourceModel.ID req.State (r.Read L req resp w)) ∧
    (∀ (r : RetentionPolicyResource σ)
       (req : resource.UpdateRequest RetentionPolicyResourceModel) resp,
      Keeps RetentionPolicyResourceModel.ID req.Plan (r.Update L req resp w)) ∧
    (∀ (r : LegalHoldResource σ) (req : resource.ReadRequest LegalHoldResourceModel) resp,
      Keeps LegalHoldResourceModel.ID req.State (r.Read L req resp w)) ∧
    (∀ (r : LegalHoldResource σ) (req : resource.UpdateRequest LegalHoldResourceModel) resp,
      Keeps LegalHoldResourceModel.ID req.Plan (r.Update L req resp w)) ∧
    (∀ (r : TagResource σ) (req : resource.ReadRequest TagResourceModel) resp,
      Keeps TagResourceModel.ID req.State (r.Read L req resp w)) ∧
    (∀ (r : TagResource σ) (req : resource.UpdateRequest TagResourceModel) resp,
      Keeps TagResourceModel.ID req.Plan (r.Update L req resp w)) ∧
    (∀ (r : ExportResource σ) (req : resource.ReadRequest ExportResourceModel) resp,
      Keeps ExportResourceModel.ID req.State (r.Read L req resp w)) ∧
    (∀ (r : ExportResource σ) (req : resource.UpdateRequest ExportResourceModel) resp,
      Keeps ExportResourceModel.ID req.Plan (r.Update req resp w)) := by
  refine ⟨?_, ?_, ?_, ?_, ?_, ?_, ?_, ?_, ?_, ?_, ?_, ?_, ?_, ?_⟩
  · intro r req resp
    rw [CaseResource_Read_eq]
    exact resourceCall_keeps _ _ _ _ _ _ _ _
      (fun data got => rfl)
  · intro r req resp prior resp1 hprior h
    obtain ⟨got, _, hraw⟩ := CaseResource_Update_succeeded L r req resp w resp1 h
    rw [hprior] at hraw
    exact ⟨_, hraw, rfl⟩
  · intro r req resp
    rw [UserResource_Read_eq]
    exact resourceCall_keeps _ _ _ _ _ _ _ _
      (fun data got => by dsimp only; split <;> rfl)
  · intro r req resp
    rw [UserResource_Update_eq]
    exact resourceCall_keeps _ _ _ _ _ _ _ _
      (fun data got => by dsimp only; split <;> rfl)
  · intro r req resp
    rw [DirectoryGroupResource_Read_eq]
    exact resourceCall_keeps _ _ _ _ _ _ _ _
      (fun data got => rfl)
  · intro r req resp
    rw [DirectoryGroupResource_Update_eq]
    exact resourceCall_keeps _ _ _ _ _ _ _ _
      (fun data got => rfl)
  · intro r req resp
    rw [RetentionPolicyResource_Read_eq]
    exact resourceCall_keeps _ _ _ _ _ _ _ _
      (fun data got => by dsimp only; split <;> rfl)
  · intro r req resp
    rw [RetentionPolicyResource_Update_eq]
    exact resourceCall_keeps _ _ _ _ _ _ _ _
      (fun data got => by dsimp only; split <;> rfl)
  · intro r req resp
    rw [LegalHoldResource_Read_eq]
    exact resourceCall_keeps _ _ _ _ _ _ _ _
      (fun data got => by dsimp only; split <;> rfl)
  · intro r req resp
    rw [LegalHoldResource_Update_eq]
    exact resourceCall_keeps _ _ _ _ _ _ _ _
      (fun data got => by dsimp only; split <;> rfl)
  · intro r req resp
    rw [TagResource_Read_eq]
    exact resourceCall_keeps _ _ _ _ _ _ _ _
      (fun data got => rfl)
  · intro r req resp
    rw [TagResource_Update_eq]
    exact resourceCall_keeps _ _ _ _ _ _ _ _
      (fun data got => rfl)
  · intro r req resp
    rw [ExportResource_Read_eq]
    exact resourceCall_keeps _ _ _ _ _ _ _ _
      (fun data got => by dsimp only; split <;> rfl)
  · intro r req resp prior resp1 hprior h
    have hraw := ExportResource_Update_succeeded r req resp w resp1 h
    rw [hprior] at hraw
    exact ⟨_, hraw, rfl⟩

theorem stored_id_is_the_id_received_witness :
    (∃ stored, (emptyResponse (some userStateRead)).State.Raw = some stored ∧
      stored.ID = userState.ID) ∧
    ∃ stored, (emptyResponse (some caseStateRead)).State.Raw = some stored ∧
      stored.ID = caseState.ID :=
  have h := stored_id_is_the_id_received stdlib (fresh [reply 200 userBody])
  have h2 := stored_id_is_the_id_received stdlib (fresh [reply 200 caseBody, reply 200 ""])
  ⟨h.2.2.1 ⟨demo⟩ ⟨⟨some userState, []⟩⟩ (emptyResponse (some userState))
      userState (emptyResponse (some userStateRead)) rfl ⟨by decide, by decide⟩,
   h2.2.1 ⟨demo⟩ ⟨⟨some caseState, []⟩, ⟨some caseState, []⟩⟩
      (emptyResponse (some caseState))
      caseState (emptyResponse (some caseStateRead)) rfl ⟨by decide, by decide⟩⟩

/-! ## Provider configuration -/

/-- Dropping the entries of another key does not change what a key looks up. -/
theorem lookup_filter_of_ne (h : Header) (k key : String) (hne : key ≠ k) :
    (h.filter (fun p => p.1 != k)).lookup key = h.lookup key := by
  induction h with
  | nil => rfl
  | cons p t ih =>
    obtain ⟨a, b⟩ := p
    by_cases hp : a = k
    · have hkp : (key == a) = false := by simpa [hp] using hne
      simp only [List.filter_cons, hp, bne_self_eq_false, Bool.false_eq_true, if_false]
      rw [ih, List.lookup_cons]
      simp only [← hp, hkp]
    · have hfp : (a != k) = true := by simpa using hp
      simp only [List.filter_cons, hfp, if_true]
      rw [List.lookup_cons, List.lookup_cons, ih]

/-- Values of a header under a key that `Header.Set` did not touch. -/
theorem Header.Values_Set_of_ne (h : Header) (k v key : String) (hne : key ≠ k) :
    (h.Set k v).Values key = h.Values key := by
  unfold Header.Set Header.Values
  have hk : (key == k) = false := by simpa using hne
  rw [List.lookup_cons]
  simp only [hk]
  rw [lookup_filter_of_ne h k key hne]

/-- Values of a header under the key that `Header.Set` wrote. -/
theorem Header.Values_Set_self (h : Header) (k v : String) :
    (h.Set k v).Values k = [v] := by
  simp [Header.Set, Header.Values, List.lookup_cons]

/-- C16. Let the provider configuration be read without an error diagnostic, into a
response that holds no client yet. Then `ThetaLakeProvider.Configure` ends with an error
diagnostic and with no client for data sources and none for resources if and only if the
token read is empty or the endpoint read is empty. When both are non-empty it adds no
diagnostic to those of the read, and hands to data sources and to resources the client
whose `Endpoint` and `Token` are the values read. -/
theorem Configure_requires_token_and_endpoint {σ : Type} (p : ThetaLakeProvider)
    (transport : HTTPClient σ) (req : provider.ConfigureRequest) (diags : diag.Diagnostics)
    (hread : (diags.Append req.Config.getDiags).HasError = false) :
    (((p.Configure transport req ⟨diags, none, none⟩).Diagnostics.HasError = true ∧
        (p.Configure transport req ⟨diags, none, none⟩).DataSourceData = none ∧
        (p.Configure transport req ⟨diags, none, none⟩).ResourceData = none) ↔
      ((req.Config.Raw.getD {}).Token.ValueString = "" ∨
        (req.Config.Raw.getD {}).Endpoint.ValueString = "")) ∧
    ((req.Config.Raw.getD {}).Token.ValueString ≠ "" →
      (req.Config.Raw.getD {}).Endpoint.ValueString ≠ "" →
        p.Configure transport req ⟨diags, none, none⟩ =
          ⟨diags.Append req.Config.getDiags,
            some ⟨(req.Config.Raw.getD {}).Endpoint.ValueString,
              (req.Config.Raw.getD {}).Token.ValueString, transport⟩,
            some ⟨(req.Config.Raw.getD {}).Endpoint.ValueString,
              (req.Config.Raw.getD {}).Token.ValueString, transport⟩⟩) := by
  have hok : (req.Config.Raw.getD {}).Token.ValueString ≠ "" →
      (req.Config.Raw.getD {}).Endpoint.ValueString ≠ "" →
        p.Configure transport req ⟨diags, none, none⟩ =
          ⟨diags.Append req.Config.getDiags,
            some ⟨(req.Config.Raw.getD {}).Endpoint.ValueString,
              (req.Config.Raw.getD {}).Token.ValueString, transport⟩,
            some ⟨(req.Config.Raw.getD {}).Endpoint.ValueString,
              (req.Config.Raw.getD {}).Token.ValueString, transport⟩⟩ := by
    intro ht he
    unfold ThetaLakeProvider.Configure
    simp only [tfsdk.State.Get, hread, Bool.false_eq_true, if_false, ht, he, NewClient]
  refine ⟨⟨?_, ?_⟩, hok⟩
  · rintro ⟨herr, hnone, _⟩
    by_contra hne
    push_neg at hne
    rw [hok hne.1 hne.2] at hnone
    simp at hnone
  · intro h
    unfold ThetaLakeProvider.Configure
    simp only [tfsdk.State.Get, hread, Bool.false_eq_true, if_false]
    by_cases ht : (req.Config.Raw.getD {}).Token.ValueString = ""
    · simp only [ht, if_true]
      exact ⟨HasError_addError _ _ _, trivial, trivial⟩
    · have he : (req.Config.Raw.getD {}).Endpoint.ValueString = "" := h.resolve_left ht
      simp only [ht, he, if_true, if_false]
      exact ⟨HasError_addError _ _ _, trivial, trivial⟩

theorem Configure_requires_token_and_endpoint_witness :
    ((((⟨"test"⟩ : ThetaLakeProvider).Configure scripted ⟨⟨some noEndpointConfig, []⟩⟩
          ⟨[], none, none⟩).Diagnostics.HasError = true ∧
        ((⟨"test"⟩ : ThetaLakeProvider).Configure scripted ⟨⟨some noEndpointConfig, []⟩⟩
          ⟨[], none, none⟩).DataSourceData = none ∧
        ((⟨"test"⟩ : ThetaLakeProvider).Configure scripted ⟨⟨some noEndpointConfig, []⟩⟩
          ⟨[], none, none⟩).ResourceData = none) ↔
      ((Option.getD (some noEndpointConfig) {}).Token.ValueString = "" ∨
        (Option.getD (some noEndpointConfig) {}).Endpoint.ValueString = "")) ∧
    (⟨"test"⟩ : ThetaLakeProvider).Configure scripted ⟨⟨some demoConfig, []⟩⟩
        ⟨[], none, none⟩ =
      ⟨[], some demo, some demo⟩ :=
  ⟨(Configure_requires_token_and_endpoint ⟨"test"⟩ scripted ⟨⟨some noEndpointConfig, []⟩⟩ []
      rfl).1,
   (Configure_requires_token_and_endpoint ⟨"test"⟩ scripted ⟨⟨some demoConfig, []⟩⟩ []
      rfl).2 (by decide) (by decide)⟩

/-! ## Headers of every request -/

/-- C17. For every request handed to `Client.DoRequest`, whatever its method, URL, body
and headers: the run hands exactly one request to the transport; on that request the
values under `Authorization` are the single value "Bearer " followed by the token of the
client and the values under `Content-Type` are the single value "application/json";
method, URL and body are those of the request given, and the values under every other
header key are unchanged. -/
theorem DoRequest_sets_both_headers {σ : Type} (c : Client σ) (req : Request) (w : Net σ) :
    exchangesOf (c.DoRequest req) w =
      [⟨c.stamp req, (c.HTTPClient.Do (c.stamp req) w.remote).1⟩] ∧
    (c.stamp req).Header.Values "Authorization" = ["Bearer " ++ c.Token] ∧
    (c.stamp req).Header.Values "Content-Type" = ["application/json"] ∧
    (c.stamp req).Method = req.Method ∧
    (c.stamp req).URL = req.URL ∧
    (c.stamp req).Body = req.Body ∧
    ∀ key, key ≠ "Authorization" → key ≠ "Content-Type" →
      (c.stamp req).Header.Values key = req.Header.Values key := by
  refine ⟨?_, ?_, ?_, rfl, rfl, rfl, ?_⟩
  · unfold exchangesOf Client.DoRequest
    rcases hD : c.HTTPClient.Do (c.stamp req) w.remote with ⟨r, s⟩
    cases r <;> simp [hD]
  · unfold Client.stamp
    simp only
    rw [Header.Values_Set_of_ne _ _ _ _ (by decide), Header.Values_Set_self]
  · unfold Client.stamp
    simp only
    rw [Header.Values_Set_self]
  · intro key h1 h2
    unfold Client.stamp
    simp only
    rw [Header.Values_Set_of_ne _ _ _ _ h2, Header.Values_Set_of_ne _ _ _ _ h1]

/-! ## The request of each operation -/

/-- The exchanges of a run whose log is the old log with new entries appended. -/
theorem exchangesOf_of_log {σ α : Type} (op : Op σ α) (w : Net σ) (new : List Exchange)
    (h : (op w).2.log = w.log ++ new) : exchangesOf op w = new := by
  simp [exchangesOf, h]

/-- The first exchange of a run of the shared shape whose request can be built is the
stamped request with the answer of the transport; the exchanges after it are those of
the continuation. -/
theorem Client.exchange_head {σ α : Type} (L : GoStd) (c : Client σ)
    (method url : String) (payload : Option JObj) (reject : Int → Prop)
    [DecidablePred reject] (text : Response → String) (k : Response → Op σ α)
    (w : Net σ) (body : Option String) (u : URL) (P : List Exchange → Prop)
    (hB : encodeBody L payload = .ok body) (hU : L.urlParse url = .ok u) (hP : P [])
    (hk : ∀ res w1, ∃ new, (k res w1).2.log = w1.log ++ new ∧ P new) :
    ∃ rest, exchangesOf (c.exchange L method url payload reject text k) w =
      ⟨c.stamp ⟨method, u, [], body⟩,
        (c.HTTPClient.Do (c.stamp ⟨method, u, [], body⟩) w.remote).1⟩ :: rest ∧ P rest := by
  unfold exchangesOf
  rw [Client.exchange_apply]
  simp only [hB, hU]
  cases hD : c.HTTPClient.Do (c.stamp ⟨method, u, [], body⟩) w.remote with
  | mk r s =>
    cases r with
    | error e => exact ⟨[], by simp, hP⟩
    | ok res =>
      by_cases hr : reject res.StatusCode
      · exact ⟨[], by simp [hr], hP⟩
      · obtain ⟨new, hnew, hPn⟩ :=
          hk res ⟨s, w.log ++ [⟨c.stamp ⟨method, u, [], body⟩, .ok res⟩]⟩
        exact ⟨new, by simp [hr, hnew], hPn⟩

/-- A run of the shared shape with a continuation that does not talk to the service
sends one request: the method and the body given, to the URL string given. -/
theorem Client.exchange_sendsOne {σ α : Type} (L : GoStd) (c : Client σ)
    (method url : String) (payload : Option JObj) (reject : Int → Prop)
    [DecidablePred reject] (text : Response → String) (k : Response → Op σ α)
    (hk : ∀ res, Quiet (k res)) :
    SendsOne L c method url payload (c.exchange L method url payload reject text k) :=
  fun w u body hU hB =>
    Client.exchange_exchanges L c method url payload reject text k w body u hB hU hk

/-- C18. For every integration identifier and both values of `paused`: the body that
`UpdateIntegrationState` marshals is the JSON object with the single field `status`,
"paused" when `paused` is true and "active" when it is false; and when that body is
marshalled to `rb` and the URL string
`Endpoint ++ "/ingestion/integration/" ++ id ++ "/state"` parses to `u`, the first
exchange of the run is a PUT to `u` with body `rb`, and any exchange after it is the
bodiless GET to the same URL. -/
theorem UpdateIntegrationState_sends_put {σ : Type} (L : GoStd) (c : Client σ)
    (integrationID : String) (paused : Bool) (w : Net σ) (rb : String) (u : URL)
    (hM : L.Marshal [("status", .str (if paused then "paused" else "active"))] = .ok rb)
    (hU : L.urlParse (c.Endpoint ++ "/ingestion/integration/" ++ integrationID ++ "/state")
      = .ok u) :
    ∃ rest, exchangesOf (c.UpdateIntegrationState L integrationID paused) w =
      ⟨c.stamp ⟨"PUT", u, [], some rb⟩,
        (c.HTTPClient.Do (c.stamp ⟨"PUT", u, [], some rb⟩) w.remote).1⟩ :: rest ∧
      ∀ ex ∈ rest, ex.req = c.stamp ⟨"GET", u, [], none⟩ := by
  rw [Client.UpdateIntegrationState_eq]
  refine Client.exchange_head L c _ _ _ _ _ _ w (some rb) u
    (fun rest => ∀ ex ∈ rest, ex.req = c.stamp ⟨"GET", u, [], none⟩) ?_ hU ?_ ?_
  · simp only [encodeBody, integrationStateRequest.toJSON, hM]
  · intro ex hex
    cases hex
  · intro res w1
    have hget : ∃ new, (c.GetIntegrationState L integrationID w1).2.log = w1.log ++ new ∧
        ∀ ex ∈ new, ex.req = c.stamp ⟨"GET", u, [], none⟩ := by
      obtain ⟨new, hnew, _⟩ := Client.GetIntegrationState_classified L c integrationID w1
      refine ⟨new, hnew, ?_⟩
      have h1 := exchangesOf_of_log _ w1 new hnew
      rw [Client.GetIntegrationState_eq] at h1
      rw [Client.exchange_exchanges L c "GET" _ none _ _ _ w1 none u rfl hU
        (fun r => decodeWith_quiet _ _ r)] at h1
      intro ex hex
      rw [← h1] at hex
      simp only [List.mem_singleton] at hex
      rw [hex]
    simp only [Op.bind_apply, Op.readAll, io.ReadAll]
    cases res.BodyErr with
    | some e => exact ⟨[], by simp, by simp⟩
    | none =>
      simp only [Op.pure_apply]
      cases L.unmarshalIntegrationStateResponse res.Body with
      | error e => exact hget
      | ok response =>
        by_cases h : response.State.LastRun = ""
        · simpa [h] using hget
        · exact ⟨[], by simp [h], by simp⟩

theorem UpdateIntegrationState_sends_put_witness :
    ∃ rest, exchangesOf (demo.UpdateIntegrationState stdlib "42" true)
        (fresh [reply 200 stateBody]) =
      ⟨demo.stamp ⟨"PUT", demoURL "/ingestion/integration/42/state", [], some pausedBody⟩,
        (demo.HTTPClient.Do
          (demo.stamp ⟨"PUT", demoURL "/ingestion/integration/42/state", [],
            some pausedBody⟩)
          (fresh [reply 200 stateBody]).remote).1⟩ :: rest ∧
      ∀ ex ∈ rest,
        ex.req = demo.stamp ⟨"GET", demoURL "/ingestion/integration/42/state", [], none⟩ :=
  UpdateIntegrationState_sends_put stdlib demo "42" true (fresh [reply 200 stateBody])
    pausedBody (demoURL "/ingestion/integration/42/state") (by decide) (by decide)

/-- C19. For each collection among cases, users, directory_groups, retention_policies,
legal_holds and tags, for every client, that is every endpoint string, and every
identifier `i`: when the request can be built, the create operation sends exactly one
request, a POST of the marshalled record to the URL string `Endpoint ++ "/<collection>"`,
and the read, update and delete operations send exactly one request, a GET, PUT and
DELETE respectively, to the URL string `Endpoint ++ "/<collection>/" ++ i`. The URL is
what the library parses from that string: endpoint and identifier enter it by
concatenation alone. -/
theorem crud_urls_are_concatenations {σ : Type} (L : GoStd) (c : Client σ) :
    (∀ x : Case, SendsOne L c "POST" (c.Endpoint ++ "/cases") (some x.toJSON)
      (c.CreateCase L x)) ∧
    (∀ i : String, SendsOne L c "GET" (c.Endpoint ++ "/cases/" ++ i) none
      (c.GetCase L i)) ∧
    (∀ (i : String) (x : Case),
      SendsOne L c "PUT" (c.Endpoint ++ "/cases/" ++ i) (some x.toJSON)
        (c.UpdateCase L i x)) ∧
    (∀ i : String, SendsOne L c "DELETE" (c.Endpoint ++ "/cases/" ++ i) none
      (c.DeleteCase L i)) ∧
    (∀ x : User, SendsOne L c "POST" (c.Endpoint ++ "/users") (some x.toJSON)
      (c.CreateUser L x)) ∧
    (∀ i : String, SendsOne L c "GET" (c.Endpoint ++ "/users/" ++ i) none
      (c.GetUser L i)) ∧
    (∀ (i : String) (x : User),
      SendsOne L c "PUT" (c.Endpoint ++ "/users/" ++ i) (some x.toJSON)
        (c.UpdateUser L i x)) ∧
    (∀ i : String, SendsOne L c "DELETE" (c.Endpoint ++ "/users/" ++ i) none
      (c.DeleteUser L i)) ∧
    (∀ x : DirectoryGroup, SendsOne L c "POST" (c.Endpoint ++ "/directory_groups") (some x.toJSON)
      (c.CreateDirectoryGroup L x)) ∧
    (∀ i : String, SendsOne L c "GET" (c.Endpoint ++ "/directory_groups/" ++ i) none
      (c.GetDirectoryGroup L i)) ∧
    (∀ (i : String) (x : DirectoryGroup),
      SendsOne L c "PUT" (c.Endpoint ++ "/directory_groups/" ++ i) (some x.toJSON)
        (c.UpdateDirectoryGroup L i x)) ∧
    (∀ i : String, SendsOne L c "DELETE" (c.Endpoint ++ "/directory_groups/" ++ i) none
      (c.DeleteDirectoryGroup L i)) ∧
    (∀ x : RetentionPolicy, SendsOne L c "POST" (c.Endpoint ++ "/retention_policies") (some x.toJSON)
      (c.CreateRetentionPolicy L x)) ∧
    (∀ i : String, SendsOne L c "GET" (c.Endpoint ++ "/retention_policies/" ++ i) none
      (c.GetRetentionPolicy L i)) ∧
    (∀ (i : String) (x : RetentionPolicy),
      SendsOne L c "PUT" (c.Endpoint ++ "/retention_policies/" ++ i) (some x.toJSON)
        (c.UpdateRetentionPolicy L i x)) ∧
    (∀ i : String, SendsOne L c "DELETE" (c.Endpoint ++ "/retention_policies/" ++ i) none
      (c.DeleteRetentionPolicy L i)) ∧
    (∀ x : LegalHold, SendsOne L c "POST" (c.Endpoint ++ "/legal_holds") (some x.toJSON)
      (c.CreateLegalHold L x)) ∧
    (∀ i : String, SendsOne L c "GET" (c.Endpoint ++ "/legal_holds/" ++ i) none
      (c.GetLegalHold L i)) ∧
    (∀ (i : String) (x : LegalHold),
      SendsOne L c "PUT" (c.Endpoint ++ "/legal_holds/" ++ i) (some x.toJSON)
        (c.UpdateLegalHold L i x)) ∧
    (∀ i : String, SendsOne L c "DELETE" (c.Endpoint ++ "/legal_holds/" ++ i) none
      (c.DeleteLegalHold L i)) ∧
    (∀ x : Tag, SendsOne L c "POST" (c.Endpoint ++ "/tags") (some x.toJSON)
      (c.CreateTag L x)) ∧
    (∀ i : String, SendsOne L c "GET" (c.Endpoint ++ "/tags/" ++ i) none
      (c.GetTag L i)) ∧
    (∀ (i : String) (x : Tag),
      SendsOne L c "PUT" (c.Endpoint ++ "/tags/" ++ i) (some x.toJSON)
        (c.UpdateTag L i x)) ∧
    (∀ i : String, SendsOne L c "DELETE" (c.Endpoint ++ "/tags/" ++ i) none
      (c.DeleteTag L i)) :=
  ⟨fun x => by
      rw [Client.CreateCase_eq]
      exact Client.exchange_sendsOne _ _ _ _ _ _ _ _ (fun r => decodeWith_quiet _ _ r),
   fun i => by
      rw [Client.GetCase_eq]
      exact Client.exchange_sendsOne _ _ _ _ _ _ _ _ (fun r => decodeWith_quiet _ _ r),
   fun i x => by
      rw [Client.UpdateCase_eq]
      exact Client.exchange_sendsOne _ _ _ _ _ _ _ _ (fun r => decodeWith_quiet _ _ r),
   fun i => by
      rw [Client.DeleteCase_eq]
      exact Client.exchange_sendsOne _ _ _ _ _ _ _ _ (fun _ => pure_quiet _),
   fun x => by
      rw [Client.CreateUser_eq]
      exact Client.exchange_sendsOne _ _ _ _ _ _ _ _ (fun r => decodeWith_quiet _ _ r),
   fun i => by
      rw [Client.GetUser_eq]
      exact Client.exchange_sendsOne _ _ _ _ _ _ _ _ (fun r => decodeWith_quiet _ _ r),
   fun i x => by
      rw [Client.UpdateUser_eq]
      exact Client.exchange_sendsOne _ _ _ _ _ _ _ _ (fun r => decodeWith_quiet _ _ r),
   fun i => by
      rw [Client.DeleteUser_eq]
      exact Client.exchange_sendsOne _ _ _ _ _ _ _ _ (fun _ => pure_quiet _),
   fun x => by
      rw [Client.CreateDirectoryGroup_eq]
      exact Client.exchange_sendsOne _ _ _ _ _ _ _ _ (fun r => decodeWith_quiet _ _ r),
   fun i => by
      rw [Client.GetDirectoryGroup_eq]
      exact Client.exchange_sendsOne _ _ _ _ _ _ _ _ (fun r => decodeWith_quiet _ _ r),
   fun i x => by
      rw [Client.UpdateDirectoryGroup_eq]
      exact Client.exchange_sendsOne _ _ _ _ _ _ _ _ (fun r => decodeWith_quiet _ _ r),
   fun i => by
      rw [Client.DeleteDirectoryGroup_eq]
      exact Client.exchange_sendsOne _ _ _ _ _ _ _ _ (fun _ => pure_quiet _),
   fun x => by
      rw [Client.CreateRetentionPolicy_eq]
      exact Client.exchange_sendsOne _ _ _ _ _ _ _ _ (fun r => decodeWith_quiet _ _ r),
   fun i => by
      rw [Client.GetRetentionPolicy_eq]
      exact Client.exchange_sendsOne _ _ _ _ _ _ _ _ (fun r => decodeWith_quiet _ _ r),
   fun i x => by
      rw [Client.UpdateRetentionPolicy_eq]
      exact Client.exchange_sendsOne _ _ _ _ _ _ _ _ (fun r => decodeWith_quiet _ _ r),
   fun i => by
      rw [Client.DeleteRetentionPolicy_eq]
      exact Client.exchange_sendsOne _ _ _ _ _ _ _ _ (fun _ => pure_quiet _),
   fun x => by
      rw [Client.CreateLegalHold_eq]
      exact Client.exchange_sendsOne _ _ _ _ _ _ _ _ (fun r => decodeWith_quiet _ _ r),
   fun i => by
      rw [Client.GetLegalHold_eq]
      exact Client.exchange_sendsOne _ _ _ _ _ _ _ _ (fun r => decodeWith_quiet _ _ r),
   fun i x => by
      rw [Client.UpdateLegalHold_eq]
      exact Client.exchange_sendsOne _ _ _ _ _ _ _ _ (fun r => decodeWith_quiet _ _ r),
   fun i => by
      rw [Client.DeleteLegalHold_eq]
      exact Client.exchange_sendsOne _ _ _ _ _ _ _ _ (fun _ => pure_quiet _),
   fun x => by
      rw [Client.CreateTag_eq]
      exact Client.exchange_sendsOne _ _ _ _ _ _ _ _ (fun r => decodeWith_quiet _ _ r),
   fun i => by
      rw [Client.GetTag_eq]
      exact Client.exchange_sendsOne _ _ _ _ _ _ _ _ (fun r => decodeWith_quiet _ _ r),
   fun i x => by
      rw [Client.UpdateTag_eq]
      exact Client.exchange_sendsOne _ _ _ _ _ _ _ _ (fun r => decodeWith_quiet _ _ r),
   fun i => by
      rw [Client.DeleteTag_eq]
      exact Client.exchange_sendsOne _ _ _ _ _ _ _ _ (fun _ => pure_quiet _)⟩

theorem crud_urls_are_concatenations_witness :
    exchangesOf (slashClient.GetCase stdlib "7?x=1") (fresh [reply 200 caseBody]) =
      [⟨slashClient.stamp
          ⟨"GET", ⟨"https", "", "api.thetalake.example", "//cases/7", "x=1", ""⟩, [], none⟩,
        (slashClient.HTTPClient.Do
          (slashClient.stamp
            ⟨"GET", ⟨"https", "", "api.thetalake.example", "//cases/7", "x=1", ""⟩, [],
              none⟩)
          (fresh [reply 200 caseBody]).remote).1⟩] ∧
    exchangesOf (demo.CreateTag stdlib demoTag) (fresh [reply 201 ""]) =
      [⟨demo.stamp ⟨"POST", demoURL "/tags", [], some demoTagBody⟩,
        (demo.HTTPClient.Do (demo.stamp ⟨"POST", demoURL "/tags", [], some demoTagBody⟩)
          (fresh [reply 201 ""]).remote).1⟩] :=
  ⟨(crud_urls_are_concatenations stdlib slashClient).2.1 "7?x=1"
      (fresh [reply 200 caseBody])
      ⟨"https", "", "api.thetalake.example", "//cases/7", "x=1", ""⟩ none
      (by decide) (by decide),
   (crud_urls_are_concatenations stdlib demo).2.2.2.2.2.2.2.2.2.2.2.2.2.2.2.2.2.2.2.2.1
      demoTag (fresh [reply 201 ""]) (demoURL "/tags") (some demoTagBody)
      (by decide) (by decide)⟩

/-- C20. For every case identifier and record identifier, `AddRecordToCase` marshals the
JSON object with the single field `record_id` holding the record identifier, and when the
request can be built it sends exactly one request: a POST with that body to the URL
string `Endpoint ++ "/cases/" ++ caseID ++ "/records"`, in which the record identifier
has no part. -/
theorem AddRecordToCase_record_in_body {σ : Type} (L : GoStd) (c : Client σ)
    (caseID recordID : String) :
    SendsOne L c "POST" (c.Endpoint ++ "/cases/" ++ caseID ++ "/records")
      (some [("record_id", .str recordID)]) (c.AddRecordToCase L caseID recordID) := by
  rw [Client.AddRecordToCase_eq]
  exact Client.exchange_sendsOne _ _ _ _ _ _ _ _ (fun _ => pure_quiet _)

theorem AddRecordToCase_record_in_body_witness :
    exchangesOf (demo.AddRecordToCase stdlib "7" "r1") (fresh [reply 201 ""]) =
      [⟨demo.stamp ⟨"POST", demoURL "/cases/7/records", [],
          some "\x7b\"record_id\":\"r1\"\x7d"⟩,
        (demo.HTTPClient.Do
          (demo.stamp ⟨"POST", demoURL "/cases/7/records", [],
            some "\x7b\"record_id\":\"r1\"\x7d"⟩)
          (fresh [reply 201 ""]).remote).1⟩] :=
  AddRecordToCase_record_in_body stdlib demo "7" "r1" (fresh [reply 201 ""])
    (demoURL "/cases/7/records") (some "\x7b\"record_id\":\"r1\"\x7d")
    (by decide) (by decide)

/-! ## Create mappers and remaining Read mappers: the shared shape -/

theorem UserResource_Create_eq {σ : Type} (L : GoStd) (r : UserResource σ)
    (req : resource.CreateRequest UserResourceModel)
    (resp : resource.CreateResponse UserResourceModel) :
    r.Create L req resp =
      resourceCall req.Plan {} (fun data => r.client.CreateUser L (userCreateRequestOf data))
        "Unable to create user, got error: "
        (fun data createdUser =>
          let data := { data with ID := types.StringValue (strconv.Itoa createdUser.ID) }
          let data := { data with Name := types.StringValue createdUser.Name }
          let data := { data with Email := types.StringValue createdUser.Email }
          let data := { data with RoleID := types.Int64Value createdUser.RoleID }
          let data :=
            if createdUser.SearchID ≠ 0 then { data with SearchID := types.Int64Value createdUser.SearchID }
            else { data with SearchID := types.Int64Null }
          data) resp := by
  unfold UserResource.Create resourceCall
  simp only [tfsdk.State.Get]
  split
  · rfl
  · congr 1
    funext _
    congr 1
    funext e
    cases e <;> rfl

theorem DirectoryGroupResource_Create_eq {σ : Type} (L : GoStd) (r : DirectoryGroupResource σ)
    (req : resource.CreateRequest DirectoryGroupResourceModel)
    (resp : resource.CreateResponse DirectoryGroupResourceModel) :
    r.Create L req resp =
      resourceCall req.Plan {} (fun data => r.client.CreateDirectoryGroup L (directoryGroupRequestOf data))
        "Unable to create directory group, got error: "
        (fun data createdGroup =>
          let data := { data with ID := types.StringValue (strconv.Itoa createdGroup.ID) }
          let data := { data with Name := types.StringValue createdGroup.Name }
          let data := { data with ExternalID := types.StringValue createdGroup.ExternalID }
          let data := { data with Description := types.StringValue createdGroup.Description }
          data) resp := by
  unfold DirectoryGroupResource.Create resourceCall
  simp only [tfsdk.State.Get]
  split
  · rfl
  · congr 1
    funext _
    congr 1
    funext e
    cases e <;> rfl

theorem RetentionPolicyResource_Create_eq {σ : Type} (L : GoStd) (r : RetentionPolicyResource σ)
    (req : resource.CreateRequest RetentionPolicyResourceModel)
    (resp : resource.CreateResponse RetentionPolicyResourceModel) :
    r.Create L req resp =
      resourceCall req.Plan {} (fun data => r.client.CreateRetentionPolicy L (retentionPolicyRequestOf data))
        "Unable to create retention policy, got error: "
        (fun data createdPolicy =>
          let data := { data with ID := types.StringValue (strconv.Itoa createdPolicy.ID) }
          let data := { data with Name := types.StringValue createdPolicy.Name }
          let data := { data with Description := types.StringValue createdPolicy.Description }
          let data :=
            if createdPolicy.RetentionPeriodDays ≠ 0 then { data with RetentionPeriodDays := types.Int64Value createdPolicy.RetentionPeriodDays }
            else { data with RetentionPeriodDays := types.Int64Null }
          data) resp := by
  unfold RetentionPolicyResource.Create resourceCall
  simp only [tfsdk.State.Get]
  split
  · rfl
  · congr 1
    funext _
    congr 1
    funext e
    cases e <;> rfl

theorem LegalHoldResource_Create_eq {σ : Type} (L : GoStd) (r : LegalHoldResource σ)
    (req : resource.CreateRequest LegalHoldResourceModel)
    (resp : resource.CreateResponse LegalHoldResourceModel) :
    r.Create L req resp =
      resourceCall req.Plan {} (fun data => r.client.CreateLegalHold L (legalHoldRequestOf data))
        "Unable to create legal hold, got error: "
        (fun data createdHold =>
          let data := { data with ID := types.StringValue (strconv.Itoa createdHold.ID) }
          let data := { data with Name := types.StringValue createdHold.Name }
          let data := { data with Description := types.StringValue createdHold.Description }
          let data :=
            if createdHold.CaseID ≠ 0 then { data with CaseID := types.Int64Value createdHold.CaseID }
            else { data with CaseID := types.Int64Null }
          data) resp := by
  unfold LegalHoldResource.Create resourceCall
  simp only [tfsdk.State.Get]
  split
  · rfl
  · congr 1
    funext _
    congr 1
    funext e
    cases e <;> rfl

theorem TagResource_Create_eq {σ : Type} (L : GoStd) (r : TagResource σ)
    (req : resource.CreateRequest TagResourceModel)
    (resp : resource.CreateResponse TagResourceModel) :
    r.Create L req resp =
      resourceCall req.Plan {} (fun data => r.client.CreateTag L (tagRequestOf data))
        "Unable to create tag, got error: "
        (fun data createdTag =>
          let data := { data with ID := types.StringValue (strconv.Itoa createdTag.ID) }
          let data := { data with Name := types.StringValue createdTag.Name }
          let data := { data with Description := types.StringValue createdTag.Description }
          data) resp := by
  unfold TagResource.Create resourceCall
  simp only [tfsdk.State.Get]
  split
  · rfl
  · congr 1
    funext _
    congr 1
    funext e
    cases e <;> rfl

theorem ExportResource_Create_eq {σ : Type} (L : GoStd) (r : ExportResource σ)
    (req : resource.CreateRequest ExportResourceModel)
    (resp : resource.CreateResponse ExportResourceModel) :
    r.Create L req resp =
      resourceCall req.Plan {} (fun data => r.client.CreateExport L (exportRequestOf data))
        "Unable to create export, got error: "
        (fun data createdExport =>
          let data := { data with ID := types.StringValue (strconv.Itoa createdExport.ID) }
          let data := { data with Name := types.StringValue createdExport.Name }
          let data := { data with Description := types.StringValue createdExport.Description }
          let data := { data with Format := types.StringValue createdExport.Format }
          let data := { data with Status := types.StringValue createdExport.Status }
          let data := { data with DownloadURL := types.StringValue createdExport.DownloadURL }
          let data :=
            if createdExport.QueryID ≠ 0 then { data with QueryID := types.Int64Value createdExport.QueryID }
            else { data with QueryID := types.Int64Null }
          data) resp := by
  unfold ExportResource.Create resourceCall
  simp only [tfsdk.State.Get]
  split
  · rfl
  · congr 1
    funext _
    congr 1
    funext e
    cases e <;> rfl

theorem IntegrationStateResource_Read_eq {σ : Type} (L : GoStd)
    (r : IntegrationStateResource σ)
    (req : resource.ReadRequest IntegrationStateResourceModel)
    (resp : resource.ReadResponse IntegrationStateResourceModel) :
    r.Read L req resp =
      resourceCall req.State {}
        (fun data => r.client.GetIntegrationState L data.IntegrationID.ValueString)
        "Unable to read integration state, got error: "
        (fun data state =>
          let data := { data with Paused := types.BoolValue state.Paused }
          let data := { data with LastRun := types.StringValue state.LastRun }
          let data := { data with LastUpload := types.StringValue state.LastUpload }
          data) resp := by
  unfold IntegrationStateResource.Read resourceCall
  simp only [tfsdk.State.Get]
  split
  · rfl
  · congr 1
    funext _
    congr 1
    funext e
    cases e <;> rfl

theorem RecordResource_Read_eq {σ : Type} (L : GoStd) (r : RecordResource σ)
    (req : resource.ReadRequest RecordResourceModel)
    (resp : resource.ReadResponse RecordResourceModel) :
    r.Read L req resp =
      resourceCall req.State {} (fun data => r.client.GetRecord L data.ID.ValueString)
        "Unable to read record, got error: "
        (fun data record =>
          let data := { data with ContentDate := types.StringValue record.ContentDate }
          let participants : List TypesString :=
            record.Participants.foldl
              (fun participants p => participants ++ [types.StringValue p]) []
          let data := { data with Participants := (types.ListValueFrom participants).1 }
          let data := { data with ReviewState := types.StringValue record.ReviewState }
          let data := { data with Comment := types.StringValue record.Comment }
          data) resp := by
  unfold RecordResource.Read resourceCall
  simp only [tfsdk.State.Get]
  split
  · rfl
  · congr 1
    funext _
    congr 1
    funext e
    cases e <;> rfl

/-! ## Rejected reads -/

theorem textFixed_eq (res : Response) :
    textFixed res = "status: " ++ toString res.StatusCode ++ ", body: error reading body" := by
  unfold textFixed
  rw [String.append_assoc]
  rfl

/-- A run of the shared shape whose exchange got a rejected status returns the
unexpected-status error with the text of the operation. -/
theorem Client.exchange_rejected {σ α : Type} (L : GoStd) (c : Client σ)
    (method url : String) (payload : Option JObj) (reject : Int → Prop)
    [DecidablePred reject] (text : Response → String) (k : Response → Op σ α)
    (hk : ∀ res, Quiet (k res)) (w : Net σ) (ex : Exchange) (res : Response)
    (hex : ex ∈ exchangesOf (c.exchange L method url payload reject text k) w)
    (hres : ex.res = .ok res) (hrej : reject res.StatusCode) :
    (c.exchange L method url payload reject text k w).1 =
      .error (.status res.StatusCode (text res)) := by
  unfold exchangesOf at hex
  rw [Client.exchange_apply] at hex ⊢
  cases hB : encodeBody L payload with
  | error e => simp [hB] at hex
  | ok body =>
    cases hU : L.urlParse url with
    | error e => simp [hB, hU] at hex
    | ok u =>
      simp only [hB, hU] at hex ⊢
      cases hD : c.HTTPClient.Do (c.stamp ⟨method, u, [], body⟩) w.remote with
      | mk r s =>
        cases r with
        | error e =>
          simp only [hD, List.drop_left, List.mem_singleton] at hex
          subst hex
          simp at hres
        | ok res0 =>
          simp only [hD] at hex ⊢
          by_cases hr : reject res0.StatusCode
          · simp only [hr, if_true, List.drop_left, List.mem_singleton] at hex ⊢
            subst hex
            simp only [Except.ok.injEq] at hres
            subst hres
            rfl
          · simp only [hr, if_false, (hk res0 _).1, List.drop_left,
              List.mem_singleton] at hex
            subst hex
            simp only [Except.ok.injEq] at hres
            subst hres
            exact absurd hrej hr

/-- The GET operations built on the shared shape obey `FixedStatusText`. -/
theorem Client.exchange_fixedText {σ α : Type} (L : GoStd) (c : Client σ)
    (method url : String) (payload : Option JObj) (k : Response → Op σ α)
    (hk : ∀ res, Quiet (k res)) :
    FixedStatusText
      (c.exchange L method url payload (fun n => n ≠ http.StatusOK) textFixed k) := by
  intro w ex res hex hres hne
  rw [← textFixed_eq]
  exact Client.exchange_rejected L c method url payload _ textFixed k hk w ex res hex hres hne

/-- A mapper of the shared shape whose client call obeys `FixedStatusText` reports a
rejected GET as `ReadFails` says. -/
theorem resourceCall_readFails {σ M β : Type} (src : tfsdk.State M) (zero : M)
    (call : M → Op σ β) (failText : String) (merge : M → β → M)
    (hcall : ∀ data, FixedStatusText (call data)) :
    ReadFails failText src (fun resp => resourceCall src zero call failText merge resp) := by
  intro resp w ex res hex hres hne
  unfold exchangesOf at hex
  simp only [resourceCall_apply] at hex ⊢
  by_cases hE : (resp.appendDiags src.getDiags).Diagnostics.HasError = true
  · simp [hE] at hex
  · simp only [hE, Bool.false_eq_true, if_false] at hex ⊢
    have hfix := hcall (src.Raw.getD zero) w ex res
    unfold exchangesOf at hfix
    rcases hc : call (src.Raw.getD zero) w with ⟨o, w1⟩
    rw [hc] at hex hfix
    cases o with
    | ok got =>
      have := hfix hex hres hne
      simp at this
    | panic m =>
      have := hfix hex hres hne
      simp at this
    | error err =>
      have herr := hfix hex hres hne
      simp only [Outcome.error.injEq] at herr
      subst herr
      exact ⟨_, rfl, rfl, rfl, HasError_addError _ _ _⟩

/-- C22. For each of the fifteen GET operations of the client and every run of it: when
the exchange of the run got a response whose status is not 200, the run returns the error
whose text is "status: " followed by the status code and ", body: error reading body".
The text is built from the status code alone, so two responses with the same status and
different bodies give the same text. -/
theorem get_error_text_is_fixed {σ : Type} (L : GoStd) (c : Client σ) :
    (∀ i : String, FixedStatusText (c.GetCase L i)) ∧
    (∀ i : String, FixedStatusText (c.GetUser L i)) ∧
    (∀ i : String, FixedStatusText (c.GetDirectoryGroup L i)) ∧
    (∀ i : String, FixedStatusText (c.GetRetentionPolicy L i)) ∧
    (∀ i : String, FixedStatusText (c.GetLegalHold L i)) ∧
    (∀ i : String, FixedStatusText (c.GetTag L i)) ∧
    FixedStatusText (c.GetAuditLogs L) ∧
    FixedStatusText (c.GetEvents L) ∧
    FixedStatusText (c.GetAnalysisPolicies L) ∧
    (∀ i : String, FixedStatusText (c.GetIntegrationState L i)) ∧
    (∀ i : String, FixedStatusText (c.GetExport L i)) ∧
    (∀ i : String, FixedStatusText (c.GetRecord L i)) ∧
    FixedStatusText (c.GetSystemStatus L) ∧
    FixedStatusText (c.GetAnalysisPolicyHits L) ∧
    (∀ i : String, FixedStatusText (c.GetAnalysis L i)) :=
  ⟨fun i => by
      rw [Client.GetCase_eq]
      exact Client.exchange_fixedText _ _ _ _ _ _ (fun r => decodeWith_quiet _ _ r),
   fun i => by
      rw [Client.GetUser_eq]
      exact Client.exchange_fixedText _ _ _ _ _ _ (fun r => decodeWith_quiet _ _ r),
   fun i => by
      rw [Client.GetDirectoryGroup_eq]
      exact Client.exchange_fixedText _ _ _ _ _ _ (fun r => decodeWith_quiet _ _ r),
   fun i => by
      rw [Client.GetRetentionPolicy_eq]
      exact Client.exchange_fixedText _ _ _ _ _ _ (fun r => decodeWith_quiet _ _ r),
   fun i => by
      rw [Client.GetLegalHold_eq]
      exact Client.exchange_fixedText _ _ _ _ _ _ (fun r => decodeWith_quiet _ _ r),
   fun i => by
      rw [Client.GetTag_eq]
      exact Client.exchange_fixedText _ _ _ _ _ _ (fun r => decodeWith_quiet _ _ r),
   by
      rw [Client.GetAuditLogs_eq]
      exact Client.exchange_fixedText _ _ _ _ _ _ (fun r => decodeWith_quiet _ _ r),
   by
      rw [Client.GetEvents_eq]
      exact Client.exchange_fixedText _ _ _ _ _ _ (fun r => decodeWith_quiet _ _ r),
   by
      rw [Client.GetAnalysisPolicies_eq]
      exact Client.exchange_fixedText _ _ _ _ _ _ (fun r => decodeWith_quiet _ _ r),
   fun i => by
      rw [Client.GetIntegrationState_eq]
      exact Client.exchange_fixedText _ _ _ _ _ _ (fun r => decodeWith_quiet _ _ r),
   fun i => by
      rw [Client.GetExport_eq]
      exact Client.exchange_fixedText _ _ _ _ _ _ (fun r => decodeWith_quiet _ _ r),
   fun i => by
      rw [Client.GetRecord_eq]
      exact Client.exchange_fixedText _ _ _ _ _ _ (fun r => decodeWith_quiet _ _ r),
   by
      rw [Client.GetSystemStatus_eq]
      exact Client.exchange_fixedText _ _ _ _ _ _ (fun r => decodeWith_quiet _ _ r),
   by
      rw [Client.GetAnalysisPolicyHits_eq]
      exact Client.exchange_fixedText _ _ _ _ _ _ (fun r => decodeWith_quiet _ _ r),
   fun i => by
      rw [Client.GetAnalysis_eq]
      exact Client.exchange_fixedText _ _ _ _ _ _ (fun r => decodeWith_quiet _ _ r)⟩

theorem get_error_text_is_fixed_witness :
    (demo.GetCase stdlib "7" (fresh [.ok notFound])).1 =
      .error (.status 404 "status: 404, body: error reading body") :=
  (get_error_text_is_fixed stdlib demo).1 "7" (fresh [.ok notFound])
    ⟨demo.stamp ⟨"GET", demoURL "/cases/7", [], none⟩, .ok notFound⟩ notFound
    (by decide) rfl (by decide)

/-- C21. For each of the nine Read mappers (Case, User, DirectoryGroup, RetentionPolicy,
LegalHold, Tag, Export, Record, IntegrationState) and every run of it: when the GET of the
run got a response whose status is not 200, whatever the status, 404 included, Read
returns the response it was given with the stored state untouched and with one error
diagnostic added, "Client Error", whose detail is "Unable to read <noun>, got error: "
followed by the error text of the client. No record is written. -/
theorem read_reports_rejected_get {σ : Type} (L : GoStd) :
    (∀ (r : CaseResource σ) (req : resource.ReadRequest CaseResourceModel),
      ReadFails "Unable to read case, got error: " req.State (r.Read L req)) ∧
    (∀ (r : UserResource σ) (req : resource.ReadRequest UserResourceModel),
      ReadFails "Unable to read user, got error: " req.State (r.Read L req)) ∧
    (∀ (r : DirectoryGroupResource σ) (req : resource.ReadRequest DirectoryGroupResourceModel),
      ReadFails "Unable to read directory group, got error: " req.State (r.Read L req)) ∧
    (∀ (r : RetentionPolicyResource σ) (req : resource.ReadRequest RetentionPolicyResourceModel),
      ReadFails "Unable to read retention policy, got error: " req.State (r.Read L req)) ∧
    (∀ (r : LegalHoldResource σ) (req : resource.ReadRequest LegalHoldResourceModel),
      ReadFails "Unable to read legal hold, got error: " req.State (r.Read L req)) ∧
    (∀ (r : TagResource σ) (req : resource.ReadRequest TagResourceModel),
      ReadFails "Unable to read tag, got error: " req.State (r.Read L req)) ∧
    (∀ (r : ExportResource σ) (req : resource.ReadRequest ExportResourceModel),
      ReadFails "Unable to read export, got error: " req.State (r.Read L req)) ∧
    (∀ (r : RecordResource σ) (req : resource.ReadRequest RecordResourceModel),
      ReadFails "Unable to read record, got error: " req.State (r.Read L req)) ∧
    (∀ (r : IntegrationStateResource σ) (req : resource.ReadRequest IntegrationStateResourceModel),
      ReadFails "Unable to read integration state, got error: " req.State (r.Read L req)) :=
  ⟨fun r req => by
      have h : r.Read L req = fun resp => r.Read L req resp := rfl
      rw [h]
      simp only [CaseResource_Read_eq]
      exact resourceCall_readFails _ _ _ _ _ (fun data => by
        rw [Client.GetCase_eq]
        exact Client.exchange_fixedText _ _ _ _ _ _ (fun r => decodeWith_quiet _ _ r)),
   fun r req => by
      have h : r.Read L req = fun resp => r.Read L req resp := rfl
      rw [h]
      simp only [UserResource_Read_eq]
      exact resourceCall_readFails _ _ _ _ _ (fun data => by
        rw [Client.GetUser_eq]
        exact Client.exchange_fixedText _ _ _ _ _ _ (fun r => decodeWith_quiet _ _ r)),
   fun r req => by
      have h : r.Read L req = fun resp => r.Read L req resp := rfl
      rw [h]
      simp only [DirectoryGroupResource_Read_eq]
      exact resourceCall_readFails _ _ _ _ _ (fun data => by
        rw [Client.GetDirectoryGroup_eq]
        exact Client.exchange_fixedText _ _ _ _ _ _ (fun r => decodeWith_quiet _ _ r)),
   fun r req => by
      have h : r.Read L req = fun resp => r.Read L req resp := rfl
      rw [h]
      simp only [RetentionPolicyResource_Read_eq]
      exact resourceCall_readFails _ _ _ _ _ (fun data => by
        rw [Client.GetRetentionPolicy_eq]
        exact Client.exchange_fixedText _ _ _ _ _ _ (fun r => decodeWith_quiet _ _ r)),
   fun r req => by
      have h : r.Read L req = fun resp => r.Read L req resp := rfl
      rw [h]
      simp only [LegalHoldResource_Read_eq]
      exact resourceCall_readFails _ _ _ _ _ (fun data => by
        rw [Client.GetLegalHold_eq]
        exact Client.exchange_fixedText _ _ _ _ _ _ (fun r => decodeWith_quiet _ _ r)),
   fun r req => by
      have h : r.Read L req = fun resp => r.Read L req resp := rfl
      rw [h]
      simp only [TagResource_Read_eq]
      exact resourceCall_readFails _ _ _ _ _ (fun data => by
        rw [Client.GetTag_eq]
        exact Client.exchange_fixedText _ _ _ _ _ _ (fun r => decodeWith_quiet _ _ r)),
   fun r req => by
      have h : r.Read L req = fun resp => r.Read L req resp := rfl
      rw [h]
      simp only [ExportResource_Read_eq]
      exact resourceCall_readFails _ _ _ _ _ (fun data => by
        rw [Client.GetExport_eq]
        exact Client.exchange_fixedText _ _ _ _ _ _ (fun r => decodeWith_quiet _ _ r)),
   fun r req => by
      have h : r.Read L req = fun resp => r.Read L req resp := rfl
      rw [h]
      simp only [RecordResource_Read_eq]
      exact resourceCall_readFails _ _ _ _ _ (fun data => by
        rw [Client.GetRecord_eq]
        exact Client.exchange_fixedText _ _ _ _ _ _ (fun r => decodeWith_quiet _ _ r)),
   fun r req => by
      have h : r.Read L req = fun resp => r.Read L req resp := rfl
      rw [h]
      simp only [IntegrationStateResource_Read_eq]
      exact resourceCall_readFails _ _ _ _ _ (fun data => by
        rw [Client.GetIntegrationState_eq]
        exact Client.exchange_fixedText _ _ _ _ _ _ (fun r => decodeWith_quiet _ _ r))⟩

theorem read_reports_rejected_get_witness :
    ∃ resp1, ((⟨demo⟩ : TagResource _).Read stdlib ⟨⟨some tagState, []⟩⟩
        (emptyResponse (some tagState)) (fresh [.ok notFound])).1 = .ok resp1 ∧
      resp1.State = (emptyResponse (some tagState)).State ∧
      resp1.Diagnostics =
        (diag.Diagnostics.Append (emptyResponse (some tagState)).Diagnostics
            ([] : diag.Diagnostics)).AddError "Client Error"
          ("Unable to read tag, got error: " ++
            ("status: " ++ toString (404 : Int) ++ ", body: error reading body")) ∧
      resp1.Diagnostics.HasError = true :=
  (read_reports_rejected_get stdlib).2.2.2.2.2.1 ⟨demo⟩ ⟨⟨some tagState, []⟩⟩
    (emptyResponse (some tagState)) (fresh [.ok notFound])
    ⟨demo.stamp ⟨"GET", demoURL "/tags/9", [], none⟩, .ok notFound⟩ notFound
    (by decide) rfl (by decide)

/-! ## Read after Create -/

/-- `CaseResource.Create` as an instance of the shared shape: the stored status is always
"OPEN", so the status transition in its body is never reached. -/
theorem CaseResource_Create_eq {σ : Type} (L : GoStd) (r : CaseResource σ)
    (req : resource.CreateRequest CaseResourceModel)
    (resp : resource.CreateResponse CaseResourceModel) :
    r.Create L req resp =
      resourceCall req.Plan {} (fun data => r.client.CreateCase L (caseRequestOf data))
        "Unable to create case, got error: "
        (fun data createdCase =>
          let data := { data with ID := types.StringValue (strconv.Itoa createdCase.ID) }
          let data := { data with Name := types.StringValue createdCase.Name }
          let data := { data with Number := types.StringValue createdCase.Number }
          let data := { data with OpenDate := types.StringValue createdCase.OpenDate }
          let data := { data with Visibility := types.StringValue createdCase.Visibility }
          let data := { data with Description := types.StringValue createdCase.Description }
          let data := { data with Status := types.StringValue "OPEN" }
          data) resp := by
  have hcr : ∀ data : CaseResourceModel,
      ({ Name := data.Name.ValueString
         Number := data.Number.ValueString
         OpenDate := data.OpenDate.ValueString
         Visibility := data.Visibility.ValueString
         Description := data.Description.ValueString } : Case) = caseRequestOf data :=
    fun _ => rfl
  have hstatus : (types.StringValue "OPEN").ValueString = "OPEN" := rfl
  funext w
  rw [resourceCall_apply]
  unfold CaseResource.Create
  simp only [tfsdk.State.Get]
  by_cases hE : (resp.appendDiags req.Plan.getDiags).Diagnostics.HasError = true
  · simp [hE]
  · simp only [hE, hcr, hstatus, Bool.false_eq_true, ↓reduceIte, Op.bind_apply, Op.try_apply]
    generalize r.client.CreateCase L (caseRequestOf (req.Plan.Raw.getD {})) w = run
    rcases run with ⟨o, w1⟩
    cases o <;> simp [types.StringValue, TypesString.IsNull, TypesString.IsUnknown]

/-- Two mappers of the shared shape, the second run on the state that the first left and
answered with the same entity: when merging that entity twice is merging it once, both
runs store the same record. -/
theorem resourceCall_readRestores {σ M E : Type} (plan : tfsdk.Plan M) (zero : M)
    (post : M → Op σ E) (createText : String) (mergeC : M → E → M)
    (get : String → Op σ E) (idOf : M → String) (readText : String) (mergeR : M → E → M)
    (respC0 respR0 : resource.Response M) (w w2 : Net σ) (created : E) (key : String)
    (hid : ∀ data, idOf (mergeC data created) = key)
    (hmerge : ∀ data, mergeR (mergeC data created) created = mergeC data created) :
    ReadRestores created (post (plan.Raw.getD zero) w).1
      (resourceCall plan zero post createText mergeC respC0 w)
      (get key w2).1
      (fun st => resourceCall st zero (fun data => get (idOf data)) readText mergeR
        respR0 w2) := by
  intro respC respR hC hpost hget hR
  obtain ⟨got, hg, hraw, _⟩ := resourceCall_succeeded _ _ _ _ _ _ _ _ hC
  rw [hpost] at hg
  simp only [Outcome.ok.injEq] at hg
  subst hg
  obtain ⟨got2, hg2, hraw2, _⟩ := resourceCall_succeeded _ _ _ _ _ _ _ _ hR
  rw [hraw] at hg2 hraw2
  simp only [Option.getD_some, hid] at hg2 hraw2
  rw [hget] at hg2
  simp only [Outcome.ok.injEq] at hg2
  subst hg2
  rw [hmerge] at hraw2
  exact ⟨_, hraw, hraw2⟩

/-- C23. For each of Case, User, DirectoryGroup, RetentionPolicy, LegalHold, Tag and
Export: when Create succeeds with the POST decoded to the entity `created`, and Read, run
on the state that Create left, succeeds with its GET (to the identifier of `created`)
decoded to the same entity, then Read stores the record that Create stored, equal on every
field. -/
theorem read_after_create_restores {σ : Type} (L : GoStd) :
    (∀ (r : CaseResource σ) (reqC : resource.CreateRequest CaseResourceModel)
       (respC0 respR0 : resource.Response CaseResourceModel) (w w2 : Net σ)
       (created : Case),
      ReadRestores created
        (r.client.CreateCase L (caseRequestOf (reqC.Plan.Raw.getD {})) w).1
        (r.Create L reqC respC0 w)
        (r.client.GetCase L (strconv.Itoa created.ID) w2).1
        (fun st => r.Read L ⟨st⟩ respR0 w2)) ∧
    (∀ (r : UserResource σ) (reqC : resource.CreateRequest UserResourceModel)
       (respC0 respR0 : resource.Response UserResourceModel) (w w2 : Net σ)
       (created : User),
      ReadRestores created
        (r.client.CreateUser L (userCreateRequestOf (reqC.Plan.Raw.getD {})) w).1
        (r.Create L reqC respC0 w)
        (r.client.GetUser L (strconv.Itoa created.ID) w2).1
        (fun st => r.Read L ⟨st⟩ respR0 w2)) ∧
    (∀ (r : DirectoryGroupResource σ) (reqC : resource.CreateRequest DirectoryGroupResourceModel)
       (respC0 respR0 : resource.Response DirectoryGroupResourceModel) (w w2 : Net σ)
       (created : DirectoryGroup),
      ReadRestores created
        (r.client.CreateDirectoryGroup L (directoryGroupRequestOf (reqC.Plan.Raw.getD {})) w).1
        (r.Create L reqC respC0 w)
        (r.client.GetDirectoryGroup L (strconv.Itoa created.ID) w2).1
        (fun st => r.Read L ⟨st⟩ respR0 w2)) ∧
    (∀ (r : RetentionPolicyResource σ) (reqC : resource.CreateRequest RetentionPolicyResourceModel)
       (respC0 respR0 : resource.Response RetentionPolicyResourceModel) (w w2 : Net σ)
       (created : RetentionPolicy),
      ReadRestores created
        (r.client.CreateRetentionPolicy L (retentionPolicyRequestOf (reqC.Plan.Raw.getD {})) w).1
        (r.Create L reqC respC0 w)
        (r.client.GetRetentionPolicy L (strconv.Itoa created.ID) w2).1
        (fun st => r.Read L ⟨st⟩ respR0 w2)) ∧
    (∀ (r : LegalHoldResource σ) (reqC : resource.CreateRequest LegalHoldResourceModel)
       (respC0 respR0 : resource.Response LegalHoldResourceModel) (w w2 : Net σ)
       (created : LegalHold),
      ReadRestores created
        (r.client.CreateLegalHold L (legalHoldRequestOf (reqC.Plan.Raw.getD {})) w).1
        (r.Create L reqC respC0 w)
        (r.client.GetLegalHold L (strconv.Itoa created.ID) w2).1
        (fun st => r.Read L ⟨st⟩ respR0 w2)) ∧
    (∀ (r : TagResource σ) (reqC : resource.CreateRequest TagResourceModel)
       (respC0 respR0 : resource.Response TagResourceModel) (w w2 : Net σ)
       (created : Tag),
      ReadRestores created
        (r.client.CreateTag L (tagRequestOf (reqC.Plan.Raw.getD {})) w).1
        (r.Create L reqC respC0 w)
        (r.client.GetTag L (strconv.Itoa created.ID) w2).1
        (fun st => r.Read L ⟨st⟩ respR0 w2)) ∧
    (∀ (r : ExportResource σ) (reqC : resource.CreateRequest ExportResourceModel)
       (respC0 respR0 : resource.Response ExportResourceModel) (w w2 : Net σ)
       (created : Export),
      ReadRestores created
        (r.client.CreateExport L (exportRequestOf (reqC.Plan.Raw.getD {})) w).1
        (r.Create L reqC respC0 w)
        (r.client.GetExport L (strconv.Itoa created.ID) w2).1
        (fun st => r.Read L ⟨st⟩ respR0 w2)) :=
  ⟨fun r reqC respC0 respR0 w w2 created => by
      simp only [CaseResource_Create_eq, CaseResource_Read_eq]
      exact resourceCall_readRestores reqC.Plan {} _ _ _ (r.client.GetCase L)
        (fun data => data.ID.ValueString) _ _ respC0 respR0 w w2 created
        (strconv.Itoa created.ID)
        (fun data => rfl)
        (fun data => rfl),
   fun r reqC respC0 respR0 w w2 created => by
      simp only [UserResource_Create_eq, UserResource_Read_eq]
      exact resourceCall_readRestores reqC.Plan {} _ _ _ (r.client.GetUser L)
        (fun data => data.ID.ValueString) _ _ respC0 respR0 w w2 created
        (strconv.Itoa created.ID)
        (fun data => by dsimp only; split <;> rfl)
        (fun data => by split <;> rfl),
   fun r reqC respC0 respR0 w w2 created => by
      simp only [DirectoryGroupResource_Create_eq, DirectoryGroupResource_Read_eq]
      exact resourceCall_readRestores reqC.Plan {} _ _ _ (r.client.GetDirectoryGroup L)
        (fun data => data.ID.ValueString) _ _ respC0 respR0 w w2 created
        (strconv.Itoa created.ID)
        (fun data => rfl)
        (fun data => rfl),
   fun r reqC respC0 respR0 w w2 created => by
      simp only [RetentionPolicyResource_Create_eq, RetentionPolicyResource_Read_eq]
      exact resourceCall_readRestores reqC.Plan {} _ _ _ (r.client.GetRetentionPolicy L)
        (fun data => data.ID.ValueString) _ _ respC0 respR0 w w2 created
        (strconv.Itoa created.ID)
        (fun data => by dsimp only; split <;> rfl)
        (fun data => by split <;> rfl),
   fun r reqC respC0 respR0 w w2 created => by
      simp only [LegalHoldResource_Create_eq, LegalHoldResource_Read_eq]
      exact resourceCall_readRestores reqC.Plan {} _ _ _ (r.client.GetLegalHold L)
        (fun data => data.ID.ValueString) _ _ respC0 respR0 w w2 created
        (strconv.Itoa created.ID)
        (fun data => by dsimp only; split <;> rfl)
        (fun data => by split <;> rfl),
   fun r reqC respC0 respR0 w w2 created => by
      simp only [TagResource_Create_eq, TagResource_Read_eq]
      exact resourceCall_readRestores reqC.Plan {} _ _ _ (r.client.GetTag L)
        (fun data => data.ID.ValueString) _ _ respC0 respR0 w w2 created
        (strconv.Itoa created.ID)
        (fun data => rfl)
        (fun data => rfl),
   fun r reqC respC0 respR0 w w2 created => by
      simp only [ExportResource_Create_eq, ExportResource_Read_eq]
      exact resourceCall_readRestores reqC.Plan {} _ _ _ (r.client.GetExport L)
        (fun data => data.ID.ValueString) _ _ respC0 respR0 w w2 created
        (strconv.Itoa created.ID)
        (fun data => by dsimp only; split <;> rfl)
        (fun data => by split <;> rfl)⟩

theorem read_after_create_restores_witness :
    ∃ stored, (emptyResponse (some createdCaseState)).State.Raw = some stored ∧
      (emptyResponse (some createdCaseState)).State.Raw = some stored :=
  (read_after_create_restores stdlib).1 ⟨demo⟩ ⟨⟨some closedCasePlan, []⟩⟩
    (emptyResponse none) (emptyResponse (some createdCaseState))
    (fresh [reply 201 caseBody]) (fresh [reply 200 caseBody])
    ⟨7, "fraud-2024", "CASE-7", "2024-01-01", "PRIVATE", ""⟩
    (emptyResponse (some createdCaseState)) (emptyResponse (some createdCaseState))
    ⟨by decide, by decide⟩ (by decide) (by decide) ⟨by decide, by decide⟩

/-! ## Case update in two steps -/

/-- A run of `CaseResource.Update`, case by case. -/
theorem CaseResource_Update_apply {σ : Type} (L : GoStd) (r : CaseResource σ)
    (req : resource.UpdateRequest CaseResourceModel)
    (resp : resource.UpdateResponse CaseResourceModel) (w : Net σ) :
    r.Update L req resp w =
      if (resp.appendDiags req.Plan.getDiags).Diagnostics.HasError = true then
        (.ok (resp.appendDiags req.Plan.getDiags), w)
      else
        match r.client.UpdateCase L (req.Plan.Raw.getD {}).ID.ValueString
            (caseRequestOf (req.Plan.Raw.getD {})) w with
        | (.panic m, w1) => (.panic m, w1)
        | (.error err, w1) =>
          (.ok ((resp.appendDiags req.Plan.getDiags).addError "Client Error"
            ("Unable to update case, got error: " ++ err.Error)), w1)
        | (.ok updatedCase, w1) =>
          if (!(req.Plan.Raw.getD {}).Status.IsNull &&
              !(req.Plan.Raw.getD {}).Status.IsUnknown) = true then
            match r.client.UpdateCaseStatus L (req.Plan.Raw.getD {}).ID.ValueString
                (req.Plan.Raw.getD {}).Status.ValueString w1 with
            | (.panic m, w2) => (.panic m, w2)
            | (.error err, w2) =>
              (.ok ((resp.appendDiags req.Plan.getDiags).addError "Client Error"
                ("Unable to update case status, got error: " ++ err.Error)), w2)
            | (.ok _, w2) =>
              (.ok ((resp.appendDiags req.Plan.getDiags).setState
                (caseMerge (req.Plan.Raw.getD {}) updatedCase)), w2)
          else
            (.ok ((resp.appendDiags req.Plan.getDiags).setState
              (caseMerge (req.Plan.Raw.getD {}) updatedCase)), w1) := by
  have hcr : ∀ data : CaseResourceModel,
      ({ Name := data.Name.ValueString
         Number := data.Number.ValueString
         OpenDate := data.OpenDate.ValueString
         Visibility := data.Visibility.ValueString
         Description := data.Description.ValueString } : Case) = caseRequestOf data :=
    fun _ => rfl
  unfold CaseResource.Update
  simp only [tfsdk.State.Get, hcr]
  by_cases hE : (resp.appendDiags req.Plan.getDiags).Diagnostics.HasError = true
  · simp only [hE, if_true, Op.pure_apply]
  · simp only [hE, Bool.false_eq_true, if_false, Op.bind_apply, Op.try_apply]
    rcases hX : r.client.UpdateCase L (req.Plan.Raw.getD {}).ID.ValueString
      (caseRequestOf (req.Plan.Raw.getD {})) w with ⟨o, w1⟩
    cases o with
    | panic m => rfl
    | error err => rfl
    | ok updatedCase =>
      simp only
      by_cases hS : (!(req.Plan.Raw.getD {}).Status.IsNull &&
          !(req.Plan.Raw.getD {}).Status.IsUnknown) = true
      · simp only [hS, if_true, Op.bind_apply, Op.try_apply]
        rcases hY : r.client.UpdateCaseStatus L (req.Plan.Raw.getD {}).ID.ValueString
          (req.Plan.Raw.getD {}).Status.ValueString w1 with ⟨o2, w2⟩
        cases o2 <;> rfl
      · simp only [hS, Bool.false_eq_true, if_false, Op.bind_apply, Op.pure_apply]
        rfl

/-- The exchanges of two runs in sequence, each of which only appends to the log. -/
theorem exchanges_of_two_steps {σ : Type} (w w1 w2 : Net σ) (new1 new2 : List Exchange)
    (h1 : w1.log = w.log ++ new1) (h2 : w2.log = w1.log ++ new2) :
    w2.log.drop w.log.length = new1 ++ new2 := by
  rw [h2, h1, List.append_assoc, List.drop_left]

/-- C26. For every Case plan whose status is known (neither null nor unknown) and that is
read without an error diagnostic: when the PUT of `UpdateCase` succeeds and the status
transition `UpdateCaseStatus` that follows returns an error, whichever error (a status
other than 200, a transport failure, a status value rejected by local validation),
`CaseResource.Update` returns the response it was given with the stored state untouched
and with the error diagnostic "Client Error" added, whose detail is
"Unable to update case status, got error: " followed by the error text. The service is
left where the failed transition left it, and the exchanges of the run are those of the
PUT followed by those of the failed transition: no request follows the failing step, so
the field update already applied is not undone. -/
theorem CaseResource_Update_status_failure {σ : Type} (L : GoStd) (r : CaseResource σ)
    (req : resource.UpdateRequest CaseResourceModel)
    (resp : resource.UpdateResponse CaseResourceModel) (w w1 w2 : Net σ)
    (updatedCase : Case) (err : Err)
    (hread : (resp.appendDiags req.Plan.getDiags).Diagnostics.HasError = false)
    (hknown : (req.Plan.Raw.getD {}).Status.IsNull = false ∧
      (req.Plan.Raw.getD {}).Status.IsUnknown = false)
    (hput : r.client.UpdateCase L (req.Plan.Raw.getD {}).ID.ValueString
      (caseRequestOf (req.Plan.Raw.getD {})) w = (.ok updatedCase, w1))
    (hstatus : r.client.UpdateCaseStatus L (req.Plan.Raw.getD {}).ID.ValueString
      (req.Plan.Raw.getD {}).Status.ValueString w1 = (.error err, w2)) :
    ∃ resp1, r.Update L req resp w = (.ok resp1, w2) ∧
      resp1.State = resp.State ∧
      resp1.Diagnostics = (resp.Diagnostics.Append req.Plan.getDiags).AddError
        "Client Error" ("Unable to update case status, got error: " ++ err.Error) ∧
      resp1.Diagnostics.HasError = true ∧
      exchangesOf (r.Update L req resp) w =
        exchangesOf (r.client.UpdateCase L (req.Plan.Raw.getD {}).ID.ValueString
          (caseRequestOf (req.Plan.Raw.getD {}))) w ++
        exchangesOf (r.client.UpdateCaseStatus L (req.Plan.Raw.getD {}).ID.ValueString
          (req.Plan.Raw.getD {}).Status.ValueString) w1 := by
  have hrun : r.Update L req resp w =
      (.ok ((resp.appendDiags req.Plan.getDiags).addError "Client Error"
        ("Unable to update case status, got error: " ++ err.Error)), w2) := by
    rw [CaseResource_Update_apply]
    simp only [hread, Bool.false_eq_true, if_false, hput, hknown.1, hknown.2, Bool.not_false,
      Bool.and_self, if_true, hstatus]
  refine ⟨_, hrun, rfl, rfl, HasError_addError _ _ _, ?_⟩
  obtain ⟨new1, hnew1, _⟩ := Client.UpdateCase_classified L r.client
    (req.Plan.Raw.getD {}).ID.ValueString (caseRequestOf (req.Plan.Raw.getD {})) w
  obtain ⟨new2, hnew2, _⟩ := Client.UpdateCaseStatus_classified L r.client
    (req.Plan.Raw.getD {}).ID.ValueString (req.Plan.Raw.getD {}).Status.ValueString w1
  rw [hput] at hnew1
  rw [hstatus] at hnew2
  simp only at hnew1 hnew2
  unfold exchangesOf
  rw [hrun, hput, hstatus]
  simp only
  have e1 : w1.log.drop w.log.length = new1 := by rw [hnew1, List.drop_left]
  have e2 : w2.log.drop w1.log.length = new2 := by rw [hnew2, List.drop_left]
  rw [exchanges_of_two_steps w w1 w2 new1 new2 hnew1 hnew2, e1, e2]

theorem CaseResource_Update_status_failure_witness :
    ∃ resp1, (⟨demo⟩ : CaseResource _).Update stdlib
        ⟨⟨some closeCase3Plan, []⟩, ⟨some caseState, []⟩⟩ (emptyResponse (some caseState))
        (fresh [reply 200 caseBody, reply 500 "boom"]) = (.ok resp1, ⟨[], [
          ⟨demo.stamp ⟨"PUT", demoURL "/cases/3", [],
            (stdlib.Marshal (caseRequestOf closeCase3Plan).toJSON).toOption⟩,
            reply 200 caseBody⟩,
          ⟨demo.stamp ⟨"PUT", demoURL "/cases/3/close", [], none⟩, reply 500 "boom"⟩]⟩) ∧
      resp1.State = (emptyResponse (some caseState)).State ∧
      resp1.Diagnostics = (diag.Diagnostics.Append (emptyResponse (some caseState)).Diagnostics
          ([] : diag.Diagnostics)).AddError
        "Client Error" ("Unable to update case status, got error: " ++
          (Err.status 500 "status: 500").Error) ∧
      resp1.Diagnostics.HasError = true ∧
      exchangesOf ((⟨demo⟩ : CaseResource _).Update stdlib
          ⟨⟨some closeCase3Plan, []⟩, ⟨some caseState, []⟩⟩ (emptyResponse (some caseState)))
          (fresh [reply 200 caseBody, reply 500 "boom"]) =
        exchangesOf (demo.UpdateCase stdlib
          (Option.getD (some closeCase3Plan) {}).ID.ValueString
          (caseRequestOf (Option.getD (some closeCase3Plan) {})))
          (fresh [reply 200 caseBody, reply 500 "boom"]) ++
        exchangesOf (demo.UpdateCaseStatus stdlib
          (Option.getD (some closeCase3Plan) {}).ID.ValueString
          (Option.getD (some closeCase3Plan) {}).Status.ValueString)
          ⟨[reply 500 "boom"], [
            ⟨demo.stamp ⟨"PUT", demoURL "/cases/3", [],
              (stdlib.Marshal (caseRequestOf closeCase3Plan).toJSON).toOption⟩,
              reply 200 caseBody⟩]⟩ :=
  CaseResource_Update_status_failure stdlib ⟨demo⟩
    ⟨⟨some closeCase3Plan, []⟩, ⟨some caseState, []⟩⟩ (emptyResponse (some caseState))
    (fresh [reply 200 caseBody, reply 500 "boom"])
    ⟨[reply 500 "boom"], [
      ⟨demo.stamp ⟨"PUT", demoURL "/cases/3", [],
        (stdlib.Marshal (caseRequestOf closeCase3Plan).toJSON).toOption⟩,
        reply 200 caseBody⟩]⟩
    ⟨[], [
      ⟨demo.stamp ⟨"PUT", demoURL "/cases/3", [],
        (stdlib.Marshal (caseRequestOf closeCase3Plan).toJSON).toOption⟩,
        reply 200 caseBody⟩,
      ⟨demo.stamp ⟨"PUT", demoURL "/cases/3/close", [], none⟩, reply 500 "boom"⟩]⟩
    ⟨7, "fraud-2024", "CASE-7", "2024-01-01", "PRIVATE", ""⟩ (.status 500 "status: 500")
    (by decide) (by decide) (by decide) (by decide)

/-! ## Repeated updates -/

/-- What a run of the shared shape that returned a value went through. -/
theorem Client.exchange_ok_inv {σ α : Type} (L : GoStd) (c : Client σ)
    (method url : String) (payload : Option JObj) (reject : Int → Prop)
    [DecidablePred reject] (text : Response → String) (k : Response → Op σ α)
    (hk : ∀ res, Quiet (k res)) (w : Net σ) (a : α)
    (h : (c.exchange L method url payload reject text k w).1 = .ok a) :
    ∃ body u res s, encodeBody L payload = .ok body ∧ L.urlParse url = .ok u ∧
      c.HTTPClient.Do (c.stamp ⟨method, u, [], body⟩) w.remote = (.ok res, s) ∧
      (k res (w.after s ⟨c.stamp ⟨method, u, [], body⟩, .ok res⟩)).1 = .ok a ∧
      (c.exchange L method url payload reject text k w).2 =
        w.after s ⟨c.stamp ⟨method, u, [], body⟩, .ok res⟩ := by
  rw [Client.exchange_apply] at h ⊢
  cases hB : encodeBody L payload with
  | error e => simp [hB] at h
  | ok body =>
    cases hU : L.urlParse url with
    | error e => simp [hB, hU] at h
    | ok u =>
      simp only [hB, hU] at h ⊢
      cases hD : c.HTTPClient.Do (c.stamp ⟨method, u, [], body⟩) w.remote with
      | mk r s =>
        cases r with
        | error e => simp [hD] at h
        | ok res =>
          simp only [hD] at h ⊢
          by_cases hr : reject res.StatusCode
          · simp [hr] at h
          · simp only [hr, if_false] at h ⊢
            refine ⟨body, u, res, s, rfl, rfl, hD, h, ?_⟩
            exact (hk res _).1

/-- The requests of a run of the shared shape are an initial part of the planned
request, and all of it when the run returned a value. -/
theorem Client.exchange_planned {σ α : Type} (L : GoStd) (c : Client σ)
    (method url : String) (payload : Option JObj) (reject : Int → Prop)
    [DecidablePred reject] (text : Response → String) (k : Response → Op σ α)
    (hk : ∀ res, Quiet (k res)) (w : Net σ) :
    (exchangesOf (c.exchange L method url payload reject text k) w).map (fun ex => ex.req)
      <+: plannedRequest L c method url payload := by
  unfold plannedRequest
  cases hB : encodeBody L payload with
  | error e =>
    simp only
    unfold exchangesOf
    rw [Client.exchange_apply]
    simp [hB]
  | ok body =>
    cases hU : L.urlParse url with
    | error e =>
      simp only
      unfold exchangesOf
      rw [Client.exchange_apply]
      simp [hB, hU]
    | ok u =>
      rw [Client.exchange_exchanges L c method url payload reject text k w body u hB hU hk]
      simp

/-- Two runs of the shared shape, with a continuation whose outcome depends on the
response alone, that got the same answers return the same outcome. -/
theorem Client.exchange_same_answers {σ α : Type} (L : GoStd) (c : Client σ)
    (method url : String) (payload : Option JObj) (reject : Int → Prop)
    [DecidablePred reject] (text : Response → String) (k : Response → Op σ α)
    (hk : ∀ res, Quiet (k res)) (hout : ∀ res w1 w2, (k res w1).1 = (k res w2).1)
    (w1 w2 : Net σ)
    (h : (exchangesOf (c.exchange L method url payload reject text k) w1).map
          (fun ex => ex.res) =
        (exchangesOf (c.exchange L method url payload reject text k) w2).map
          (fun ex => ex.res)) :
    (c.exchange L method url payload reject text k w1).1 =
      (c.exchange L method url payload reject text k w2).1 := by
  cases hB : encodeBody L payload with
  | error e =>
    rw [Client.exchange_apply, Client.exchange_apply]
    simp [hB]
  | ok body =>
    cases hU : L.urlParse url with
    | error e =>
      rw [Client.exchange_apply, Client.exchange_apply]
      simp [hB, hU]
    | ok u =>
      rw [Client.exchange_exchanges L c method url payload reject text k w1 body u hB hU hk,
        Client.exchange_exchanges L c method url payload reject text k w2 body u hB hU hk]
        at h
      simp only [List.map_cons, List.map_nil, List.cons.injEq, and_true] at h
      rw [Client.exchange_apply, Client.exchange_apply]
      simp only [hB, hU]
      rcases hD1 : c.HTTPClient.Do (c.stamp ⟨method, u, [], body⟩) w1.remote with ⟨r1, s1⟩
      rcases hD2 : c.HTTPClient.Do (c.stamp ⟨method, u, [], body⟩) w2.remote with ⟨r2, s2⟩
      rw [hD1, hD2] at h
      simp only at h
      subst h
      cases r1 with
      | error e => rfl
      | ok res =>
        simp only
        by_cases hr : reject res.StatusCode
        · simp [hr]
        · simp only [hr, if_false]
          exact hout res _ _

/-- The exchanges of a mapper of the shared shape are those of its client call, or none
when the record could not be read. -/
theorem resourceCall_exchanges {σ M β : Type} (src : tfsdk.State M) (zero : M)
    (call : M → Op σ β) (failText : String) (merge : M → β → M)
    (resp : resource.Response M) (w : Net σ) :
    exchangesOf (resourceCall src zero call failText merge resp) w =
      if (resp.appendDiags src.getDiags).Diagnostics.HasError = true then []
      else exchangesOf (call (src.Raw.getD zero)) w := by
  unfold exchangesOf
  rw [resourceCall_apply]
  by_cases hE : (resp.appendDiags src.getDiags).Diagnostics.HasError = true
  · simp [hE]
  · simp only [hE, Bool.false_eq_true, if_false]
    rcases call (src.Raw.getD zero) w with ⟨o, w1⟩
    cases o <;> rfl

/-- Two initial parts of one list that have the same length are equal. -/
theorem prefix_eq_of_length {α : Type} (l1 l2 p : List α) (h1 : l1 <+: p) (h2 : l2 <+: p)
    (hlen : l1.length = l2.length) : l1 = l2 :=
  (List.prefix_of_prefix_length_le h1 h2 (le_of_eq hlen)).eq_of_length hlen

/-- A mapper of the shared shape is repeatable when its client call sends an initial
part of the planned requests and its outcome is fixed by the answers. -/
theorem resourceCall_repeatable {σ M β : Type} (plan : tfsdk.Plan M) (zero : M)
    (call : M → Op σ β) (failText : String) (merge : M → β → M) (planned : List Request)
    (hreq : ∀ w, (exchangesOf (call (plan.Raw.getD zero)) w).map (fun ex => ex.req)
      <+: planned)
    (hout : ∀ w1 w2,
      (exchangesOf (call (plan.Raw.getD zero)) w1).map (fun ex => ex.res) =
        (exchangesOf (call (plan.Raw.getD zero)) w2).map (fun ex => ex.res) →
      (call (plan.Raw.getD zero) w1).1 = (call (plan.Raw.getD zero) w2).1) :
    Repeatable planned
      (fun (_ : tfsdk.State M) resp => resourceCall plan zero call failText merge resp) := by
  have hpre : ∀ (resp : resource.Response M) (w : Net σ),
      (exchangesOf (resourceCall plan zero call failText merge resp) w).map
        (fun ex => ex.req) <+: planned := by
    intro resp w
    rw [resourceCall_exchanges]
    split
    · simp
    · exact hreq w
  refine ⟨fun _ resp w => hpre resp w, ?_⟩
  intro _ _ resp1 resp2 w1 w2 hsame
  beta_reduce at hsame ⊢
  refine ⟨prefix_eq_of_length _ _ planned (hpre resp1 w1) (hpre resp2 w2) ?_, ?_⟩
  · have := congrArg List.length hsame
    simpa using this
  · intro out1 out2 h1 h2
    obtain ⟨got1, hg1, hraw1, _⟩ := resourceCall_succeeded _ _ _ _ _ _ _ _ h1
    obtain ⟨got2, hg2, hraw2, _⟩ := resourceCall_succeeded _ _ _ _ _ _ _ _ h2
    have hE1 : ¬ (resp1.appendDiags plan.getDiags).Diagnostics.HasError = true := by
      intro hE
      have := h1.1
      rw [resourceCall_apply, if_pos hE] at this
      simp only [Outcome.ok.injEq] at this
      have h1' := h1.2
      rw [← this, hE] at h1'
      exact absurd h1' (by simp)
    have hE2 : ¬ (resp2.appendDiags plan.getDiags).Diagnostics.HasError = true := by
      intro hE
      have := h2.1
      rw [resourceCall_apply, if_pos hE] at this
      simp only [Outcome.ok.injEq] at this
      have h2' := h2.2
      rw [← this, hE] at h2'
      exact absurd h2' (by simp)
    rw [resourceCall_exchanges, resourceCall_exchanges, if_neg hE1, if_neg hE2] at hsame
    have := hout w1 w2 hsame
    rw [hg1, hg2] at this
    simp only [Outcome.ok.injEq] at this
    subst this
    exact ⟨_, hraw1, hraw2⟩

/-- A run of the shared shape that returned a value sent the planned request, got a
response, and returned what its continuation makes of that response. -/
theorem Client.exchange_ok_planned {σ α : Type} (L : GoStd) (c : Client σ)
    (method url : String) (payload : Option JObj) (reject : Int → Prop)
    [DecidablePred reject] (text : Response → String) (k : Response → Op σ α)
    (hk : ∀ res, Quiet (k res)) (hout : ∀ res w1 w2, (k res w1).1 = (k res w2).1)
    (w : Net σ) (a : α)
    (h : (c.exchange L method url payload reject text k w).1 = .ok a) :
    ∃ rq res, plannedRequest L c method url payload = [rq] ∧
      exchangesOf (c.exchange L method url payload reject text k) w = [⟨rq, .ok res⟩] ∧
      ∀ w1, (k res w1).1 = .ok a := by
  obtain ⟨body, u, res, s, hB, hU, hD, hka, _⟩ :=
    Client.exchange_ok_inv L c method url payload reject text k hk w a h
  refine ⟨c.stamp ⟨method, u, [], body⟩, res, ?_, ?_, ?_⟩
  · simp [plannedRequest, hB, hU]
  · rw [Client.exchange_exchanges L c method url payload reject text k w body u hB hU hk, hD]
  · intro w1
    rw [hout res w1, hka]

theorem Client.UpdateCaseStatus_planned {σ : Type} (L : GoStd) (c : Client σ)
    (caseID status : String) (w : Net σ) :
    (exchangesOf (c.UpdateCaseStatus L caseID status) w).map (fun ex => ex.req)
      <+: plannedStatus L c caseID status := by
  rw [Client.UpdateCaseStatus_eq]
  unfold plannedStatus
  split_ifs
  · exact Client.exchange_planned _ _ _ _ _ _ _ _ (fun _ => pure_quiet _) w
  · exact Client.exchange_planned _ _ _ _ _ _ _ _ (fun _ => pure_quiet _) w
  · simp [exchangesOf, Op.fail]

/-- The exchanges of `CaseResource.Update`: those of the PUT of the fields, followed by
those of the status transition when the PUT returned a case and the planned status is
known. -/
theorem CaseResource_Update_exchanges {σ : Type} (L : GoStd) (r : CaseResource σ)
    (req : resource.UpdateRequest CaseResourceModel)
    (resp : resource.UpdateResponse CaseResourceModel) (w : Net σ) :
    exchangesOf (r.Update L req resp) w =
      if (resp.appendDiags req.Plan.getDiags).Diagnostics.HasError = true then []
      else
        exchangesOf (r.client.UpdateCase L (req.Plan.Raw.getD {}).ID.ValueString
          (caseRequestOf (req.Plan.Raw.getD {}))) w ++
        match r.client.UpdateCase L (req.Plan.Raw.getD {}).ID.ValueString
            (caseRequestOf (req.Plan.Raw.getD {})) w with
        | (.ok _, w1) =>
          if (!(req.Plan.Raw.getD {}).Status.IsNull &&
              !(req.Plan.Raw.getD {}).Status.IsUnknown) = true then
            exchangesOf (r.client.UpdateCaseStatus L (req.Plan.Raw.getD {}).ID.ValueString
              (req.Plan.Raw.getD {}).Status.ValueString) w1
          else []
        | _ => [] := by
  unfold exchangesOf
  rw [CaseResource_Update_apply]
  by_cases hE : (resp.appendDiags req.Plan.getDiags).Diagnostics.HasError = true
  · simp [hE]
  · simp only [hE, Bool.false_eq_true, if_false]
    obtain ⟨new1, hnew1, _⟩ := Client.UpdateCase_classified L r.client
      (req.Plan.Raw.getD {}).ID.ValueString (caseRequestOf (req.Plan.Raw.getD {})) w
    rcases hX : r.client.UpdateCase L (req.Plan.Raw.getD {}).ID.ValueString
      (caseRequestOf (req.Plan.Raw.getD {})) w with ⟨o, w1⟩
    rw [hX] at hnew1
    simp only at hnew1
    cases o with
    | panic m => simp
    | error err => simp
    | ok updatedCase =>
      simp only
      by_cases hS : (!(req.Plan.Raw.getD {}).Status.IsNull &&
          !(req.Plan.Raw.getD {}).Status.IsUnknown) = true
      · simp only [hS, if_true]
        obtain ⟨new2, hnew2, _⟩ := Client.UpdateCaseStatus_classified L r.client
          (req.Plan.Raw.getD {}).ID.ValueString (req.Plan.Raw.getD {}).Status.ValueString w1
        rcases hY : r.client.UpdateCaseStatus L (req.Plan.Raw.getD {}).ID.ValueString
          (req.Plan.Raw.getD {}).Status.ValueString w1 with ⟨o2, w2⟩
        rw [hY] at hnew2
        simp only at hnew2
        have e1 : w1.log.drop w.log.length = new1 := by rw [hnew1, List.drop_left]
        have e2 : w2.log.drop w1.log.length = new2 := by rw [hnew2, List.drop_left]
        have e := exchanges_of_two_steps w w1 w2 new1 new2 hnew1 hnew2
        cases o2 <;> simp only [e, e1, e2]
      · simp [hS]

/-- `CaseResource.Update` is repeatable. -/
theorem CaseResource_Update_repeatable {σ : Type} (L : GoStd) (r : CaseResource σ)
    (plan : tfsdk.Plan CaseResourceModel) :
    Repeatable (plannedCaseUpdate L r.client (plan.Raw.getD {}))
      (fun st resp => r.Update L ⟨plan, st⟩ resp) := by
  have hpre : ∀ (st : tfsdk.State CaseResourceModel)
      (resp : resource.Response CaseResourceModel) (w : Net σ),
      (exchangesOf (r.Update L ⟨plan, st⟩ resp) w).map (fun ex => ex.req)
        <+: plannedCaseUpdate L r.client (plan.Raw.getD {}) := by
    intro st resp w
    rw [CaseResource_Update_exchanges]
    unfold plannedCaseUpdate
    split
    · simp
    · rcases hX : r.client.UpdateCase L (plan.Raw.getD {}).ID.ValueString
        (caseRequestOf (plan.Raw.getD {})) w with ⟨o, w1⟩
      have hpl := Client.exchange_planned L r.client "PUT"
        (r.client.Endpoint ++ "/cases/" ++ (plan.Raw.getD {}).ID.ValueString)
        (some (caseRequestOf (plan.Raw.getD {})).toJSON) (fun n => n ≠ http.StatusOK)
        textBody (decodeWith L.unmarshalCase id) (fun r => decodeWith_quiet _ _ r) w
      rw [← Client.UpdateCase_eq] at hpl
      cases o with
      | panic m =>
        simp only [List.append_nil]
        exact hpl.trans (List.prefix_append _ _)
      | error err =>
        simp only [List.append_nil]
        exact hpl.trans (List.prefix_append _ _)
      | ok updatedCase =>
        have hok : (r.client.UpdateCase L (plan.Raw.getD {}).ID.ValueString
            (caseRequestOf (plan.Raw.getD {})) w).1 = .ok updatedCase := by rw [hX]
        rw [Client.UpdateCase_eq] at hok
        obtain ⟨rq, res, hplan, hex, _⟩ := Client.exchange_ok_planned L r.client "PUT" _ _ _
          textBody (decodeWith L.unmarshalCase id) (fun r => decodeWith_quiet _ _ r)
          (fun r w1 w2 => decodeWith_outcome _ _ r w1 w2) w updatedCase hok
        rw [← Client.UpdateCase_eq] at hex
        rw [hex, hplan]
        simp only [List.map_append, List.map_cons, List.map_nil]
        rw [List.prefix_append_right_inj]
        split
        · exact Client.UpdateCaseStatus_planned L r.client _ _ w1
        · simp
  refine ⟨hpre, ?_⟩
  intro st1 st2 resp1 resp2 w1 w2 hsame
  beta_reduce at hsame ⊢
  refine ⟨prefix_eq_of_length _ _ _ (hpre st1 resp1 w1) (hpre st2 resp2 w2) ?_, ?_⟩
  · have := congrArg List.length hsame
    simpa using this
  · intro out1 out2 h1 h2
    obtain ⟨u1, hu1, hraw1⟩ := CaseResource_Update_succeeded L r ⟨plan, st1⟩ resp1 w1 out1 h1
    obtain ⟨u2, hu2, hraw2⟩ := CaseResource_Update_succeeded L r ⟨plan, st2⟩ resp2 w2 out2 h2
    have hE1 : ¬ (resp1.appendDiags plan.getDiags).Diagnostics.HasError = true := by
      intro hE
      have := h1.1
      rw [CaseResource_Update_apply, if_pos hE] at this
      simp only [Outcome.ok.injEq] at this
      have h1b := h1.2
      rw [← this, hE] at h1b
      exact absurd h1b (by simp)
    have hE2 : ¬ (resp2.appendDiags plan.getDiags).Diagnostics.HasError = true := by
      intro hE
      have := h2.1
      rw [CaseResource_Update_apply, if_pos hE] at this
      simp only [Outcome.ok.injEq] at this
      have h2b := h2.2
      rw [← this, hE] at h2b
      exact absurd h2b (by simp)
    rw [CaseResource_Update_exchanges, CaseResource_Update_exchanges, if_neg hE1,
      if_neg hE2] at hsame
    simp only at hu1 hu2
    have hk1 := hu1
    have hk2 := hu2
    rw [Client.UpdateCase_eq] at hk1 hk2
    obtain ⟨rq1, res1, _, hex1, hdec1⟩ := Client.exchange_ok_planned L r.client "PUT" _ _ _
      textBody (decodeWith L.unmarshalCase id) (fun r => decodeWith_quiet _ _ r)
      (fun r w1 w2 => decodeWith_outcome _ _ r w1 w2) w1 u1 hk1
    obtain ⟨rq2, res2, _, hex2, hdec2⟩ := Client.exchange_ok_planned L r.client "PUT" _ _ _
      textBody (decodeWith L.unmarshalCase id) (fun r => decodeWith_quiet _ _ r)
      (fun r w1 w2 => decodeWith_outcome _ _ r w1 w2) w2 u2 hk2
    rw [← Client.UpdateCase_eq] at hex1 hex2
    simp only at hsame
    rw [hex1, hex2] at hsame
    simp only [List.map_append, List.map_cons, List.map_nil, List.singleton_append,
      List.cons.injEq, Except.ok.injEq] at hsame
    have hres := hsame.1
    subst hres
    have := hdec1 w1
    rw [hdec2 w1] at this
    simp only [Outcome.ok.injEq] at this
    subst this
    exact ⟨_, hraw1, hraw2⟩

/-- C24. For each Update mapper (Case, User, DirectoryGroup, RetentionPolicy, LegalHold,
Tag) and every plan: the requests of every run are an initial part of a list fixed by the
plan, the PUT of the planned record and, for Case, the status transition after it; and
for two runs of the same plan, from any two states of the service and with any prior
state and response, whose exchanges got the same answers, the requests sent are the same
and, when both runs succeed, both store the same record. -/
theorem update_is_repeatable {σ : Type} (L : GoStd) :
    (∀ (r : CaseResource σ) (plan : tfsdk.Plan CaseResourceModel),
      Repeatable (plannedCaseUpdate L r.client (plan.Raw.getD {}))
        (fun st resp => r.Update L ⟨plan, st⟩ resp)) ∧
    (∀ (r : UserResource σ) (plan : tfsdk.Plan UserResourceModel),
      Repeatable
        (plannedRequest L r.client "PUT"
          (r.client.Endpoint ++ "/users/" ++ (plan.Raw.getD {}).ID.ValueString)
          (some (userRequestOf (plan.Raw.getD {})).toJSON))
        (fun st resp => r.Update L ⟨plan, st⟩ resp)) ∧
    (∀ (r : DirectoryGroupResource σ) (plan : tfsdk.Plan DirectoryGroupResourceModel),
      Repeatable
        (plannedRequest L r.client "PUT"
          (r.client.Endpoint ++ "/directory_groups/" ++ (plan.Raw.getD {}).ID.ValueString)
          (some (directoryGroupRequestOf (plan.Raw.getD {})).toJSON))
        (fun st resp => r.Update L ⟨plan, st⟩ resp)) ∧
    (∀ (r : RetentionPolicyResource σ) (plan : tfsdk.Plan RetentionPolicyResourceModel),
      Repeatable
        (plannedRequest L r.client "PUT"
          (r.client.Endpoint ++ "/retention_policies/" ++ (plan.Raw.getD {}).ID.ValueString)
          (some (retentionPolicyRequestOf (plan.Raw.getD {})).toJSON))
        (fun st resp => r.Update L ⟨plan, st⟩ resp)) ∧
    (∀ (r : LegalHoldResource σ) (plan : tfsdk.Plan LegalHoldResourceModel),
      Repeatable
        (plannedRequest L r.client "PUT"
          (r.client.Endpoint ++ "/legal_holds/" ++ (plan.Raw.getD {}).ID.ValueString)
          (some (legalHoldRequestOf (plan.Raw.getD {})).toJSON))
        (fun st resp => r.Update L ⟨plan, st⟩ resp)) ∧
    (∀ (r : TagResource σ) (plan : tfsdk.Plan TagResourceModel),
      Repeatable
        (plannedRequest L r.client "PUT"
          (r.client.Endpoint ++ "/tags/" ++ (plan.Raw.getD {}).ID.ValueString)
          (some (tagRequestOf (plan.Raw.getD {})).toJSON))
        (fun st resp => r.Update L ⟨plan, st⟩ resp)) :=
  ⟨fun r plan => CaseResource_Update_repeatable L r plan,
   fun r plan => by
      simp only [UserResource_Update_eq]
      refine resourceCall_repeatable plan {} _ _ _ _ (fun w => ?_) (fun w1 w2 h => ?_)
      · rw [Client.UpdateUser_eq]
        exact Client.exchange_planned _ _ _ _ _ _ _ _ (fun r => decodeWith_quiet _ _ r) w
      · rw [Client.UpdateUser_eq] at h ⊢
        exact Client.exchange_same_answers _ _ _ _ _ _ _ _ (fun r => decodeWith_quiet _ _ r)
          (fun r w1 w2 => decodeWith_outcome _ _ r w1 w2) w1 w2 h,
   fun r plan => by
      simp only [DirectoryGroupResource_Update_eq]
      refine resourceCall_repeatable plan {} _ _ _ _ (fun w => ?_) (fun w1 w2 h => ?_)
      · rw [Client.UpdateDirectoryGroup_eq]
        exact Client.exchange_planned _ _ _ _ _ _ _ _ (fun r => decodeWith_quiet _ _ r) w
      · rw [Client.UpdateDirectoryGroup_eq] at h ⊢
        exact Client.exchange_same_answers _ _ _ _ _ _ _ _ (fun r => decodeWith_quiet _ _ r)
          (fun r w1 w2 => decodeWith_outcome _ _ r w1 w2) w1 w2 h,
   fun r plan => by
      simp only [RetentionPolicyResource_Update_eq]
      refine resourceCall_repeatable plan {} _ _ _ _ (fun w => ?_) (fun w1 w2 h => ?_)
      · rw [Client.UpdateRetentionPolicy_eq]
        exact Client.exchange_planned _ _ _ _ _ _ _ _ (fun r => decodeWith_quiet _ _ r) w
      · rw [Client.UpdateRetentionPolicy_eq] at h ⊢
        exact Client.exchange_same_answers _ _ _ _ _ _ _ _ (fun r => decodeWith_quiet _ _ r)
          (fun r w1 w2 => decodeWith_outcome _ _ r w1 w2) w1 w2 h,
   fun r plan => by
      simp only [LegalHoldResource_Update_eq]
      refine resourceCall_repeatable plan {} _ _ _ _ (fun w => ?_) (fun w1 w2 h => ?_)
      · rw [Client.UpdateLegalHold_eq]
        exact Client.exchange_planned _ _ _ _ _ _ _ _ (fun r => decodeWith_quiet _ _ r) w
      · rw [Client.UpdateLegalHold_eq] at h ⊢
        exact Client.exchange_same_answers _ _ _ _ _ _ _ _ (fun r => decodeWith_quiet _ _ r)
          (fun r w1 w2 => decodeWith_outcome _ _ r w1 w2) w1 w2 h,
   fun r plan => by
      simp only [TagResource_Update_eq]
      refine resourceCall_repeatable plan {} _ _ _ _ (fun w => ?_) (fun w1 w2 h => ?_)
      · rw [Client.UpdateTag_eq]
        exact Client.exchange_planned _ _ _ _ _ _ _ _ (fun r => decodeWith_quiet _ _ r) w
      · rw [Client.UpdateTag_eq] at h ⊢
        exact Client.exchange_same_answers _ _ _ _ _ _ _ _ (fun r => decodeWith_quiet _ _ r)
          (fun r w1 w2 => decodeWith_outcome _ _ r w1 w2) w1 w2 h⟩

theorem update_is_repeatable_witness :
    (exchangesOf ((⟨demo⟩ : TagResource _).Update stdlib
          ⟨⟨some tagState, []⟩, ⟨some tagStateOld, []⟩⟩ (emptyResponse (some tagStateOld)))
        (fresh [reply 200 tagBody])).map (fun ex => ex.req) =
      (exchangesOf ((⟨demo⟩ : TagResource _).Update stdlib
          ⟨⟨some tagState, []⟩, ⟨some tagState, []⟩⟩ (emptyResponse (some tagState)))
        (fresh [reply 200 tagBody, reply 500 ""])).map (fun ex => ex.req) ∧
    ∃ stored, (emptyResponse (some tagState)).State.Raw = some stored ∧
      (emptyResponse (some tagState)).State.Raw = some stored :=
  have h := ((update_is_repeatable stdlib).2.2.2.2.2 ⟨demo⟩ ⟨some tagState, []⟩).2
    ⟨some tagStateOld, []⟩ ⟨some tagState, []⟩
    (emptyResponse (some tagStateOld)) (emptyResponse (some tagState))
    (fresh [reply 200 tagBody]) (fresh [reply 200 tagBody, reply 500 ""]) (by decide)
  ⟨h.1, h.2 (emptyResponse (some tagState)) (emptyResponse (some tagState))
    ⟨by decide, by decide⟩ ⟨by decide, by decide⟩⟩

/-! ## Registered data sources -/

/-- C25 (evaluation of the code). For every provider value, the data sources registered
are exactly `thetalake_audit_logs`, `thetalake_events`, `thetalake_analysis_policies`,
`thetalake_system_status` and `thetalake_analysis_policy_hits`. None of the three types
that the acceptance tests read, `thetalake_case`, `thetalake_user` and
`thetalake_analysis`, is among them, although a constructor with each of these names
exists (`NewCaseDataSource`, `NewUserDataSource`, `NewAnalysisDataSource`). -/
theorem DataSources_omits_tested_types (p : ThetaLakeProvider) :
    registeredDataSources p =
      ["thetalake_audit_logs", "thetalake_events", "thetalake_analysis_policies",
        "thetalake_system_status", "thetalake_analysis_policy_hits"] ∧
    (∀ name ∈ dataSourcesUnderTest, name ∉ registeredDataSources p) ∧
    NewCaseDataSource.Metadata p.Metadata.1 = "thetalake_case" ∧
    NewUserDataSource.Metadata p.Metadata.1 = "thetalake_user" ∧
    NewAnalysisDataSource.Metadata p.Metadata.1 = "thetalake_analysis" := by
  have h : registeredDataSources p =
      ["thetalake_audit_logs", "thetalake_events", "thetalake_analysis_policies",
        "thetalake_system_status", "thetalake_analysis_policy_hits"] := by
    simp only [registeredDataSources, ThetaLakeProvider.DataSources,
      ThetaLakeProvider.Metadata, List.map_cons, List.map_nil, NewAuditLogsDataSource,
      NewEventsDataSource, NewAnalysisPoliciesDataSource, NewSystemStatusDataSource,
      NewAnalysisPolicyHitsDataSource]
    decide
  refine ⟨h, ?_, rfl, rfl, rfl⟩
  rw [h]
  decide

/-! ## Case-record link removal with a request that cannot be built -/

/-- C29 (evaluation of the code). Whenever the URL string
`Endpoint ++ "/cases/" ++ caseID ++ "/records/" ++ recordID` does not parse, so that
`http.NewRequest` returns no request, `RemoveRecordFromCase` neither returns nil nor an
error: it ends in the run-time panic of a nil dereference, before the construction error
is looked at. Nothing is sent. -/
theorem RemoveRecordFromCase_panics_without_request {σ : Type} (L : GoStd) (c : Client σ)
    (caseID recordID : String) (w : Net σ)
    (hU : (L.urlParse (c.Endpoint ++ "/cases/" ++ caseID ++ "/records/" ++ recordID)).isOk
      = false) :
    c.RemoveRecordFromCase L caseID recordID w =
      (.panic "runtime error: invalid memory address or nil pointer dereference", w) ∧
    (∀ err, (c.RemoveRecordFromCase L caseID recordID w).1 ≠ .error err) ∧
    (c.RemoveRecordFromCase L caseID recordID w).1 ≠ .ok () := by
  have h := Client.RemoveRecordFromCase_apply L c caseID recordID w
  cases hP : L.urlParse (c.Endpoint ++ "/cases/" ++ caseID ++ "/records/" ++ recordID) with
  | ok u => simp [hP, Except.isOk, Except.toBool] at hU
  | error e =>
    simp only [hP] at h
    rw [h]
    simp

theorem RemoveRecordFromCase_panics_without_request_witness :
    demo.RemoveRecordFromCase stdlib "7\n" "r1" (fresh [reply 204 ""]) =
      (.panic "runtime error: invalid memory address or nil pointer dereference",
        fresh [reply 204 ""]) ∧
    (∀ err, (demo.RemoveRecordFromCase stdlib "7\n" "r1" (fresh [reply 204 ""])).1
      ≠ .error err) ∧
    (demo.RemoveRecordFromCase stdlib "7\n" "r1" (fresh [reply 204 ""])).1 ≠ .ok () :=
  RemoveRecordFromCase_panics_without_request stdlib demo "7\n" "r1" (fresh [reply 204 ""])
    (by decide)

/-! ## Integration state: when the fallback GET is made -/

/-- C27. Let the PUT of `UpdateIntegrationState` be answered with status 200 and a readable
body. When the body decodes to an envelope whose `last_run` is not empty, the call
returns the decoded state as it is, whatever its `last_upload`, and the PUT is the only
exchange. The bodiless GET to the same URL follows the PUT if and only if the body does
not decode or decodes to a state whose `last_run` is empty. -/
theorem UpdateIntegrationState_fallback_iff {σ : Type} (L : GoStd) (c : Client σ)
    (integrationID : String) (paused : Bool) (w : Net σ) (rb : String) (u : URL)
    (res : Response) (s : σ)
    (hM : L.Marshal (integrationStateRequest.toJSON ⟨if paused then "paused" else "active"⟩)
      = .ok rb)
    (hU : L.urlParse (c.Endpoint ++ "/ingestion/integration/" ++ integrationID ++ "/state")
      = .ok u)
    (hD : c.HTTPClient.Do (c.stamp ⟨"PUT", u, [], some rb⟩) w.remote = (.ok res, s))
    (h200 : res.StatusCode = 200) (hread : res.BodyErr = none) :
    (∀ r, L.unmarshalIntegrationStateResponse res.Body = .ok r → r.State.LastRun ≠ "" →
      c.UpdateIntegrationState L integrationID paused w =
        (.ok r.State, w.after s ⟨c.stamp ⟨"PUT", u, [], some rb⟩, .ok res⟩) ∧
      exchangesOf (c.UpdateIntegrationState L integrationID paused) w =
        [⟨c.stamp ⟨"PUT", u, [], some rb⟩, .ok res⟩]) ∧
    (exchangesOf (c.UpdateIntegrationState L integrationID paused) w =
        [⟨c.stamp ⟨"PUT", u, [], some rb⟩, .ok res⟩,
         ⟨c.stamp ⟨"GET", u, [], none⟩,
          (c.HTTPClient.Do (c.stamp ⟨"GET", u, [], none⟩) s).1⟩] ↔
      ∀ r, L.unmarshalIntegrationStateResponse res.Body = .ok r → r.State.LastRun = "") := by
  have hrun : c.UpdateIntegrationState L integrationID paused w =
      match L.unmarshalIntegrationStateResponse res.Body with
      | .ok r =>
        if r.State.LastRun ≠ "" then
          (.ok r.State, w.after s ⟨c.stamp ⟨"PUT", u, [], some rb⟩, .ok res⟩)
        else c.GetIntegrationState L integrationID
          (w.after s ⟨c.stamp ⟨"PUT", u, [], some rb⟩, .ok res⟩)
      | .error _ => c.GetIntegrationState L integrationID
          (w.after s ⟨c.stamp ⟨"PUT", u, [], some rb⟩, .ok res⟩) := by
    rw [Client.UpdateIntegrationState_eq, Client.exchange_apply]
    simp only [encodeBody, hM, hU, hD]
    rw [if_neg (by simp [h200, http.StatusOK])]
    simp only [Op.bind_apply, Op.readAll, io.ReadAll, hread, Op.pure_apply, Net.after]
    cases hdec : L.unmarshalIntegrationStateResponse res.Body with
    | error e => rfl
    | ok r =>
      by_cases hl : r.State.LastRun = ""
      · simp [hl]
      · simp [hl]
  have hget : exchangesOf (c.GetIntegrationState L integrationID)
      (w.after s ⟨c.stamp ⟨"PUT", u, [], some rb⟩, .ok res⟩) =
      [⟨c.stamp ⟨"GET", u, [], none⟩,
        (c.HTTPClient.Do (c.stamp ⟨"GET", u, [], none⟩) s).1⟩] := by
    rw [Client.GetIntegrationState_eq]
    exact Client.exchange_exchanges L c "GET" _ none _ _ _ _ none u rfl hU
      (fun r => decodeWith_quiet _ _ r)
  have hfall : c.UpdateIntegrationState L integrationID paused w =
        c.GetIntegrationState L integrationID
          (w.after s ⟨c.stamp ⟨"PUT", u, [], some rb⟩, .ok res⟩) →
      exchangesOf (c.UpdateIntegrationState L integrationID paused) w =
        [⟨c.stamp ⟨"PUT", u, [], some rb⟩, .ok res⟩,
         ⟨c.stamp ⟨"GET", u, [], none⟩,
          (c.HTTPClient.Do (c.stamp ⟨"GET", u, [], none⟩) s).1⟩] := by
    intro heq
    obtain ⟨new, hnew, _⟩ := Client.GetIntegrationState_classified L c integrationID
      (w.after s ⟨c.stamp ⟨"PUT", u, [], some rb⟩, .ok res⟩)
    have hnew2 := exchangesOf_of_log _ _ new hnew
    rw [hget] at hnew2
    unfold exchangesOf
    rw [heq, hnew, ← hnew2]
    simp [Net.after]
  have hdirect : ∀ r, L.unmarshalIntegrationStateResponse res.Body = .ok r →
      r.State.LastRun ≠ "" →
      c.UpdateIntegrationState L integrationID paused w =
        (.ok r.State, w.after s ⟨c.stamp ⟨"PUT", u, [], some rb⟩, .ok res⟩) ∧
      exchangesOf (c.UpdateIntegrationState L integrationID paused) w =
        [⟨c.stamp ⟨"PUT", u, [], some rb⟩, .ok res⟩] := by
    intro r hdec hl
    have h1 : c.UpdateIntegrationState L integrationID paused w =
        (.ok r.State, w.after s ⟨c.stamp ⟨"PUT", u, [], some rb⟩, .ok res⟩) := by
      rw [hrun, hdec]
      simp [hl]
    refine ⟨h1, ?_⟩
    unfold exchangesOf
    rw [h1]
    simp [Net.after]
  refine ⟨hdirect, ?_, ?_⟩
  · intro hex r hdec
    by_contra hl
    rw [(hdirect r hdec hl).2] at hex
    simp at hex
  · intro hall
    apply hfall
    rw [hrun]
    cases hdec : L.unmarshalIntegrationStateResponse res.Body with
    | error e => rfl
    | ok r => simp [hall r hdec]

theorem UpdateIntegrationState_fallback_iff_witness :
    demo.UpdateIntegrationState stdlib "42" true
        (fresh [reply 200 stateBodyNoUpload, reply 200 stateBody]) =
      (.ok ⟨0, true, "2024-05-01T00:00:00Z", ""⟩,
        (fresh [reply 200 stateBodyNoUpload, reply 200 stateBody]).after [reply 200 stateBody]
          ⟨demo.stamp ⟨"PUT", demoURL "/ingestion/integration/42/state", [], some pausedBody⟩,
            .ok ⟨200, stateBodyNoUpload, none⟩⟩) ∧
    exchangesOf (demo.UpdateIntegrationState stdlib "42" true)
        (fresh [reply 200 stateBodyNoUpload, reply 200 stateBody]) =
      [⟨demo.stamp ⟨"PUT", demoURL "/ingestion/integration/42/state", [], some pausedBody⟩,
        .ok ⟨200, stateBodyNoUpload, none⟩⟩] :=
  (UpdateIntegrationState_fallback_iff stdlib demo "42" true
    (fresh [reply 200 stateBodyNoUpload, reply 200 stateBody]) pausedBody
    (demoURL "/ingestion/integration/42/state") ⟨200, stateBodyNoUpload, none⟩
    [reply 200 stateBody] (by decide) (by decide) (by decide) rfl rfl).1
    ⟨⟨0, true, "2024-05-01T00:00:00Z", ""⟩⟩ (by decide) (by decide)

/-! ## Optional numeric fields -/

/-- A mapper of the shared shape whose merge writes an optional field from the answer
obeys `StoresOptional`. -/
theorem resourceCall_storesOptional {σ M E : Type} (field : M → TypesInt64)
    (wire : E → Int) (src : tfsdk.State M) (zero : M) (call : M → Op σ E)
    (failText : String) (merge : M → E → M) (resp : resource.Response M) (w : Net σ)
    (hm : ∀ data got, field (merge data got) =
      if wire got ≠ 0 then types.Int64Value (wire got) else types.Int64Null) :
    StoresOptional field wire (call (src.Raw.getD zero) w).1
      (resourceCall src zero call failText merge resp w) := by
  intro resp1 got hS hans
  obtain ⟨got1, hg, hraw, _⟩ := resourceCall_succeeded _ _ _ _ _ _ _ _ hS
  rw [hans] at hg
  simp only [Outcome.ok.injEq] at hg
  subst hg
  refine ⟨_, hraw, ?_, ?_⟩
  · rw [hm]
    by_cases h0 : wire got = 0
    · simp [h0]
    · simp [h0, types.Int64Value, types.Int64Null]
  · intro h0
    rw [hm, if_pos h0]

/-- `ExportResource.Update` sends nothing. -/
theorem ExportResource_Update_quiet {σ : Type} (r : ExportResource σ)
    (req : resource.UpdateRequest ExportResourceModel)
    (resp : resource.UpdateResponse ExportResourceModel) (w : Net σ) :
    exchangesOf (r.Update req resp) w = [] := by
  unfold exchangesOf ExportResource.Update
  simp only [tfsdk.State.Get]
  split <;> simp [Op.bind_apply, Op.pure_apply]

/-- C28 (counterexample). `ExportResource.Update` with a plan whose `query_id` is 0
succeeds, sends no request, so no service response exists, and stores `query_id` 0, not
null. -/
theorem ExportResource_Update_keeps_zero_query_id :
    (⟨demo⟩ : ExportResource _).Update ⟨⟨some zeroQueryExportPlan, []⟩, ⟨none, []⟩⟩
        (emptyResponse none) (fresh []) =
      (.ok ⟨⟨some zeroQueryExportPlan, []⟩, [updateNotSupported]⟩, fresh []) ∧
    zeroQueryExportPlan.QueryID = types.Int64Value 0 ∧
    zeroQueryExportPlan.QueryID ≠ types.Int64Null := by
  decide

/-- C28 (amended). For `LegalHold.case_id`, `RetentionPolicy.retention_period_days` and
`User.search_id` in the Create, Read and Update mappers, and for `Export.query_id` in the
Create and Read mappers: when the run succeeds and the client call was answered with the
record `got`, the stored field is null if and only if `got` carries 0 for it, and holds
the value of `got` otherwise. The request records built from the plan carry a known plan
value as it is, so when the service echoes the request a plan value `n` other than 0 is
stored as `n` and a plan value 0 is stored as null. `ExportResource.Update` sends no
request and stores the planned record, `query_id` included, as it is. -/
theorem optional_numeric_fields {σ : Type} (L : GoStd) :
    (∀ (r : LegalHoldResource σ) (req : resource.CreateRequest LegalHoldResourceModel)
       (resp : resource.Response LegalHoldResourceModel) (w : Net σ),
      StoresOptional LegalHoldResourceModel.CaseID LegalHold.CaseID
        (r.client.CreateLegalHold L (legalHoldRequestOf (req.Plan.Raw.getD {})) w).1
        (r.Create L req resp w)) ∧
    (∀ (r : LegalHoldResource σ) (req : resource.ReadRequest LegalHoldResourceModel)
       (resp : resource.Response LegalHoldResourceModel) (w : Net σ),
      StoresOptional LegalHoldResourceModel.CaseID LegalHold.CaseID
        (r.client.GetLegalHold L (req.State.Raw.getD {}).ID.ValueString w).1
        (r.Read L req resp w)) ∧
    (∀ (r : LegalHoldResource σ) (req : resource.UpdateRequest LegalHoldResourceModel)
       (resp : resource.Response LegalHoldResourceModel) (w : Net σ),
      StoresOptional LegalHoldResourceModel.CaseID LegalHold.CaseID
        (r.client.UpdateLegalHold L (req.Plan.Raw.getD {}).ID.ValueString
          (legalHoldRequestOf (req.Plan.Raw.getD {})) w).1
        (r.Update L req resp w)) ∧
    (∀ (r : RetentionPolicyResource σ) (req : resource.CreateRequest RetentionPolicyResourceModel)
       (resp : resource.Response RetentionPolicyResourceModel) (w : Net σ),
      StoresOptional RetentionPolicyResourceModel.RetentionPeriodDays RetentionPolicy.RetentionPeriodDays
        (r.client.CreateRetentionPolicy L (retentionPolicyRequestOf (req.Plan.Raw.getD {})) w).1
        (r.Create L req resp w)) ∧
    (∀ (r : RetentionPolicyResource σ) (req : resource.ReadRequest RetentionPolicyResourceModel)
       (resp : resource.Response RetentionPolicyResourceModel) (w : Net σ),
      StoresOptional RetentionPolicyResourceModel.RetentionPeriodDays RetentionPolicy.RetentionPeriodDays
        (r.client.GetRetentionPolicy L (req.State.Raw.getD {}).ID.ValueString w).1
        (r.Read L req resp w)) ∧
    (∀ (r : RetentionPolicyResource σ) (req : resource.UpdateRequest RetentionPolicyResourceModel)
       (resp : resource.Response RetentionPolicyResourceModel) (w : Net σ),
      StoresOptional RetentionPolicyResourceModel.RetentionPeriodDays RetentionPolicy.RetentionPeriodDays
        (r.client.UpdateRetentionPolicy L (req.Plan.Raw.getD {}).ID.ValueString
          (retentionPolicyRequestOf (req.Plan.Raw.getD {})) w).1
        (r.Update L req resp w)) ∧
    (∀ (r : UserResource σ) (req : resource.CreateRequest UserResourceModel)
       (resp : resource.Response UserResourceModel) (w : Net σ),
      StoresOptional UserResourceModel.SearchID User.SearchID
        (r.client.CreateUser L (userCreateRequestOf (req.Plan.Raw.getD {})) w).1
        (r.Create L req resp w)) ∧
    (∀ (r : UserResource σ) (req : resource.ReadRequest UserResourceModel)
       (resp : resource.Response UserResourceModel) (w : Net σ),
      StoresOptional UserResourceModel.SearchID User.SearchID
        (r.client.GetUser L (req.State.Raw.getD {}).ID.ValueString w).1
        (r.Read L req resp w)) ∧
    (∀ (r : UserResource σ) (req : resource.UpdateRequest UserResourceModel)
       (resp : resource.Response UserResourceModel) (w : Net σ),
      StoresOptional UserResourceModel.SearchID User.SearchID
        (r.client.UpdateUser L (req.Plan.Raw.getD {}).ID.ValueString
          (userRequestOf (req.Plan.Raw.getD {})) w).1
        (r.Update L req resp w)) ∧
    (∀ (r : ExportResource σ) (req : resource.CreateRequest ExportResourceModel)
       (resp : resource.Response ExportResourceModel) (w : Net σ),
      StoresOptional ExportResourceModel.QueryID Export.QueryID
        (r.client.CreateExport L (exportRequestOf (req.Plan.Raw.getD {})) w).1
        (r.Create L req resp w)) ∧
    (∀ (r : ExportResource σ) (req : resource.ReadRequest ExportResourceModel)
       (resp : resource.Response ExportResourceModel) (w : Net σ),
      StoresOptional ExportResourceModel.QueryID Export.QueryID
        (r.client.GetExport L (req.State.Raw.getD {}).ID.ValueString w).1
        (r.Read L req resp w)) ∧
    (∀ (data : LegalHoldResourceModel) (n : Int), data.CaseID = .value n → (legalHoldRequestOf data).CaseID = n) ∧
    (∀ (data : RetentionPolicyResourceModel) (n : Int), data.RetentionPeriodDays = .value n → (retentionPolicyRequestOf data).RetentionPeriodDays = n) ∧
    (∀ (data : UserResourceModel) (n : Int), data.SearchID = .value n → (userCreateRequestOf data).SearchID = n) ∧
    (∀ (data : UserResourceModel) (n : Int), data.SearchID = .value n → (userRequestOf data).SearchID = n) ∧
    (∀ (data : ExportResourceModel) (n : Int), data.QueryID = .value n → (exportRequestOf data).QueryID = n) ∧
    (∀ (r : ExportResource σ) (req : resource.UpdateRequest ExportResourceModel)
       (resp resp1 : resource.Response ExportResourceModel) (w : Net σ),
      Succeeded (r.Update req resp w) resp1 →
        resp1.State.Raw = some (req.Plan.Raw.getD {}) ∧ exchangesOf (r.Update req resp) w = []) :=
  ⟨fun r req resp w => by
      rw [LegalHoldResource_Create_eq]
      exact resourceCall_storesOptional _ _ _ _ _ _ _ _ _
        (fun data got => by dsimp only; split <;> rfl),
   fun r req resp w => by
      rw [LegalHoldResource_Read_eq]
      exact resourceCall_storesOptional _ _ _ _ _ _ _ _ _
        (fun data got => by dsimp only; split <;> rfl),
   fun r req resp w => by
      rw [LegalHoldResource_Update_eq]
      exact resourceCall_storesOptional _ _ _ _ _ _ _ _ _
        (fun data got => by dsimp only; split <;> rfl),
   fun r req resp w => by
      rw [RetentionPolicyResource_Create_eq]
      exact resourceCall_storesOptional _ _ _ _ _ _ _ _ _
        (fun data got => by dsimp only; split <;> rfl),
   fun r req resp w => by
      rw [RetentionPolicyResource_Read_eq]
      exact resourceCall_storesOptional _ _ _ _ _ _ _ _ _
        (fun data got => by dsimp only; split <;> rfl),
   fun r req resp w => by
      rw [RetentionPolicyResource_Update_eq]
      exact resourceCall_storesOptional _ _ _ _ _ _ _ _ _
        (fun data got => by dsimp only; split <;> rfl),
   fun r req resp w => by
      rw [UserResource_Create_eq]
      exact resourceCall_storesOptional _ _ _ _ _ _ _ _ _
        (fun data got => by dsimp only; split <;> rfl),
   fun r req resp w => by
      rw [UserResource_Read_eq]
      exact resourceCall_storesOptional _ _ _ _ _ _ _ _ _
        (fun data got => by dsimp only; split <;> rfl),
   fun r req resp w => by
      rw [UserResource_Update_eq]
      exact resourceCall_storesOptional _ _ _ _ _ _ _ _ _
        (fun data got => by dsimp only; split <;> rfl),
   fun r req resp w => by
      rw [ExportResource_Create_eq]
      exact resourceCall_storesOptional _ _ _ _ _ _ _ _ _
        (fun data got => by dsimp only; split <;> rfl),
   fun r req resp w => by
      rw [ExportResource_Read_eq]
      exact resourceCall_storesOptional _ _ _ _ _ _ _ _ _
        (fun data got => by dsimp only; split <;> rfl),
   fun data n h => by simp [legalHoldRequestOf, h, TypesInt64.IsNull, TypesInt64.IsUnknown, TypesInt64.ValueInt64],
   fun data n h => by simp [retentionPolicyRequestOf, h, TypesInt64.IsNull, TypesInt64.IsUnknown, TypesInt64.ValueInt64],
   fun data n h => by simp [userCreateRequestOf, h, TypesInt64.IsNull, TypesInt64.IsUnknown, TypesInt64.ValueInt64],
   fun data n h => by simp [userRequestOf, h, TypesInt64.IsNull, TypesInt64.IsUnknown, TypesInt64.ValueInt64],
   fun data n h => by simp [exportRequestOf, h, TypesInt64.IsNull, TypesInt64.IsUnknown, TypesInt64.ValueInt64],
   fun r req resp resp1 w h =>
      ⟨ExportResource_Update_succeeded r req resp w resp1 h, ExportResource_Update_quiet r req resp w⟩⟩

theorem optional_numeric_fields_witness :
    ∃ stored, (emptyResponse (some zeroCaseHoldStored)).State.Raw = some stored ∧
      (stored.CaseID = types.Int64Null ↔
        LegalHold.CaseID ⟨4, "hold-1", "litigation", 0⟩ = 0) ∧
      (LegalHold.CaseID ⟨4, "hold-1", "litigation", 0⟩ ≠ 0 →
        stored.CaseID = types.Int64Value (LegalHold.CaseID ⟨4, "hold-1", "litigation", 0⟩)) :=
  (optional_numeric_fields stdlib).1 ⟨demo⟩ ⟨⟨some zeroCaseHoldPlan, []⟩⟩
    (emptyResponse none) (fresh [reply 201 holdBodyNoCase])
    (emptyResponse (some zeroCaseHoldStored)) ⟨4, "hold-1", "litigation", 0⟩
    ⟨by decide, by decide⟩ (by decide)

/-! ## Passwords on update -/

/-- C30. For every User plan: the exchanges of `UserResource.Update` are those of
`UpdateUser` called with the record `userRequestOf` of the plan, or none when the plan
cannot be read. In that record `password` and `password_confirmation` are empty whatever
the plan holds, and neither key is part of the JSON object marshalled from it. When the
run succeeds the stored record has the `password` and the `password_confirmation` of the
plan. -/
theorem UserResource_Update_omits_passwords {σ : Type} (L : GoStd) (r : UserResource σ)
    (req : resource.UpdateRequest UserResourceModel)
    (resp : resource.UpdateResponse UserResourceModel) (w : Net σ) :
    exchangesOf (r.Update L req resp) w =
      (if (resp.appendDiags req.Plan.getDiags).Diagnostics.HasError = true then []
       else exchangesOf (r.client.UpdateUser L (req.Plan.Raw.getD {}).ID.ValueString
        (userRequestOf (req.Plan.Raw.getD {}))) w) ∧
    (userRequestOf (req.Plan.Raw.getD {})).Password = "" ∧
    (userRequestOf (req.Plan.Raw.getD {})).PasswordConfirmation = "" ∧
    (userRequestOf (req.Plan.Raw.getD {})).toJSON.lookup "password" = none ∧
    (userRequestOf (req.Plan.Raw.getD {})).toJSON.lookup "password_confirmation" = none ∧
    Keeps UserResourceModel.Password req.Plan (r.Update L req resp w) ∧
    Keeps UserResourceModel.PasswordConfirmation req.Plan (r.Update L req resp w) := by
  have hp : ∀ data : UserResourceModel, (userRequestOf data).Password = "" ∧
      (userRequestOf data).PasswordConfirmation = "" := by
    intro data
    unfold userRequestOf
    dsimp only
    split <;> exact ⟨rfl, rfl⟩
  have hj : ∀ u : User, u.Password = "" → u.PasswordConfirmation = "" →
      u.toJSON.lookup "password" = none ∧
      u.toJSON.lookup "password_confirmation" = none := by
    intro u h1 h2
    unfold User.toJSON JObj.omitemptyStr JObj.omitemptyInt
    rw [h1, h2]
    by_cases hi : u.ID = 0 <;> by_cases hr : u.RoleID = 0 <;> by_cases hs : u.SearchID = 0 <;>
      simp [hi, hr, hs, List.lookup]
  refine ⟨?_, (hp _).1, (hp _).2, (hj _ (hp _).1 (hp _).2).1, (hj _ (hp _).1 (hp _).2).2,
    ?_, ?_⟩
  · rw [UserResource_Update_eq, resourceCall_exchanges]
  · rw [UserResource_Update_eq]
    exact resourceCall_keeps _ _ _ _ _ _ _ _
      (fun data got => by dsimp only; split <;> rfl)
  · rw [UserResource_Update_eq]
    exact resourceCall_keeps _ _ _ _ _ _ _ _
      (fun data got => by dsimp only; split <;> rfl)

theorem UserResource_Update_omits_passwords_witness :
    (∃ stored, (emptyResponse (some userStateRead)).State.Raw = some stored ∧
      stored.Password = userState.Password) ∧
    (exchangesOf ((⟨demo⟩ : UserResource _).Update stdlib
        ⟨⟨some userState, []⟩, ⟨some userState, []⟩⟩ (emptyResponse (some userState)))
        (fresh [reply 200 userBody])).map (fun ex => ex.req.Body) =
      [some "\x7b\"name\":\"Ana\",\"email\":\"ana@old.io\",\"role_id\":2,\"search_id\":8\x7d"] :=
  ⟨(UserResource_Update_omits_passwords stdlib ⟨demo⟩
      ⟨⟨some userState, []⟩, ⟨some userState, []⟩⟩ (emptyResponse (some userState))
      (fresh [reply 200 userBody])).2.2.2.2.2.1 userState
      (emptyResponse (some userStateRead)) rfl ⟨by decide, by decide⟩,
   by decide⟩

end ThetaLake
